import Mathlib

/-!
# Verification of the WB↔MS reconciliation engine

A shallow embedding of the status-reconciliation logic of the repository:

* `src/app/orders_sync.py` — the FBS customer-order flow: the status mapper
  `resolve_ms_customerorder_state_id`, the per-order loop of `main`
  (demand short-circuit, cancellation, order ensure, state update, demand
  gating by MS state, the insufficient-stock apply handler, run-state files).
* `src/FBW/app/supplies_sync.py` — the FBW supply flow: bootstrap marker,
  supply import (`_ensure_customerorder`), and the active loop
  (`_ensure_move`, `_ensure_demand`, move/demand flags).
* `src/app/ms_client.py` — the find/create/update calls are modelled as
  operations on an explicit `Backend` value: `find_*_by_external_code` /
  `find_*_by_name` return the first stored document whose field matches
  (MoySklad `rows[0]`), `create_*` appends a document, state updates rewrite
  the first matching document.

Conventions of the embedding:

* Strings stand for the Python strings; a missing/None status is `Option.none`
  and Python falsiness of a string is the test `= ""`.
* Timestamps are integers (parsed UTC epochs); an unparseable or missing
  timestamp is `none`, mirroring `_parse_iso_dt` / `_parse_dt` failure paths.
* HTTP side effects irrelevant to the claims (plan-date updates, demand
  status updates, logging) are noted in comments where they occur; they do
  not create documents and touch no field the claims read.
* The event trace (`Ev`) records exactly the observable actions the claims
  are about: document creations and run-state file writes, in program order.
-/

namespace WbMs

/-- The slice of `app/config.py` `Config` read by the orders flow: the MS
state ids (each optional, empty string when unset — `load_config` uses
`_opt(name, "")`) plus `test_mode`. -/
structure Config where
  ms_status_new_id : String
  ms_status_confirm_id : String
  ms_status_confirm2_id : String
  ms_status_shipped_id : String
  ms_status_delivering_id : String
  ms_status_delivered_id : String
  ms_status_cancelled_id : String
  ms_status_cancelled_by_seller_id : String
  test_mode : Bool
deriving Repr, DecidableEq

/-- Python `s or None` for a string config id: `none` when empty. -/
def strOrNone (s : String) : Option String :=
  if s = "" then none else some s

/-- `orders_sync.resolve_ms_customerorder_state_id`: maps the WB status pair
`(supplierStatus, wbStatus)` to a target MS CustomerOrder state id.
Mirrors the source line by line: falsy statuses short-circuit, cancellations
are handled only when no demand exists, `confirm`+`waiting` is the two-step
confirm keyed on membership of `oid` in the `active` set, and
`complete`×(`waiting`/`sorted`/`sold`) map to shipped/delivering/delivered. -/
def resolve_ms_customerorder_state_id (cfg : Config)
    (supplierStatus wbStatus : Option String) (oid : String)
    (active : List String) (hasDemand : Bool) : Option String :=
  match supplierStatus, wbStatus with
  | some ss, some ws =>
    if ss = "" ∨ ws = "" then none
    else if hasDemand = false ∧
        (ss = "cancel" ∨ ws = "canceled" ∨ ws = "canceled_by_client") then
      strOrNone cfg.ms_status_cancelled_id
    else if ws = "waiting" ∧ ss = "new" then
      strOrNone cfg.ms_status_new_id
    else if ws = "waiting" ∧ ss = "confirm" then
      if oid ∈ active ∧ cfg.ms_status_confirm2_id ≠ "" then
        some cfg.ms_status_confirm2_id
      else (strOrNone cfg.ms_status_confirm_id).orElse
        (fun _ => strOrNone cfg.ms_status_confirm2_id)
    else if ss = "complete" ∧ ws = "waiting" then
      strOrNone cfg.ms_status_shipped_id
    else if ss = "complete" ∧ ws = "sorted" then
      strOrNone cfg.ms_status_delivering_id
    else if ss = "complete" ∧ ws = "sold" then
      strOrNone cfg.ms_status_delivered_id
    else none
  | _, _ => none

/-- `orders_sync.main` `demand_deny_state_ids`: the MS states in which a
demand must not be created, with empty ids filtered out (the Python set
comprehension `{x for x in ... if x}`). -/
def demand_deny_state_ids (cfg : Config) : List String :=
  [cfg.ms_status_new_id, cfg.ms_status_confirm_id, cfg.ms_status_confirm2_id,
   cfg.ms_status_shipped_id, cfg.ms_status_cancelled_id,
   cfg.ms_status_cancelled_by_seller_id].filter (fun x => x ≠ "")

/-- A line item: article/SKU code and quantity (`_extract_article` /
`_extract_qty`; quantities are modelled as integers, the `qty <= 0` drop
test needs only the order). -/
structure Good where
  article : String
  qty : Int
deriving Repr, DecidableEq

/-- A MS CustomerOrder as the code reads it: `externalCode`, `name`,
the state id extracted from `state.meta.href` (`""` when no state), and its
positions. -/
structure OrderDoc where
  externalCode : String
  name : String
  stateId : String
  positions : List Good
deriving Repr, DecidableEq

/-- A MS Demand (shipment): `externalCode` plus its positions. -/
structure DemandDoc where
  externalCode : String
  positions : List Good
deriving Repr, DecidableEq

/-- A MS Move (transfer): `externalCode` plus its positions. -/
structure MoveDoc where
  externalCode : String
  positions : List Good
deriving Repr, DecidableEq

/-- The Ledger backend as observed through `MSClient`: the stored documents
of each kind, in creation order. -/
structure Backend where
  orders : List OrderDoc
  demands : List DemandDoc
  moves : List MoveDoc
deriving Repr, DecidableEq

/-- `MSClient.find_customer_order_by_external_code`: first row wins. -/
def findOrderByEC (b : Backend) (ec : String) : Option OrderDoc :=
  b.orders.find? (fun d => d.externalCode = ec)

/-- `MSClient.find_customer_order_by_name`: first row wins. -/
def findOrderByName (b : Backend) (n : String) : Option OrderDoc :=
  b.orders.find? (fun d => d.name = n)

/-- `MSClient.find_demand_by_external_code`. -/
def findDemandByEC (b : Backend) (ec : String) : Option DemandDoc :=
  b.demands.find? (fun d => d.externalCode = ec)

/-- `MSClient.find_move_by_external_code`. -/
def findMoveByEC (b : Backend) (ec : String) : Option MoveDoc :=
  b.moves.find? (fun d => d.externalCode = ec)

/-- `MSClient.update_customer_order` on the order found first by the given
external code: rewrites the state id of the first matching document. -/
def updateFirstState : List OrderDoc → String → String → List OrderDoc
  | [], _, _ => []
  | d :: ds, ec, t =>
    if d.externalCode = ec then { d with stateId := t } :: ds
    else d :: updateFirstState ds ec t

/-- Outcome of `ms.set_demand_applicable(demand, True)` as observed by the
handler in `orders_sync.main`: success, or a `requests.exceptions.HTTPError`
carrying the HTTP status and the MS error codes of the response body. -/
inductive ApplyResult where
  | ok : ApplyResult
  | httpError (status : Nat) (codes : List Nat) : ApplyResult
deriving Repr, DecidableEq

/-- Observable actions of a pass, in program order: Ledger document
creations and run-state file writes (`save_set` / `_save_state`). -/
inductive Ev where
  | createOrder (ec : String)
  | createDemand (ec : String)
  | createMove (ec : String)
  | saveMsCreated
  | saveActive
  | saveFbwState
deriving Repr, DecidableEq

/-- One WB order as the per-order loop of `orders_sync.main` sees it: its id
(as a string), its article, the status pair joined from
`/api/v3/orders/status` (absent entry gives two `none`s), and its parsed
`createdAt` (`none` = missing or unparseable). -/
structure WBOrder where
  oid : String
  article : String
  supplierStatus : Option String
  wbStatus : Option String
  createdAt : Option Int
deriving Repr, DecidableEq

/-- The strict `createdAt` cutoff filter of `orders_sync.main` (source lines
217–231): orders with a missing or unparseable `createdAt`, or one before
`min_created_at`, are dropped before processing. -/
def filterByCreatedAt (minCreatedAt : Int) (listed : List WBOrder) :
    List WBOrder :=
  listed.filter (fun o =>
    match o.createdAt with
    | some d => minCreatedAt ≤ d
    | none => false)

/-- The cancellation test of step 2 of the loop:
`supplier_status == "cancel" or wb_status in ("canceled", "canceled_by_client")`. -/
def isCancelPair (ss ws : Option String) : Prop :=
  ss = some "cancel" ∨ ws = some "canceled" ∨ ws = some "canceled_by_client"

instance (ss ws : Option String) : Decidable (isCancelPair ss ws) := by
  unfold isCancelPair; infer_instance

/-- The running state of one orders pass: the Ledger backend, the two
run-state sets (`ms_created_orders.json`, `active_orders.json`), the
end-of-run counters, and the event trace. -/
structure OrdState where
  backend : Backend
  msCreated : List String
  active : List String
  createdOrders : Nat
  createdDemands : Nat
  skippedNoArticle : Nat
  skippedNoProduct : Nat
  cancelledCnt : Nat
  demandExistsCnt : Nat
  activated : Nat
  deactivated : Nat
  demandsLeftUnapplied : Nat
  events : List Ev
deriving Repr, DecidableEq

/-- `active.discard(oid)` together with the `deactivated` counter bump that
always accompanies it in the source (the JSON file is loaded through
`set(...)`, so the active set holds no duplicates and discard removes the
element). -/
def discardActive (st : OrdState) (oid : String) : OrdState :=
  if oid ∈ st.active then
    { st with active := st.active.filter (fun x => x ≠ oid),
              deactivated := st.deactivated + 1 }
  else st

/-- Python `set.add` on a JSON-loaded set, modelled as append-if-absent. -/
def insertNew (l : List String) (x : String) : List String :=
  if x ∈ l then l else l ++ [x]

/-- `should_create_demand = bool(ms_state_id and ms_state_id not in
demand_deny_state_ids)`. -/
def should_create_demand (cfg : Config) (msStateId : String) : Bool :=
  msStateId ≠ "" ∧ msStateId ∉ demand_deny_state_ids cfg

/-- Steps 4–5 of the per-order loop: resolve the target MS state, update the
CustomerOrder, then gate demand creation on the resulting MS state id.
`msOrder` is the order the loop holds in hand (found or just created);
`products.contains` stands for a hit in the prefetched `product_by_article`.
On demand creation the source also calls `update_demand_state` when
`MS_DEMAND_STATUS_ID` is set — a state write on the demand that no claim
reads — and builds the payload from `get_customer_order_positions`, modelled
as the held order's positions. -/
def demandStep (cfg : Config) (applyRes : String → ApplyResult)
    (st : OrdState) (o : WBOrder) (msOrder : OrderDoc) :
    Except ApplyResult OrdState :=
  let oid := o.oid
  let target := resolve_ms_customerorder_state_id cfg o.supplierStatus
    o.wbStatus oid st.active false
  let stepped : OrdState × OrderDoc :=
    match target with
    | some t =>
      if cfg.test_mode then (st, msOrder)
      else
        ({ st with backend :=
            { st.backend with orders := updateFirstState st.backend.orders oid t } },
         { msOrder with stateId := t })
    | none => (st, msOrder)
  let st := stepped.1
  let msOrder := stepped.2
  if should_create_demand cfg msOrder.stateId then
    if cfg.test_mode then
      .ok (discardActive { st with createdDemands := st.createdDemands + 1 } oid)
    else
      let newDemand : DemandDoc := ⟨oid, msOrder.positions⟩
      let st := { st with
        backend := { st.backend with
          demands := st.backend.demands ++ [newDemand] },
        events := st.events ++ [Ev.createDemand oid] }
      match applyRes oid with
      | .ok =>
        .ok (discardActive { st with createdDemands := st.createdDemands + 1 } oid)
      | .httpError status codes =>
        if status = 412 ∧ 3007 ∈ codes then
          .ok (discardActive
            { st with createdDemands := st.createdDemands + 1,
                      demandsLeftUnapplied := st.demandsLeftUnapplied + 1 } oid)
        else
          .error (.httpError status codes)
  else
    .ok (if oid ∈ st.active then st
         else { st with active := st.active ++ [oid], activated := st.activated + 1 })

/-- The body of the per-order loop of `orders_sync.main` (source lines
280–419). `products` is the set of articles with a catalog hit;
`srvDefault` is the state id MoySklad itself assigns to an order created
without an explicit state (the payload carries a state only when
`ms_status_new_id` is non-empty). Orders without an `"id"` key are dropped
before this loop in the model (every `WBOrder` has an oid). -/
def processOrder (cfg : Config) (products : List String)
    (applyRes : String → ApplyResult) (srvDefault : String)
    (st : OrdState) (o : WBOrder) : Except ApplyResult OrdState :=
  let oid := o.oid
  -- step 1: demand already exists → retire and skip
  let hasDem : Bool := if cfg.test_mode then false
    else (findDemandByEC st.backend oid).isSome
  if hasDem then
    .ok (discardActive
      { st with demandExistsCnt := st.demandExistsCnt + 1 } oid)
  -- step 2: cancellation before demand
  else if isCancelPair o.supplierStatus o.wbStatus then
    let st1 :=
      if cfg.test_mode = false ∧ cfg.ms_status_cancelled_id ≠ "" then
        match findOrderByEC st.backend oid with
        | some _ =>
          { st with backend := { st.backend with
              orders := updateFirstState st.backend.orders oid
                cfg.ms_status_cancelled_id } }
        | none => st
      else st
    .ok (discardActive { st1 with cancelledCnt := st1.cancelledCnt + 1 } oid)
  else
    -- step 3: ensure the CustomerOrder (both source lookups are the same
    -- find-by-externalCode call; `ms_created` only short-circuits nothing)
    match (if cfg.test_mode then none else findOrderByEC st.backend oid) with
    | some d => demandStep cfg applyRes st o d
    | none =>
      if o.article = "" then
        .ok { st with skippedNoArticle := st.skippedNoArticle + 1 }
      else if o.article ∉ products then
        .ok { st with skippedNoProduct := st.skippedNoProduct + 1 }
      else if cfg.test_mode then
        -- TEST_MODE: fake order dict, state = payload's state
        demandStep cfg applyRes
          { st with createdOrders := st.createdOrders + 1 }
          o ⟨oid, oid, cfg.ms_status_new_id, [⟨o.article, 1⟩]⟩
      else
        let d : OrderDoc := ⟨oid, oid,
          (if cfg.ms_status_new_id = "" then srvDefault else cfg.ms_status_new_id),
          [⟨o.article, 1⟩]⟩
        demandStep cfg applyRes
          { st with
            backend := { st.backend with orders := st.backend.orders ++ [d] },
            createdOrders := st.createdOrders + 1,
            msCreated := insertNew st.msCreated oid,
            events := st.events ++ [.createOrder oid, .saveMsCreated] }
          o d

/-- A fresh pass state over given backend and run-state sets: counters zero,
trace empty (`main` initializes all counters to 0 before the loop). -/
def initOrdState (b : Backend) (msCreated active : List String) : OrdState :=
  ⟨b, msCreated, active, 0, 0, 0, 0, 0, 0, 0, 0, 0, []⟩

/-- One full orders pass: the per-order loop followed by the single
`save_set(active_file, active)` after it.  An uncaught exception aborts the
whole pass — nothing after the failing order runs and the active set is not
saved. -/
def runOrdersPass (cfg : Config) (products : List String)
    (applyRes : String → ApplyResult) (srvDefault : String)
    (orders : List WBOrder) (st0 : OrdState) : Except ApplyResult OrdState :=
  match orders.foldlM (processOrder cfg products applyRes srvDefault) st0 with
  | .ok st => .ok { st with events := st.events ++ [.saveActive] }
  | .error e => .error e

/-! ## FBW supplies flow (`src/FBW/app/supplies_sync.py`) -/

/-- The slice of `FBW/app/config_fbw.py` `FBWConfig` the model reads: the
three document state ids (all `_must`, hence non-empty in a real run; the
model keeps them general). -/
structure FBWConfig where
  ms_status_customerorder_id : String
  ms_status_move_id : String
  ms_status_demand_id : String
deriving Repr, DecidableEq

/-- The positions list every FBW builder constructs from the supply goods:
drop a good whose article is empty or quantity non-positive, and drop a good
whose article has no catalog product (the `find_product_by_article` miss).
This same filter appears verbatim in `_ensure_customerorder`, `_ensure_move`
and `_ensure_demand`. -/
def surviving_goods (products : List String) (goods : List Good) : List Good :=
  goods.filter (fun g => g.article ≠ "" ∧ 0 < g.qty ∧ g.article ∈ products)

/-- `_ensure_customerorder`: lookup by externalCode then by name; on a miss,
build positions; with zero surviving positions log
`skip_create_empty_positions` and return `None`; otherwise create. -/
def fbw_ensure_customerorder (fbw : FBWConfig) (products : List String)
    (b : Backend) (number : String) (goods : List Good) :
    Backend × Option OrderDoc × List Ev :=
  let name := "fbw-" ++ number
  let ec := name
  match (findOrderByEC b ec).orElse (fun _ => findOrderByName b name) with
  | some d => (b, some d, [])
  | none =>
    let pos := surviving_goods products goods
    if pos = [] then (b, none, [])
    else
      let d : OrderDoc := ⟨ec, name, fbw.ms_status_customerorder_id, pos⟩
      ({ b with orders := b.orders ++ [d] }, some d, [Ev.createOrder ec])

/-- `_ensure_move`: lookup by externalCode; on a miss, build positions with
the same filter and create the move — there is no empty-positions guard, the
move is created even with zero positions.  `try_apply_move` swallows every
error, so the apply outcome is not observable here. -/
def fbw_ensure_move (products : List String) (b : Backend) (ec : String)
    (goods : List Good) : Backend × List Ev :=
  match findMoveByEC b ec with
  | some _ => (b, [])
  | none =>
    let pos := surviving_goods products goods
    let d : MoveDoc := ⟨ec, pos⟩
    ({ b with moves := b.moves ++ [d] }, [Ev.createMove ec])

/-- `_ensure_demand`: same shape as `_ensure_move` — no empty-positions
guard; `try_apply_demand` swallows every error. -/
def fbw_ensure_demand (products : List String) (b : Backend) (ec : String)
    (goods : List Good) : Backend × List Ev :=
  match findDemandByEC b ec with
  | some _ => (b, [])
  | none =>
    let pos := surviving_goods products goods
    let d : DemandDoc := ⟨ec, pos⟩
    ({ b with demands := b.demands ++ [d] }, [Ev.createDemand ec])

/-- One entry of `state["supplies"]`: the supply number, the MS order id
recorded at creation, and the move/demand flags (defaulted false by
`info.get`). -/
structure SupplyInfo where
  number : String
  orderId : String
  move : Bool
  demand : Bool
deriving Repr, DecidableEq

/-- One WB supply as `main` reads it: `supplyID` (as its string form; a
supply with a missing `supplyID` is dropped when `supplies_by_id` is built
and never reaches either loop), parsed `createDate`, `statusID`, and its
goods (`wb.get_goods`). -/
structure FBWSupply where
  sid : String
  createDate : Option Int
  statusID : Option Int
  goods : List Good
deriving Repr, DecidableEq

/-- The persisted FBW run state (`fbw_state.json`): the bootstrap timestamp
and the per-supply records, keyed by supply id. -/
structure FBWState where
  bootstrappedAt : Option Int
  supplies : List (String × SupplyInfo)
deriving Repr, DecidableEq

/-- Python dict assignment `d[k] = v`: replace the existing binding in place
or append a new one. -/
def upsertInfo : List (String × SupplyInfo) → String → SupplyInfo →
    List (String × SupplyInfo)
  | [], k, v => [(k, v)]
  | (k', v') :: rest, k, v =>
    if k' = k then (k, v) :: rest else (k', v') :: upsertInfo rest k v

/-- Same for the `supplies_by_id` dict. -/
def upsertSupply : List (String × FBWSupply) → String → FBWSupply →
    List (String × FBWSupply)
  | [], k, v => [(k, v)]
  | (k', v') :: rest, k, v =>
    if k' = k then (k, v) :: rest else (k', v') :: upsertSupply rest k v

/-- Building `supplies_by_id`: insertion-ordered dict, later duplicates of a
`supplyID` overwrite the value. -/
def buildById (ss : List FBWSupply) : List (String × FBWSupply) :=
  ss.foldl (fun acc s => upsertSupply acc s.sid s) []

/-- Dict lookup. -/
def lookupSupply (byId : List (String × FBWSupply)) (sid : String) :
    Option FBWSupply :=
  (byId.find? (fun q => q.1 = sid)).map (fun q => q.2)

/-- Key-membership in the run-state dict. -/
def hasInfo (st : FBWState) (sid : String) : Bool :=
  (st.supplies.find? (fun q => q.1 = sid)).isSome

/-- Loop 1 of `supplies_sync.main` (source lines 315–355), one step: skip a
supply already tracked, skip one created at or before the bootstrap marker
(a missing/unparseable `createDate` is falsy and is NOT skipped), skip an
empty number, else ensure the CustomerOrder and, when one was returned,
record the supply in the run state with cleared flags. -/
def fbw_import_supply (fbw : FBWConfig) (products : List String) (boot : Int)
    (acc : FBWState × Backend × List Ev) (p : String × FBWSupply) :
    FBWState × Backend × List Ev :=
  let st := acc.1
  let b := acc.2.1
  let evs := acc.2.2
  let sid := p.1
  let s := p.2
  if hasInfo st sid then acc
  else if (match s.createDate with
    | some d => decide (d ≤ boot)
    | none => false) then acc
  else
    let number := s.sid
    if number = "" then acc
    else
      match fbw_ensure_customerorder fbw products b number s.goods with
      | (b', none, evs') => (st, b', evs ++ evs')
      | (b', some order, evs') =>
        let info : SupplyInfo := ⟨number, order.name, false, false⟩
        ({ st with supplies := upsertInfo st.supplies sid info },
         b', evs ++ evs')

/-- Loop 2 of `supplies_sync.main` (source lines 358–424), one step over a
snapshot entry: find the supply in `supplies_by_id`, recompute the number
(`info["number"]` falling back to `supplyID`), look the order up by name
then by externalCode, and on status 3 / status 5 with a clear flag run
`_ensure_move` / `_ensure_demand` and set the flag.  The plan-date update
(`_update_planned_date_if_needed`) creates no document and changes no field
the claims read; it is elided. -/
def fbw_process_active (products : List String)
    (byId : List (String × FBWSupply))
    (acc : FBWState × Backend × List Ev) (entry : String × SupplyInfo) :
    FBWState × Backend × List Ev :=
  let st := acc.1
  let b := acc.2.1
  let evs := acc.2.2
  let sid := entry.1
  let info := entry.2
  match lookupSupply byId sid with
  | none => acc
  | some s =>
    let number := if info.number ≠ "" then info.number else s.sid
    if number = "" then acc
    else
      match (findOrderByName b ("fbw-" ++ number)).orElse
          (fun _ => findOrderByEC b ("fbw-" ++ number)) with
      | none => acc
      | some order =>
        let stepMove : Backend × SupplyInfo × List Ev :=
          if s.statusID = some 3 ∧ info.move = false then
            let r := fbw_ensure_move products b
              ("FBW:" ++ order.name ++ ":MOVE") s.goods
            (r.1, { info with move := true }, evs ++ r.2)
          else (b, info, evs)
        let b1 := stepMove.1
        let info1 := stepMove.2.1
        let evs1 := stepMove.2.2
        let stepDemand : Backend × SupplyInfo × List Ev :=
          if s.statusID = some 5 ∧ info1.demand = false then
            let r := fbw_ensure_demand products b1
              ("FBW:" ++ order.name ++ ":DEMAND") s.goods
            (r.1, { info1 with demand := true }, evs1 ++ r.2)
          else (b1, info1, evs1)
        let b2 := stepDemand.1
        let info2 := stepDemand.2.1
        let evs2 := stepDemand.2.2
        ({ st with supplies := upsertInfo st.supplies sid info2 }, b2, evs2)

/-- `supplies_sync.main` after config/client setup: on a first run record the
bootstrap timestamp, save the state and return — no import; otherwise run
loop 1 over `supplies_by_id`, then loop 2 over a snapshot of the tracked
supplies, then save the state once.  `now` is `datetime.now(utc)`; in a
non-bootstrap run it is used only upstream of the `supplies` input. -/
def fbwRun (fbw : FBWConfig) (products : List String) (now : Int)
    (supplies : List FBWSupply) (st0 : FBWState) (b0 : Backend) :
    FBWState × Backend × List Ev :=
  match st0.bootstrappedAt with
  | none => ({ st0 with bootstrappedAt := some now }, b0, [Ev.saveFbwState])
  | some boot =>
    let byId := buildById supplies
    let acc1 := byId.foldl (fbw_import_supply fbw products boot) (st0, b0, [])
    let st1 := acc1.1
    let acc2 := st1.supplies.foldl (fbw_process_active products byId) acc1
    (acc2.1, acc2.2.1, acc2.2.2 ++ [Ev.saveFbwState])

/-! ## Helper lemmas -/

theorem strOrNone_empty : strOrNone "" = none := rfl

theorem strOrNone_eq_some {s t : String} (h : strOrNone s = some t) :
    t = s ∧ s ≠ "" := by
  unfold strOrNone at h
  split at h
  · exact absurd h (by simp)
  · exact ⟨(Option.some_inj.mp h).symm, by assumption⟩

theorem mem_demand_deny_iff (cfg : Config) (x : String) :
    x ∈ demand_deny_state_ids cfg ↔
      x ≠ "" ∧ (x = cfg.ms_status_new_id ∨ x = cfg.ms_status_confirm_id ∨
        x = cfg.ms_status_confirm2_id ∨ x = cfg.ms_status_shipped_id ∨
        x = cfg.ms_status_cancelled_id ∨
        x = cfg.ms_status_cancelled_by_seller_id) := by
  simp only [demand_deny_state_ids, List.mem_filter, List.mem_cons,
    List.mem_singleton, List.not_mem_nil, or_false, decide_eq_true_eq]
  tauto

/-- Unfolding of the mapper on present statuses. -/
theorem resolve_eq_def (cfg : Config) (ss ws : String) (oid : String)
    (act : List String) (hd : Bool) :
    resolve_ms_customerorder_state_id cfg (some ss) (some ws) oid act hd =
      (if ss = "" ∨ ws = "" then none
      else if hd = false ∧
          (ss = "cancel" ∨ ws = "canceled" ∨ ws = "canceled_by_client") then
        strOrNone cfg.ms_status_cancelled_id
      else if ws = "waiting" ∧ ss = "new" then
        strOrNone cfg.ms_status_new_id
      else if ws = "waiting" ∧ ss = "confirm" then
        if oid ∈ act ∧ cfg.ms_status_confirm2_id ≠ "" then
          some cfg.ms_status_confirm2_id
        else (strOrNone cfg.ms_status_confirm_id).orElse
          (fun _ => strOrNone cfg.ms_status_confirm2_id)
      else if ss = "complete" ∧ ws = "waiting" then
        strOrNone cfg.ms_status_shipped_id
      else if ss = "complete" ∧ ws = "sorted" then
        strOrNone cfg.ms_status_delivering_id
      else if ss = "complete" ∧ ws = "sold" then
        strOrNone cfg.ms_status_delivered_id
      else none) := rfl

theorem orElse_strOrNone_eq_some {a b t : String}
    (h : (strOrNone a).orElse (fun _ => strOrNone b) = some t) :
    t ≠ "" := by
  cases ha : strOrNone a with
  | some v =>
    rw [ha] at h
    simp only [Option.orElse, Option.some_orElse] at h
    cases h
    exact (strOrNone_eq_some ha).1 ▸ (strOrNone_eq_some ha).2
  | none =>
    rw [ha] at h
    simp only [Option.orElse, Option.none_orElse] at h
    exact (strOrNone_eq_some h).1 ▸ (strOrNone_eq_some h).2

/-- Every `some` value the mapper returns is a non-empty id. -/
theorem resolve_some_ne_empty {cfg : Config} {ss ws : Option String}
    {oid : String} {act : List String} {hd : Bool} {t : String}
    (h : resolve_ms_customerorder_state_id cfg ss ws oid act hd = some t) :
    t ≠ "" := by
  rcases ss with _ | ss
  · exact absurd h (by simp [resolve_ms_customerorder_state_id])
  rcases ws with _ | ws
  · exact absurd h (by simp [resolve_ms_customerorder_state_id])
  rw [resolve_eq_def] at h
  split_ifs at h <;>
    first
      | exact Option.noConfusion h
      | exact (strOrNone_eq_some h).1 ▸ (strOrNone_eq_some h).2
      | exact orElse_strOrNone_eq_some h
      | (injection h with h'; subst h'; tauto)

theorem find?_updateFirstState (l : List OrderDoc) (ec t : String) :
    (updateFirstState l ec t).find? (fun d => d.externalCode = ec) =
      (l.find? (fun d => d.externalCode = ec)).map
        (fun d => { d with stateId := t }) := by
  induction l with
  | nil => rfl
  | cons d ds ih =>
    by_cases hc : d.externalCode = ec
    · simp [updateFirstState, hc, List.find?_cons_of_pos]
    · simp only [updateFirstState, if_neg hc]
      rw [List.find?_cons_of_neg _ (by simp [hc]),
        List.find?_cons_of_neg _ (by simp [hc]), ih]

theorem findOrderByEC_update (b : Backend) (ec t : String) :
    findOrderByEC
        { b with orders := updateFirstState b.orders ec t } ec =
      (findOrderByEC b ec).map (fun d => { d with stateId := t }) := by
  unfold findOrderByEC
  exact find?_updateFirstState b.orders ec t

/-- `processOrder` step 1: an entity whose Demand already exists is retired
and skipped with no backend access beyond the lookup. -/
theorem processOrder_demand_exists {cfg : Config} {products : List String}
    {applyRes : String → ApplyResult} {srv : String} {st : OrdState}
    {o : WBOrder} (hm : cfg.test_mode = false)
    (hd : (findDemandByEC st.backend o.oid).isSome = true) :
    processOrder cfg products applyRes srv st o =
      .ok (discardActive
        { st with demandExistsCnt := st.demandExistsCnt + 1 } o.oid) := by
  unfold processOrder
  simp [hm, hd]

/-- `discardActive` changes only the `active` set and the `deactivated`
counter. -/
theorem discardActive_fields (st : OrdState) (oid : String) :
    (discardActive st oid).backend = st.backend ∧
    (discardActive st oid).events = st.events ∧
    (discardActive st oid).createdOrders = st.createdOrders ∧
    (discardActive st oid).createdDemands = st.createdDemands ∧
    (discardActive st oid).msCreated = st.msCreated ∧
    oid ∉ (discardActive st oid).active := by
  unfold discardActive
  split_ifs with h
  · exact ⟨rfl, rfl, rfl, rfl, rfl, by simp⟩
  · exact ⟨rfl, rfl, rfl, rfl, rfl, h⟩

/-! ## Claim C10 -/

/-- C10: for every status pair whose mapped target MS state id is configured
as the empty string, `resolve_ms_customerorder_state_id` returns `none` —
the transition is silently skipped — with the single exception that
`(confirm, waiting)` falls back from an empty first-confirm id to the
second-confirm id before returning `none`. -/
theorem claim_C10_empty_target_is_skipped (cfg : Config) (oid : String)
    (act : List String) :
    (cfg.ms_status_cancelled_id = "" → ∀ ss ws, ss ≠ "" → ws ≠ "" →
      (ss = "cancel" ∨ ws = "canceled" ∨ ws = "canceled_by_client") →
      resolve_ms_customerorder_state_id cfg (some ss) (some ws) oid act false
        = none) ∧
    (cfg.ms_status_new_id = "" → ∀ hd,
      resolve_ms_customerorder_state_id cfg (some "new") (some "waiting")
        oid act hd = none) ∧
    (cfg.ms_status_confirm_id = "" → cfg.ms_status_confirm2_id ≠ "" → ∀ hd,
      resolve_ms_customerorder_state_id cfg (some "confirm") (some "waiting")
        oid act hd = some cfg.ms_status_confirm2_id) ∧
    (cfg.ms_status_confirm_id = "" → cfg.ms_status_confirm2_id = "" → ∀ hd,
      resolve_ms_customerorder_state_id cfg (some "confirm") (some "waiting")
        oid act hd = none) ∧
    (cfg.ms_status_shipped_id = "" → ∀ hd,
      resolve_ms_customerorder_state_id cfg (some "complete") (some "waiting")
        oid act hd = none) ∧
    (cfg.ms_status_delivering_id = "" → ∀ hd,
      resolve_ms_customerorder_state_id cfg (some "complete") (some "sorted")
        oid act hd = none) ∧
    (cfg.ms_status_delivered_id = "" → ∀ hd,
      resolve_ms_customerorder_state_id cfg (some "complete") (some "sold")
        oid act hd = none) := by
  refine ⟨?_, ?_, ?_, ?_, ?_, ?_, ?_⟩
  · intro hc ss ws hss hws hcan
    rw [resolve_eq_def, if_neg (by tauto), if_pos ⟨rfl, hcan⟩]
    simp [strOrNone, hc]
  · intro hn hd
    simp [resolve_eq_def, strOrNone, hn]
  · intro hc1 hc2 hd
    simp only [resolve_eq_def, strOrNone, hc1]
    by_cases hm : oid ∈ act <;> simp [hm, hc2, Option.orElse]
  · intro hc1 hc2 hd
    simp [resolve_eq_def, strOrNone, hc1, hc2, Option.orElse]
  · intro hs hd
    simp [resolve_eq_def, strOrNone, hs]
  · intro hs hd
    simp [resolve_eq_def, strOrNone, hs]
  · intro hs hd
    simp [resolve_eq_def, strOrNone, hs]

/-- Example configuration: every optional state id unset. -/
def cfgAllEmpty : Config := ⟨"", "", "", "", "", "", "", "", false⟩

/-- Example configuration: only the second-confirm id set. -/
def cfgConfirm2Only : Config := ⟨"", "", "C2", "", "", "", "", "", false⟩

theorem claim_C10_witness :
    resolve_ms_customerorder_state_id cfgAllEmpty (some "cancel")
      (some "waiting") "1" [] false = none ∧
    resolve_ms_customerorder_state_id cfgAllEmpty (some "new")
      (some "waiting") "1" [] false = none ∧
    resolve_ms_customerorder_state_id cfgConfirm2Only (some "confirm")
      (some "waiting") "1" [] false = some "C2" ∧
    resolve_ms_customerorder_state_id cfgAllEmpty (some "confirm")
      (some "waiting") "1" [] false = none ∧
    resolve_ms_customerorder_state_id cfgAllEmpty (some "complete")
      (some "waiting") "1" [] false = none ∧
    resolve_ms_customerorder_state_id cfgAllEmpty (some "complete")
      (some "sorted") "1" [] false = none ∧
    resolve_ms_customerorder_state_id cfgAllEmpty (some "complete")
      (some "sold") "1" [] false = none := by
  have hE := claim_C10_empty_target_is_skipped cfgAllEmpty "1" []
  have h2 := claim_C10_empty_target_is_skipped cfgConfirm2Only "1" []
  exact ⟨hE.1 rfl "cancel" "waiting" (by decide) (by decide) (Or.inl rfl),
    hE.2.1 rfl false, h2.2.2.1 rfl (by decide) false,
    hE.2.2.2.1 rfl rfl false, hE.2.2.2.2.1 rfl false,
    hE.2.2.2.2.2.1 rfl false, hE.2.2.2.2.2.2 rfl false⟩

/-! ## Claim C2 -/

/-- Example configuration: only the initial-state id set. -/
def cfgNewOnly : Config := ⟨"N", "", "", "", "", "", "", "", false⟩

/-- C2 counterexample: with `has_demand=True` the Status Mapper does NOT
return no-op for every status pair — `(new, waiting)` still maps to the
configured initial state. -/
theorem claim_C2_counterexample :
    resolve_ms_customerorder_state_id cfgNewOnly (some "new")
      (some "waiting") "42" [] true = some "N" := by decide

/-- C2 amended: with `has_demand=True` the mapper suppresses only the
cancellation mappings (every cancellation pair returns no-op); non-
cancellation pairs still map.  Terminality of shipped entities is enforced
by the engine, which retires an entity with an existing Demand at step 1 of
the loop — backend untouched, no document created, no state transition
attempted, entity dropped from the active set. -/
theorem claim_C2_amended_shipment_terminal (cfg : Config) :
    (∀ ss ws oid act, ss ≠ "" → ws ≠ "" →
      (ss = "cancel" ∨ ws = "canceled" ∨ ws = "canceled_by_client") →
      resolve_ms_customerorder_state_id cfg (some ss) (some ws) oid act true
        = none) ∧
    (∀ products applyRes srv st o, cfg.test_mode = false →
      (findDemandByEC st.backend o.oid).isSome = true →
      ∃ st', processOrder cfg products applyRes srv st o = .ok st' ∧
        st'.backend = st.backend ∧ st'.events = st.events ∧
        st'.createdOrders = st.createdOrders ∧
        st'.createdDemands = st.createdDemands ∧
        o.oid ∉ st'.active) := by
  constructor
  · intro ss ws oid act hss hws hcan
    rw [resolve_eq_def, if_neg (by tauto)]
    split_ifs <;> simp_all
  · intro products applyRes srv st o hm hd
    refine ⟨_, processOrder_demand_exists hm hd, ?_⟩
    obtain ⟨h1, h2, h3, h4, _, h6⟩ := discardActive_fields
      { st with demandExistsCnt := st.demandExistsCnt + 1 } o.oid
    exact ⟨h1, h2, h3, h4, h6⟩

/-- Concrete backend holding one order and one demand for external code
`"7"`. -/
def backend7 : Backend :=
  ⟨[⟨"7", "7", "S", [⟨"A", 1⟩]⟩], [⟨"7", [⟨"A", 1⟩]⟩], []⟩

theorem claim_C2_witness :
    ∃ st', processOrder cfgNewOnly ["A"] (fun _ => ApplyResult.ok) "SRV"
        (initOrdState backend7 ["7"] ["7"]) ⟨"7", "A", some "cancel",
          some "canceled", some 10⟩ = .ok st' ∧
      st'.backend = backend7 ∧ st'.events = [] ∧
      st'.createdOrders = 0 ∧ st'.createdDemands = 0 ∧
      "7" ∉ st'.active := by
  have h := (claim_C2_amended_shipment_terminal cfgNewOnly).2 ["A"]
    (fun _ => ApplyResult.ok) "SRV" (initOrdState backend7 ["7"] ["7"])
    ⟨"7", "A", some "cancel", some "canceled", some 10⟩ rfl (by decide)
  exact h

/-! ## Generic engine-step lemmas -/

/-- `processOrder` steps 1–3 in the found-order case: no demand yet, not a
cancellation, lookup hit → the loop continues with steps 4–5 on the found
order. -/
theorem processOrder_found {cfg : Config} {products : List String}
    {applyRes : String → ApplyResult} {srv : String} {st : OrdState}
    {o : WBOrder} {d : OrderDoc} (hm : cfg.test_mode = false)
    (hnd : (findDemandByEC st.backend o.oid).isSome = false)
    (hnc : ¬ isCancelPair o.supplierStatus o.wbStatus)
    (hfound : findOrderByEC st.backend o.oid = some d) :
    processOrder cfg products applyRes srv st o =
      demandStep cfg applyRes st o d := by
  unfold processOrder
  simp [hm, hnd, hnc, hfound]

/-- `processOrder` steps 1–3 in the creation case: lookup miss with a
resolvable article → the order is created and appended, the run-state set is
saved at once, and the loop continues with steps 4–5 on the new order. -/
theorem processOrder_create {cfg : Config} {products : List String}
    {applyRes : String → ApplyResult} {srv : String} {st : OrdState}
    {o : WBOrder} (hm : cfg.test_mode = false)
    (hnd : (findDemandByEC st.backend o.oid).isSome = false)
    (hnc : ¬ isCancelPair o.supplierStatus o.wbStatus)
    (hnone : findOrderByEC st.backend o.oid = none)
    (hart : o.article ≠ "") (hprod : o.article ∈ products) :
    processOrder cfg products applyRes srv st o =
      demandStep cfg applyRes
        { st with
          backend := { st.backend with orders := st.backend.orders ++
            [⟨o.oid, o.oid,
              (if cfg.ms_status_new_id = "" then srv else cfg.ms_status_new_id),
              [⟨o.article, 1⟩]⟩] },
          createdOrders := st.createdOrders + 1,
          msCreated := insertNew st.msCreated o.oid,
          events := st.events ++ [Ev.createOrder o.oid, Ev.saveMsCreated] }
        o ⟨o.oid, o.oid,
          (if cfg.ms_status_new_id = "" then srv else cfg.ms_status_new_id),
          [⟨o.article, 1⟩]⟩ := by
  unfold processOrder
  simp [hm, hnd, hnc, hnone, hart, hprod]

/-- Steps 4–5 when the mapper returns a target inside the deny set: the
order state is updated, no demand is created, and the entity is kept (or
put) in the active set. -/
theorem demandStep_some_deny {cfg : Config} {applyRes : String → ApplyResult}
    {st : OrdState} {o : WBOrder} {msOrder : OrderDoc} {t : String}
    (hm : cfg.test_mode = false)
    (hres : resolve_ms_customerorder_state_id cfg o.supplierStatus o.wbStatus
      o.oid st.active false = some t)
    (ht : t ∈ demand_deny_state_ids cfg) :
    demandStep cfg applyRes st o msOrder =
      .ok (let st1 : OrdState := { st with backend := { st.backend with
            orders := updateFirstState st.backend.orders o.oid t } }
        if o.oid ∈ st1.active then st1
        else { st1 with active := st1.active ++ [o.oid],
                        activated := st1.activated + 1 }) := by
  have hsh : should_create_demand cfg t = false := by
    unfold should_create_demand
    simp [ht]
  unfold demandStep
  simp [hres, hm, hsh]

/-! ## Claim C3 -/

/-- C3 amended: the two-step confirm is keyed on active-set membership,
not on the entity having previously been observed in the intermediate
state.  For `(confirm, waiting)`: an entity not in the active set maps to
the first intermediate state `ms_status_confirm_id`; an entity already in
the active set — for any reason, including a prior pass that never
touched the intermediate state — maps directly to the second intermediate
state `ms_status_confirm2_id`; and at the engine level a `(confirm,
waiting)` observation updates the stored order to exactly that target and
always leaves the entity in the active set, so once at the second state
it never regresses to the first.  The counterexample shows the key
differing from the claim's: an entity made active by a `(new, waiting)`
pass, whose order never left the initial state, gets `confirm2` on its
first `(confirm, waiting)` observation. -/
theorem claim_C3_amended_active_keyed_confirm (cfg : Config)
    (h1 : cfg.ms_status_confirm_id ≠ "")
    (h2 : cfg.ms_status_confirm2_id ≠ "") :
    (∀ oid act hd, oid ∉ act →
      resolve_ms_customerorder_state_id cfg (some "confirm") (some "waiting")
        oid act hd = some cfg.ms_status_confirm_id) ∧
    (∀ oid act hd, oid ∈ act →
      resolve_ms_customerorder_state_id cfg (some "confirm") (some "waiting")
        oid act hd = some cfg.ms_status_confirm2_id) ∧
    (∀ products applyRes srv (st : OrdState) o (d : OrderDoc),
      cfg.test_mode = false →
      o.supplierStatus = some "confirm" → o.wbStatus = some "waiting" →
      (findDemandByEC st.backend o.oid).isSome = false →
      findOrderByEC st.backend o.oid = some d →
      ∃ st', processOrder cfg products applyRes srv st o = .ok st' ∧
        o.oid ∈ st'.active ∧
        findOrderByEC st'.backend o.oid = some { d with stateId :=
          if o.oid ∈ st.active then cfg.ms_status_confirm2_id
          else cfg.ms_status_confirm_id }) := by
  have hmapIn : ∀ oid act hd, oid ∈ act →
      resolve_ms_customerorder_state_id cfg (some "confirm") (some "waiting")
        oid act hd = some cfg.ms_status_confirm2_id := by
    intro oid act hd hmem
    simp [resolve_eq_def, hmem, h2]
  have hmapOut : ∀ oid act hd, oid ∉ act →
      resolve_ms_customerorder_state_id cfg (some "confirm") (some "waiting")
        oid act hd = some cfg.ms_status_confirm_id := by
    intro oid act hd hmem
    simp [resolve_eq_def, hmem, strOrNone, h1, Option.orElse]
  refine ⟨hmapOut, hmapIn, ?_⟩
  intro products applyRes srv st o d hm hss hws hnd hfound
  have hnc : ¬ isCancelPair o.supplierStatus o.wbStatus := by
    simp [isCancelPair, hss, hws]
  rw [processOrder_found hm hnd hnc hfound]
  have hres : resolve_ms_customerorder_state_id cfg o.supplierStatus
      o.wbStatus o.oid st.active false =
      some (if o.oid ∈ st.active then cfg.ms_status_confirm2_id
        else cfg.ms_status_confirm_id) := by
    rw [hss, hws]
    by_cases hmem : o.oid ∈ st.active
    · simp [hmem, hmapIn o.oid st.active false hmem]
    · simp [hmem, hmapOut o.oid st.active false hmem]
  have ht : (if o.oid ∈ st.active then cfg.ms_status_confirm2_id
      else cfg.ms_status_confirm_id) ∈ demand_deny_state_ids cfg := by
    by_cases hmem : o.oid ∈ st.active <;>
      simp [hmem, mem_demand_deny_iff, h1, h2]
  rw [demandStep_some_deny hm hres ht]
  refine ⟨_, rfl, ?_, ?_⟩
  · by_cases hmem : o.oid ∈ st.active <;> simp [hmem]
  · by_cases hmem : o.oid ∈ st.active <;>
      simp [hmem, findOrderByEC_update, hfound]

/-- Example configuration with both confirm ids set. -/
def cfgConfirmBoth : Config := ⟨"N", "C1", "C2", "", "", "", "", "", false⟩

/-- A backend holding one order `"9"` in state `"N"` and no demands. -/
def backend9 : Backend := ⟨[⟨"9", "9", "N", [⟨"A", 1⟩]⟩], [], []⟩

/-- C3 counterexample: the claim's hypothesis is "entity not previously
observed in the intermediate state", but the code keys on the run-state
active set.  A first pass observing `(new, waiting)` puts entity 9 in the
active set while its order sits in the initial state `"N"` — it was never
in the intermediate state `"C1"` — and the entity's FIRST `(confirm,
waiting)` observation then maps directly to the second intermediate state
`"C2"`, not to `"C1"` as the claim requires. -/
theorem claim_C3_counterexample :
    ∃ out, runOrdersPass cfgConfirmBoth ["A"] (fun _ => ApplyResult.ok)
        "SRV" [⟨"9", "A", some "new", some "waiting", some 10⟩]
        (initOrdState ⟨[], [], []⟩ [] []) = .ok out ∧
      out.active = ["9"] ∧
      findOrderByEC out.backend "9" =
        some ⟨"9", "9", "N", [⟨"A", 1⟩]⟩ ∧
      resolve_ms_customerorder_state_id cfgConfirmBoth (some "confirm")
        (some "waiting") "9" out.active false = some "C2" ∧
      cfgConfirmBoth.ms_status_confirm_id = "C1" ∧
      ("C2" : String) ≠ "C1" := by
  have hrun : runOrdersPass cfgConfirmBoth ["A"] (fun _ => ApplyResult.ok)
      "SRV" [⟨"9", "A", some "new", some "waiting", some 10⟩]
      (initOrdState ⟨[], [], []⟩ [] []) =
      .ok ⟨⟨[⟨"9", "9", "N", [⟨"A", 1⟩]⟩], [], []⟩, ["9"], ["9"],
        1, 0, 0, 0, 0, 0, 1, 0, 0,
        [Ev.createOrder "9", Ev.saveMsCreated, Ev.saveActive]⟩ := rfl
  exact ⟨_, hrun, rfl, rfl, rfl, rfl, by decide⟩

theorem claim_C3_witness :
    (resolve_ms_customerorder_state_id cfgConfirmBoth (some "confirm")
      (some "waiting") "9" [] false = some "C1") ∧
    (resolve_ms_customerorder_state_id cfgConfirmBoth (some "confirm")
      (some "waiting") "9" ["9"] false = some "C2") ∧
    (∃ st', processOrder cfgConfirmBoth ["A"] (fun _ => ApplyResult.ok) "SRV"
        (initOrdState backend9 ["9"] ["9"])
        ⟨"9", "A", some "confirm", some "waiting", some 10⟩ = .ok st' ∧
      "9" ∈ st'.active ∧
      findOrderByEC st'.backend "9" =
        some ⟨"9", "9", "C2", [⟨"A", 1⟩]⟩) := by
  have h := claim_C3_amended_active_keyed_confirm cfgConfirmBoth
    (by decide) (by decide)
  refine ⟨h.1 "9" [] false (by simp), h.2.1 "9" ["9"] false (by simp), ?_⟩
  obtain ⟨st', hrun, hact, hfind⟩ := h.2.2 ["A"] (fun _ => ApplyResult.ok)
    "SRV" (initOrdState backend9 ["9"] ["9"])
    ⟨"9", "A", some "confirm", some "waiting", some 10⟩
    ⟨"9", "9", "N", [⟨"A", 1⟩]⟩ rfl rfl rfl (by decide) (by decide)
  exact ⟨st', hrun, hact, by simpa using hfind⟩

/-- The state id the held order carries after step 4: the mapper's target
when there is one, else the state it already had. -/
def stateAfterUpdate (cfg : Config) (o : WBOrder) (act : List String)
    (cur : String) : String :=
  match resolve_ms_customerorder_state_id cfg o.supplierStatus o.wbStatus
    o.oid act false with
  | some t => t
  | none => cur

/-- Steps 4–5 when the gate denies: no demand document, no event, the entity
stays (or becomes) active. -/
theorem demandStep_gate_denied {cfg : Config}
    {applyRes : String → ApplyResult} {st : OrdState} {o : WBOrder}
    {msOrder : OrderDoc} (hm : cfg.test_mode = false)
    (hsh : should_create_demand cfg
      (stateAfterUpdate cfg o st.active msOrder.stateId) = false) :
    ∃ st', demandStep cfg applyRes st o msOrder = .ok st' ∧
      st'.backend.demands = st.backend.demands ∧
      st'.events = st.events ∧
      st'.createdDemands = st.createdDemands ∧
      o.oid ∈ st'.active := by
  unfold demandStep
  rcases hr : resolve_ms_customerorder_state_id cfg o.supplierStatus
      o.wbStatus o.oid st.active false with _ | t
  · rw [stateAfterUpdate, hr] at hsh
    simp only [hr, hm, Bool.false_eq_true, if_false, hsh]
    by_cases hmem : o.oid ∈ st.active <;> simp [hmem]
  · rw [stateAfterUpdate, hr] at hsh
    simp only [hr, hm, Bool.false_eq_true, if_false, hsh]
    by_cases hmem : o.oid ∈ st.active <;> simp [hmem, hsh]

/-- Steps 4–5 when the gate allows and apply succeeds: exactly one demand is
appended and the entity is retired from the active set. -/
theorem demandStep_gate_creates {cfg : Config}
    {applyRes : String → ApplyResult} {st : OrdState} {o : WBOrder}
    {msOrder : OrderDoc} (hm : cfg.test_mode = false)
    (hsh : should_create_demand cfg
      (stateAfterUpdate cfg o st.active msOrder.stateId) = true)
    (hap : applyRes o.oid = ApplyResult.ok) :
    ∃ st', demandStep cfg applyRes st o msOrder = .ok st' ∧
      st'.backend.demands = st.backend.demands ++
        [⟨o.oid, msOrder.positions⟩] ∧
      st'.events = st.events ++ [Ev.createDemand o.oid] ∧
      st'.createdDemands = st.createdDemands + 1 ∧
      o.oid ∉ st'.active ∧
      (st'.backend.orders = st.backend.orders ∨
        ∃ u, st'.backend.orders =
          updateFirstState st.backend.orders o.oid u) := by
  unfold demandStep
  rcases hr : resolve_ms_customerorder_state_id cfg o.supplierStatus
      o.wbStatus o.oid st.active false with _ | t <;>
    rw [stateAfterUpdate, hr] at hsh <;>
    simp only [hr, hm, Bool.false_eq_true, if_false, hsh, if_true, hap] <;>
    refine ⟨_, rfl, ?_, ?_, ?_, ?_, ?_⟩ <;>
    (simp only [discardActive]; split_ifs <;>
      first
        | simp_all
        | exact Or.inl rfl
        | exact Or.inr ⟨_, rfl⟩)

/-- Steps 4–5 when the gate allows and apply raises the recognized
insufficient-stock error (HTTP 412, MS code 3007): the demand stays, the
left-pending counter increments, the entity is still retired, and the step
reports success (the pass continues). -/
theorem demandStep_gate_no_stock {cfg : Config}
    {applyRes : String → ApplyResult} {st : OrdState} {o : WBOrder}
    {msOrder : OrderDoc} {codes : List Nat} (hm : cfg.test_mode = false)
    (hsh : should_create_demand cfg
      (stateAfterUpdate cfg o st.active msOrder.stateId) = true)
    (hap : applyRes o.oid = ApplyResult.httpError 412 codes)
    (hc : 3007 ∈ codes) :
    ∃ st', demandStep cfg applyRes st o msOrder = .ok st' ∧
      st'.backend.demands = st.backend.demands ++
        [⟨o.oid, msOrder.positions⟩] ∧
      st'.events = st.events ++ [Ev.createDemand o.oid] ∧
      st'.createdDemands = st.createdDemands + 1 ∧
      st'.demandsLeftUnapplied = st.demandsLeftUnapplied + 1 ∧
      o.oid ∉ st'.active ∧
      (st'.backend.orders = st.backend.orders ∨
        ∃ u, st'.backend.orders =
          updateFirstState st.backend.orders o.oid u) := by
  unfold demandStep
  rcases hr : resolve_ms_customerorder_state_id cfg o.supplierStatus
      o.wbStatus o.oid st.active false with _ | t <;>
    rw [stateAfterUpdate, hr] at hsh <;>
    simp only [hr, hm, Bool.false_eq_true, if_false, hsh, if_true, hap,
      true_and] <;>
    split_ifs with hcond <;>
    first
      | exact absurd hc hcond
      | (refine ⟨_, rfl, ?_, ?_, ?_, ?_, ?_, ?_⟩ <;>
          (simp only [discardActive]; split_ifs <;>
            first
              | simp_all
              | exact Or.inl rfl
              | exact Or.inr ⟨_, rfl⟩))

/-- Steps 4–5 when the gate allows and apply raises any other error: the
error propagates (`raise`). -/
theorem demandStep_gate_apply_fails {cfg : Config}
    {applyRes : String → ApplyResult} {st : OrdState} {o : WBOrder}
    {msOrder : OrderDoc} {status : Nat} {codes : List Nat}
    (hm : cfg.test_mode = false)
    (hsh : should_create_demand cfg
      (stateAfterUpdate cfg o st.active msOrder.stateId) = true)
    (hap : applyRes o.oid = ApplyResult.httpError status codes)
    (hne : ¬ (status = 412 ∧ 3007 ∈ codes)) :
    demandStep cfg applyRes st o msOrder =
      .error (ApplyResult.httpError status codes) := by
  unfold demandStep
  rcases hr : resolve_ms_customerorder_state_id cfg o.supplierStatus
      o.wbStatus o.oid st.active false with _ | t <;>
    rw [stateAfterUpdate, hr] at hsh <;>
    simp only [hr, hm, Bool.false_eq_true, if_false, hsh, if_true, hap] <;>
    split_ifs with hcond <;>
    first
      | exact absurd hcond hne
      | rfl

/-! ## Claim C4 -/

/-- C4: demand creation is decided solely from the current MS order state —
the gate `should_create_demand` is a function of the state id alone; it
denies every id in the configured deny set and the empty id, and allows
every other id; at the engine level a denied state creates no demand (the
entity is kept active) and an allowed state creates exactly one demand and
retires the entity. -/
theorem claim_C4_demand_gated_by_ms_state (cfg : Config) :
    (∀ s, s ∈ demand_deny_state_ids cfg →
      should_create_demand cfg s = false) ∧
    (should_create_demand cfg "" = false) ∧
    (∀ s, s ≠ "" → s ∉ demand_deny_state_ids cfg →
      should_create_demand cfg s = true) ∧
    (∀ applyRes (st : OrdState) (o : WBOrder) (msOrder : OrderDoc),
      cfg.test_mode = false →
      should_create_demand cfg
        (stateAfterUpdate cfg o st.active msOrder.stateId) = false →
      ∃ st', demandStep cfg applyRes st o msOrder = .ok st' ∧
        st'.backend.demands = st.backend.demands ∧
        st'.events = st.events ∧
        st'.createdDemands = st.createdDemands ∧
        o.oid ∈ st'.active) ∧
    (∀ applyRes (st : OrdState) (o : WBOrder) (msOrder : OrderDoc),
      cfg.test_mode = false →
      should_create_demand cfg
        (stateAfterUpdate cfg o st.active msOrder.stateId) = true →
      applyRes o.oid = ApplyResult.ok →
      ∃ st', demandStep cfg applyRes st o msOrder = .ok st' ∧
        st'.backend.demands = st.backend.demands ++
          [⟨o.oid, msOrder.positions⟩] ∧
        st'.events = st.events ++ [Ev.createDemand o.oid] ∧
        st'.createdDemands = st.createdDemands + 1 ∧
        o.oid ∉ st'.active) := by
  refine ⟨?_, ?_, ?_, ?_, ?_⟩
  · intro s hs
    simp [should_create_demand, hs]
  · simp [should_create_demand]
  · intro s h1 h2
    simp [should_create_demand, h1, h2]
  · intro applyRes st o msOrder hm hsh
    exact demandStep_gate_denied hm hsh
  · intro applyRes st o msOrder hm hsh hap
    obtain ⟨st', h1, h2, h3, h4, h5, _⟩ := demandStep_gate_creates hm hsh hap
    exact ⟨st', h1, h2, h3, h4, h5⟩

/-- A WB order whose status pair maps to no target under
`cfgConfirmBoth`. -/
def orderUnmapped : WBOrder := ⟨"9", "A", some "complete", some "waiting", some 10⟩

/-- An order document held in an allowed (non-deny) state. -/
def docAllowed : OrderDoc := ⟨"9", "9", "X", [⟨"A", 1⟩]⟩

/-- An order document held in the denied initial state. -/
def docDenied : OrderDoc := ⟨"9", "9", "N", [⟨"A", 1⟩]⟩

theorem claim_C4_witness :
    should_create_demand cfgConfirmBoth "N" = false ∧
    should_create_demand cfgConfirmBoth "" = false ∧
    should_create_demand cfgConfirmBoth "X" = true ∧
    (∃ st', demandStep cfgConfirmBoth (fun _ => ApplyResult.ok)
        (initOrdState backend9 [] ["9"]) orderUnmapped docDenied = .ok st' ∧
      st'.backend.demands = [] ∧ st'.events = [] ∧
      st'.createdDemands = 0 ∧ "9" ∈ st'.active) ∧
    (∃ st', demandStep cfgConfirmBoth (fun _ => ApplyResult.ok)
        (initOrdState backend9 [] ["9"]) orderUnmapped docAllowed = .ok st' ∧
      st'.backend.demands = [⟨"9", [⟨"A", 1⟩]⟩] ∧
      st'.events = [Ev.createDemand "9"] ∧
      st'.createdDemands = 1 ∧ "9" ∉ st'.active) := by
  have h := claim_C4_demand_gated_by_ms_state cfgConfirmBoth
  refine ⟨h.1 "N" (by decide), h.2.1, h.2.2.1 "X" (by decide) (by decide),
    ?_, ?_⟩
  · obtain ⟨st', h1, h2, h3, h4, h5⟩ := h.2.2.2.1 (fun _ => ApplyResult.ok)
      (initOrdState backend9 [] ["9"]) orderUnmapped docDenied rfl (by decide)
    exact ⟨st', h1, by simpa using h2, by simpa using h3,
      by simpa using h4, h5⟩
  · obtain ⟨st', h1, h2, h3, h4, h5⟩ := h.2.2.2.2 (fun _ => ApplyResult.ok)
      (initOrdState backend9 [] ["9"]) orderUnmapped docAllowed rfl
      (by decide) rfl
    exact ⟨st', h1, by simpa using h2, by simpa using h3,
      by simpa using h4, h5⟩

/-! ## Claim C5 -/

/-- C5: when apply (`set_demand_applicable`) raises the recognized
insufficient-stock error (HTTP 412 with MS error code 3007), the error is
caught and counted as left-pending, the created Demand remains in the
backend, the entity is retired from the active set, and the step succeeds so
the pass continues with the next entity; any other apply error propagates
out of the step. -/
theorem claim_C5_insufficient_stock_left_pending (cfg : Config) :
    (∀ applyRes (st : OrdState) (o : WBOrder) (msOrder : OrderDoc) codes,
      cfg.test_mode = false →
      should_create_demand cfg
        (stateAfterUpdate cfg o st.active msOrder.stateId) = true →
      applyRes o.oid = ApplyResult.httpError 412 codes → 3007 ∈ codes →
      ∃ st', demandStep cfg applyRes st o msOrder = .ok st' ∧
        st'.backend.demands = st.backend.demands ++
          [⟨o.oid, msOrder.positions⟩] ∧
        st'.demandsLeftUnapplied = st.demandsLeftUnapplied + 1 ∧
        st'.createdDemands = st.createdDemands + 1 ∧
        o.oid ∉ st'.active) ∧
    (∀ applyRes (st : OrdState) (o : WBOrder) (msOrder : OrderDoc)
        status codes,
      cfg.test_mode = false →
      should_create_demand cfg
        (stateAfterUpdate cfg o st.active msOrder.stateId) = true →
      applyRes o.oid = ApplyResult.httpError status codes →
      ¬ (status = 412 ∧ 3007 ∈ codes) →
      demandStep cfg applyRes st o msOrder =
        .error (ApplyResult.httpError status codes)) ∧
    (∀ products applyRes srv (st st' : OrdState) (o : WBOrder)
        (rest : List WBOrder),
      processOrder cfg products applyRes srv st o = .ok st' →
      (o :: rest).foldlM (processOrder cfg products applyRes srv) st =
        rest.foldlM (processOrder cfg products applyRes srv) st') := by
  refine ⟨?_, ?_, ?_⟩
  · intro applyRes st o msOrder codes hm hsh hap hc
    obtain ⟨st', h1, h2, _, h4, h5, h6, _⟩ :=
      demandStep_gate_no_stock hm hsh hap hc
    exact ⟨st', h1, h2, h5, h4, h6⟩
  · intro applyRes st o msOrder status codes hm hsh hap hne
    exact demandStep_gate_apply_fails hm hsh hap hne
  · intro products applyRes srv st st' o rest h
    rw [List.foldlM_cons, h]
    rfl

theorem claim_C5_witness :
    (∃ st', demandStep cfgConfirmBoth
        (fun _ => ApplyResult.httpError 412 [3007])
        (initOrdState backend9 [] ["9"]) orderUnmapped docAllowed = .ok st' ∧
      st'.backend.demands = [⟨"9", [⟨"A", 1⟩]⟩] ∧
      st'.demandsLeftUnapplied = 1 ∧ st'.createdDemands = 1 ∧
      "9" ∉ st'.active) ∧
    demandStep cfgConfirmBoth (fun _ => ApplyResult.httpError 500 [])
      (initOrdState backend9 [] ["9"]) orderUnmapped docAllowed =
      .error (ApplyResult.httpError 500 []) := by
  have h := claim_C5_insufficient_stock_left_pending cfgConfirmBoth
  constructor
  · obtain ⟨st', h1, h2, h3, h4, h5⟩ := h.1
      (fun _ => ApplyResult.httpError 412 [3007])
      (initOrdState backend9 [] ["9"]) orderUnmapped docAllowed [3007] rfl
      (by decide) rfl (by decide)
    exact ⟨st', h1, by simpa using h2, by simpa using h3,
      by simpa using h4, h5⟩
  · exact h.2.1 (fun _ => ApplyResult.httpError 500 [])
      (initOrdState backend9 [] ["9"]) orderUnmapped docAllowed 500 [] rfl
      (by decide) rfl (by decide)

/-! ## Backend evolution lemmas -/

theorem should_eq_false_iff (cfg : Config) (s : String) :
    should_create_demand cfg s = false ↔
      (s = "" ∨ s ∈ demand_deny_state_ids cfg) := by
  unfold should_create_demand
  by_cases h1 : s = "" <;> by_cases h2 : s ∈ demand_deny_state_ids cfg <;>
    simp [h1, h2]

theorem find?_updateFirstState_ne (l : List OrderDoc) {ec ec' : String}
    (t : String) (h : ec' ≠ ec) :
    (updateFirstState l ec t).find? (fun d => d.externalCode = ec') =
      l.find? (fun d => d.externalCode = ec') := by
  induction l with
  | nil => rfl
  | cons d ds ih =>
    by_cases hc : d.externalCode = ec
    · simp only [updateFirstState, if_pos hc]
      by_cases h2 : d.externalCode = ec'
      · exact absurd (hc.symm.trans h2) (Ne.symm h)
      · rw [List.find?_cons_of_neg _ (by simp [h2]),
          List.find?_cons_of_neg _ (by simp [h2])]
    · simp only [updateFirstState, if_neg hc]
      by_cases h2 : d.externalCode = ec'
      · rw [List.find?_cons_of_pos _ (by simp [h2]),
          List.find?_cons_of_pos _ (by simp [h2])]
      · rw [List.find?_cons_of_neg _ (by simp [h2]),
          List.find?_cons_of_neg _ (by simp [h2]), ih]

theorem findOrderByEC_update_ne (b : Backend) {oid ec' : String} (t : String)
    (h : ec' ≠ oid) :
    findOrderByEC { b with orders := updateFirstState b.orders oid t } ec' =
      findOrderByEC b ec' := by
  unfold findOrderByEC
  exact find?_updateFirstState_ne b.orders t h

theorem findOrderByEC_append_ne (b : Backend) {d : OrderDoc} {ec : String}
    (h : d.externalCode ≠ ec) :
    findOrderByEC { b with orders := b.orders ++ [d] } ec =
      findOrderByEC b ec := by
  unfold findOrderByEC
  rw [List.find?_append]
  have : List.find? (fun x => x.externalCode = ec) [d] = none := by
    simp [List.find?, h]
  rw [this, Option.or_none]

theorem findOrderByEC_append_self (b : Backend) {d : OrderDoc}
    (h : findOrderByEC b d.externalCode = none) :
    findOrderByEC { b with orders := b.orders ++ [d] }
      d.externalCode = some d := by
  unfold findOrderByEC at h ⊢
  rw [List.find?_append, h]
  simp [List.find?]

theorem findOrderByEC_append_isSome (b : Backend) (d : OrderDoc)
    {ec : String} (h : (findOrderByEC b ec).isSome = true) :
    (findOrderByEC { b with orders := b.orders ++ [d] } ec).isSome = true := by
  unfold findOrderByEC at h ⊢
  rw [List.find?_append]
  rcases ho : List.find? (fun x => x.externalCode = ec) b.orders with _ | v
  · rw [ho] at h; cases h
  · simp [ho]

theorem findOrderByEC_update_isSome (b : Backend) (oid t : String)
    {ec : String} (h : (findOrderByEC b ec).isSome = true) :
    (findOrderByEC { b with orders := updateFirstState b.orders oid t }
      ec).isSome = true := by
  by_cases he : ec = oid
  · subst he
    rw [findOrderByEC_update]
    rcases ho : findOrderByEC b ec with _ | v
    · rw [ho] at h; cases h
    · simp
  · rw [findOrderByEC_update_ne b t he]
    exact h

theorem findDemandByEC_append_ne (b : Backend) {d : DemandDoc} {ec : String}
    (h : d.externalCode ≠ ec) :
    findDemandByEC { b with demands := b.demands ++ [d] } ec =
      findDemandByEC b ec := by
  unfold findDemandByEC
  rw [List.find?_append]
  have : List.find? (fun x => x.externalCode = ec) [d] = none := by
    simp [List.find?, h]
  rw [this, Option.or_none]

theorem findDemandByEC_append_isSome (b : Backend) (d : DemandDoc)
    {ec : String} (h : (findDemandByEC b ec).isSome = true) :
    (findDemandByEC { b with demands := b.demands ++ [d] } ec).isSome
      = true := by
  unfold findDemandByEC at h ⊢
  rw [List.find?_append]
  rcases ho : List.find? (fun x => x.externalCode = ec) b.demands with _ | v
  · rw [ho] at h; cases h
  · simp [ho]

theorem findDemandByEC_append_self (b : Backend) (d : DemandDoc) :
    (findDemandByEC { b with demands := b.demands ++ [d] }
      d.externalCode).isSome = true := by
  unfold findDemandByEC
  rw [List.find?_append]
  rcases ho : List.find? (fun x => x.externalCode = d.externalCode)
      b.demands with _ | v
  · simp [List.find?]
  · simp

/-- A state id that keeps an order on the "too early for demand" side of the
gate: empty, or in the deny set. -/
def denyish (cfg : Config) (s : String) : Prop :=
  s = "" ∨ s ∈ demand_deny_state_ids cfg

/-- A mapper output that cannot move an order out of the deny set. -/
def optDeny (cfg : Config) : Option String → Prop
  | none => True
  | some t => t ∈ demand_deny_state_ids cfg

/-- The `active` set influences the mapper only through the two-step-confirm
branch. -/
theorem resolve_act_indep_of_not_confirm {ss ws : Option String}
    (h : ¬ (ws = some "waiting" ∧ ss = some "confirm")) (cfg : Config)
    (oid : String) (hd : Bool) (act act' : List String) :
    resolve_ms_customerorder_state_id cfg ss ws oid act hd =
      resolve_ms_customerorder_state_id cfg ss ws oid act' hd := by
  rcases ss with _ | ss
  · rfl
  rcases ws with _ | ws
  · rfl
  have h' : ¬ (ws = "waiting" ∧ ss = "confirm") := by simpa using h
  rw [resolve_eq_def, resolve_eq_def]
  split_ifs <;> first | rfl | simp_all

/-- Every output of the two-step-confirm branch lies in the deny set (or is
no-op). -/
theorem resolve_confirm_optDeny (cfg : Config) (oid : String) (hd : Bool)
    (act : List String) :
    optDeny cfg (resolve_ms_customerorder_state_id cfg (some "confirm")
      (some "waiting") oid act hd) := by
  rw [resolve_eq_def]
  have hne : ¬ (("confirm" : String) = "" ∨ ("waiting" : String) = "") := by
    decide
  rw [if_neg hne,
    if_neg (by simp : ¬ (hd = false ∧ (("confirm" : String) = "cancel" ∨
      ("waiting" : String) = "canceled" ∨
      ("waiting" : String) = "canceled_by_client"))),
    if_neg (by simp : ¬ (("waiting" : String) = "waiting" ∧
      ("confirm" : String) = "new")),
    if_pos (by simp : (("waiting" : String) = "waiting" ∧
      ("confirm" : String) = "confirm"))]
  split_ifs with hin
  · exact (mem_demand_deny_iff cfg _).mpr ⟨hin.2, by tauto⟩
  · rcases h1 : strOrNone cfg.ms_status_confirm_id with _ | v
    · rcases h2 : strOrNone cfg.ms_status_confirm2_id with _ | v
      · simp [Option.orElse, h1, h2, optDeny]
      · obtain ⟨hv, hne2⟩ := strOrNone_eq_some h2
        simp only [Option.orElse, h1, h2, Option.none_orElse]
        show v ∈ demand_deny_state_ids cfg
        exact (mem_demand_deny_iff cfg v).mpr ⟨hv ▸ hne2, by tauto⟩
    · obtain ⟨hv, hne1⟩ := strOrNone_eq_some h1
      simp only [Option.orElse, h1, Option.some_orElse]
      show v ∈ demand_deny_state_ids cfg
      exact (mem_demand_deny_iff cfg v).mpr ⟨hv ▸ hne1, by tauto⟩

/-- A deny-side mapper output at one `active` set is deny-side at every
`active` set. -/
theorem resolve_optDeny_all_act {cfg : Config} {ss ws : Option String}
    {oid : String} {hd : Bool} {act : List String}
    (h : optDeny cfg
      (resolve_ms_customerorder_state_id cfg ss ws oid act hd)) :
    ∀ act', optDeny cfg
      (resolve_ms_customerorder_state_id cfg ss ws oid act' hd) := by
  intro act'
  by_cases hc : ws = some "waiting" ∧ ss = some "confirm"
  · obtain ⟨hw, hs⟩ := hc
    subst hw; subst hs
    exact resolve_confirm_optDeny cfg oid hd act'
  · rw [resolve_act_indep_of_not_confirm hc cfg oid hd act' act]
    exact h

/-- `processOrder` step 2: a cancellation before any demand marks the order
cancelled (when configured and present), retires the entity from the active
set, and creates nothing. -/
theorem processOrder_cancel {cfg : Config} {products : List String}
    {applyRes : String → ApplyResult} {srv : String} {st : OrdState}
    {o : WBOrder} (hm : cfg.test_mode = false)
    (hnd : (findDemandByEC st.backend o.oid).isSome = false)
    (hc : isCancelPair o.supplierStatus o.wbStatus) :
    ∃ st', processOrder cfg products applyRes srv st o = .ok st' ∧
      st'.events = st.events ∧
      st'.createdOrders = st.createdOrders ∧
      st'.createdDemands = st.createdDemands ∧
      st'.backend.demands = st.backend.demands ∧
      (st'.backend.orders = st.backend.orders ∨
        st'.backend.orders = updateFirstState st.backend.orders o.oid
          cfg.ms_status_cancelled_id) ∧
      o.oid ∉ st'.active := by
  unfold processOrder
  rcases hfind : findOrderByEC st.backend o.oid with _ | d <;>
    by_cases hcid : cfg.ms_status_cancelled_id = "" <;>
    simp only [hm, hnd, hc, hfind, hcid, if_true, if_false,
      Bool.false_eq_true, ite_false, ite_true, ne_eq, not_true_eq_false,
      not_false_eq_true, and_true, and_false, false_and, true_and,
      if_neg, if_pos] <;>
    refine ⟨_, rfl, ?_, ?_, ?_, ?_, ?_, ?_⟩ <;>
    (simp only [discardActive]; split_ifs <;> simp_all)

/-- `processOrder` step 3, skip path: lookup miss and empty article. -/
theorem processOrder_skip_article {cfg : Config} {products : List String}
    {applyRes : String → ApplyResult} {srv : String} {st : OrdState}
    {o : WBOrder} (hm : cfg.test_mode = false)
    (hnd : (findDemandByEC st.backend o.oid).isSome = false)
    (hnc : ¬ isCancelPair o.supplierStatus o.wbStatus)
    (hnone : findOrderByEC st.backend o.oid = none)
    (hart : o.article = "") :
    processOrder cfg products applyRes srv st o =
      .ok { st with skippedNoArticle := st.skippedNoArticle + 1 } := by
  unfold processOrder
  simp [hm, hnd, hnc, hnone, hart]

/-- `processOrder` step 3, skip path: lookup miss and no catalog product for
the article. -/
theorem processOrder_skip_product {cfg : Config} {products : List String}
    {applyRes : String → ApplyResult} {srv : String} {st : OrdState}
    {o : WBOrder} (hm : cfg.test_mode = false)
    (hnd : (findDemandByEC st.backend o.oid).isSome = false)
    (hnc : ¬ isCancelPair o.supplierStatus o.wbStatus)
    (hnone : findOrderByEC st.backend o.oid = none)
    (hart : o.article ≠ "") (hprod : o.article ∉ products) :
    processOrder cfg products applyRes srv st o =
      .ok { st with skippedNoProduct := st.skippedNoProduct + 1 } := by
  unfold processOrder
  simp [hm, hnd, hnc, hnone, hart, hprod]

/-- Steps 4–5 when the mapper yields no target and the held state is on the
deny side: nothing changes except the entity being kept (or put) in the
active set. -/
theorem demandStep_none_denied {cfg : Config}
    {applyRes : String → ApplyResult} {st : OrdState} {o : WBOrder}
    {msOrder : OrderDoc} (hm : cfg.test_mode = false)
    (hres : resolve_ms_customerorder_state_id cfg o.supplierStatus o.wbStatus
      o.oid st.active false = none)
    (hsh : should_create_demand cfg msOrder.stateId = false) :
    demandStep cfg applyRes st o msOrder =
      .ok (if o.oid ∈ st.active then st
        else { st with active := st.active ++ [o.oid],
                       activated := st.activated + 1 }) := by
  unfold demandStep
  simp [hres, hm, hsh]

theorem find?_field_append_ne {α : Type} (f : α → String) (l : List α)
    (d : α) {ec : String} (h : f d ≠ ec) :
    ((l ++ [d]).find? (fun x => f x = ec)) = l.find? (fun x => f x = ec) := by
  rw [List.find?_append]
  have h1 : List.find? (fun x => f x = ec) [d] = none := by
    simp [List.find?, h]
  rw [h1, Option.or_none]

theorem find?_field_append_isSome {α : Type} (f : α → String) (l : List α)
    (d : α) {ec : String}
    (h : (l.find? (fun x => f x = ec)).isSome = true) :
    (((l ++ [d]).find? (fun x => f x = ec))).isSome = true := by
  rw [List.find?_append]
  rcases ho : l.find? (fun x => f x = ec) with _ | v
  · rw [ho] at h; cases h
  · simp

theorem find?_field_append_self_isSome {α : Type} (f : α → String)
    (l : List α) (d : α) :
    (((l ++ [d]).find? (fun x => f x = f d))).isSome = true := by
  rw [List.find?_append]
  rcases ho : l.find? (fun x => f x = f d) with _ | v
  · simp [List.find?]
  · simp

theorem find?_updateFirstState_isSome (l : List OrderDoc) (ec t : String)
    {ec' : String}
    (h : (l.find? (fun d => d.externalCode = ec')).isSome = true) :
    ((updateFirstState l ec t).find?
      (fun d => d.externalCode = ec')).isSome = true := by
  by_cases he : ec' = ec
  · subst he
    rw [find?_updateFirstState]
    rcases ho : l.find? (fun d => d.externalCode = ec') with _ | v
    · rw [ho] at h; cases h
    · rw [ho]
      rfl
  · rw [find?_updateFirstState_ne l t he]
    exact h

/-- An entity is "settled" against a backend when re-processing it with the
same status pair cannot create any document: its demand already exists, or
its pair is a cancellation, or its order exists on the deny side and every
mapper outcome for its pair stays on the deny side, or no order exists and
its article cannot produce one. -/
def ordersSettled (cfg : Config) (products : List String) (b : Backend)
    (o : WBOrder) : Prop :=
  (findDemandByEC b o.oid).isSome = true
  ∨ isCancelPair o.supplierStatus o.wbStatus
  ∨ (∃ d, findOrderByEC b o.oid = some d ∧ denyish cfg d.stateId ∧
      ∀ act, optDeny cfg (resolve_ms_customerorder_state_id cfg
        o.supplierStatus o.wbStatus o.oid act false))
  ∨ (findOrderByEC b o.oid = none ∧
      (o.article = "" ∨ o.article ∉ products))

/-- Master analysis of steps 4–5: any successful outcome either created the
entity's demand or left its order on the deny side with a deny-side mapper
outcome; the trace grows by at most the demand creation; lookups for other
external codes are untouched, and existing documents survive. -/
theorem demandStep_master {cfg : Config} {applyRes : String → ApplyResult}
    {st : OrdState} {o : WBOrder} {m : OrderDoc} {st' : OrdState}
    (hm : cfg.test_mode = false)
    (hfind : findOrderByEC st.backend o.oid = some m)
    (hrun : demandStep cfg applyRes st o m = .ok st') :
    ((findDemandByEC st'.backend o.oid).isSome = true ∨
      (∃ dd, findOrderByEC st'.backend o.oid = some dd ∧
        denyish cfg dd.stateId ∧
        optDeny cfg (resolve_ms_customerorder_state_id cfg o.supplierStatus
          o.wbStatus o.oid st.active false))) ∧
    (st'.events = st.events ∨
      st'.events = st.events ++ [Ev.createDemand o.oid]) ∧
    (∀ ec, ec ≠ o.oid →
      findOrderByEC st'.backend ec = findOrderByEC st.backend ec) ∧
    (∀ ec, (findOrderByEC st.backend ec).isSome = true →
      (findOrderByEC st'.backend ec).isSome = true) ∧
    (∀ ec, ec ≠ o.oid →
      findDemandByEC st'.backend ec = findDemandByEC st.backend ec) ∧
    (∀ ec, (findDemandByEC st.backend ec).isSome = true →
      (findDemandByEC st'.backend ec).isSome = true) := by
  rcases hres : resolve_ms_customerorder_state_id cfg o.supplierStatus
      o.wbStatus o.oid st.active false with _ | t
  case none =>
    cases hsh : should_create_demand cfg m.stateId
    case false =>
      rw [demandStep_none_denied hm hres hsh] at hrun
      by_cases hmem : o.oid ∈ st.active <;>
        simp only [if_pos, if_neg, hmem, ite_true, ite_false] at hrun <;>
        injection hrun with hrun <;> subst hrun <;>
        refine ⟨Or.inr ⟨m, hfind, (should_eq_false_iff cfg _).mp hsh,
            by simp [optDeny]⟩,
          Or.inl rfl, fun ec _ => rfl, fun ec h => h, fun ec _ => rfl,
          fun ec h => h⟩
    case true =>
      have hsh' : should_create_demand cfg
          (stateAfterUpdate cfg o st.active m.stateId) = true := by
        rw [stateAfterUpdate, hres]
        exact hsh
      rcases happ : applyRes o.oid with _ | ⟨s, codes⟩
      · obtain ⟨stX, hstep, hdem, hev, _, _, hord⟩ :=
          demandStep_gate_creates hm hsh' happ
        rw [hstep] at hrun
        injection hrun with hrun
        subst hrun
        refine ⟨Or.inl ?_, Or.inr hev, ?_, ?_, ?_, ?_⟩
        · unfold findDemandByEC
          rw [hdem]
          have := find?_field_append_self_isSome
            (fun x : DemandDoc => x.externalCode) st.backend.demands
            ⟨o.oid, m.positions⟩
          simpa using this
        · intro ec hne
          unfold findOrderByEC
          rcases hord with h | ⟨u, h⟩
          · rw [h]
          · rw [h, find?_updateFirstState_ne _ _ hne]
        · intro ec h
          unfold findOrderByEC at h ⊢
          rcases hord with ho | ⟨u, ho⟩
          · rw [ho]; exact h
          · rw [ho]; exact find?_updateFirstState_isSome _ _ _ h
        · intro ec hne
          unfold findDemandByEC
          rw [hdem]
          have := find?_field_append_ne
            (fun x : DemandDoc => x.externalCode) st.backend.demands
            ⟨o.oid, m.positions⟩ (by simpa using (Ne.symm hne))
          simpa using this
        · intro ec h
          unfold findDemandByEC at h ⊢
          rw [hdem]
          exact find?_field_append_isSome _ _ _ h
      · by_cases hcode : s = 412 ∧ 3007 ∈ codes
        · rw [hcode.1] at happ
          obtain ⟨stX, hstep, hdem, hev, _, _, _, hord⟩ :=
            demandStep_gate_no_stock hm hsh' happ hcode.2
          rw [hstep] at hrun
          injection hrun with hrun
          subst hrun
          refine ⟨Or.inl ?_, Or.inr hev, ?_, ?_, ?_, ?_⟩
          · unfold findDemandByEC
            rw [hdem]
            have := find?_field_append_self_isSome
              (fun x : DemandDoc => x.externalCode) st.backend.demands
              ⟨o.oid, m.positions⟩
            simpa using this
          · intro ec hne
            unfold findOrderByEC
            rcases hord with h | ⟨u, h⟩
            · rw [h]
            · rw [h, find?_updateFirstState_ne _ _ hne]
          · intro ec h
            unfold findOrderByEC at h ⊢
            rcases hord with ho | ⟨u, ho⟩
            · rw [ho]; exact h
            · rw [ho]; exact find?_updateFirstState_isSome _ _ _ h
          · intro ec hne
            unfold findDemandByEC
            rw [hdem]
            have := find?_field_append_ne
              (fun x : DemandDoc => x.externalCode) st.backend.demands
              ⟨o.oid, m.positions⟩ (by simpa using (Ne.symm hne))
            simpa using this
          · intro ec h
            unfold findDemandByEC at h ⊢
            rw [hdem]
            exact find?_field_append_isSome _ _ _ h
        · rw [demandStep_gate_apply_fails hm hsh' happ hcode] at hrun
          cases hrun
  case some =>
    cases hsh2 : should_create_demand cfg t
    case false =>
      have ht : t ∈ demand_deny_state_ids cfg := by
        rcases (should_eq_false_iff cfg t).mp hsh2 with h | h
        · exact absurd h (resolve_some_ne_empty hres)
        · exact h
      rw [demandStep_some_deny hm hres ht] at hrun
      by_cases hmem : o.oid ∈ st.active <;>
        simp only [if_pos, if_neg, hmem, ite_true, ite_false] at hrun <;>
        injection hrun with hrun <;> subst hrun <;>
        refine ⟨Or.inr ⟨{ m with stateId := t }, ?_, Or.inr ht,
            by exact ht⟩,
          Or.inl rfl,
          fun ec hne => findOrderByEC_update_ne st.backend t hne,
          fun ec h => findOrderByEC_update_isSome st.backend o.oid t h,
          fun ec _ => rfl, fun ec h => h⟩ <;>
        · show findOrderByEC { st.backend with
            orders := updateFirstState st.backend.orders o.oid t }
            o.oid = _
          rw [findOrderByEC_update, hfind]
          rfl
    case true =>
      have hsh' : should_create_demand cfg
          (stateAfterUpdate cfg o st.active m.stateId) = true := by
        rw [stateAfterUpdate, hres]
        exact hsh2
      rcases happ : applyRes o.oid with _ | ⟨s, codes⟩
      · obtain ⟨stX, hstep, hdem, hev, _, _, hord⟩ :=
          demandStep_gate_creates hm hsh' happ
        rw [hstep] at hrun
        injection hrun with hrun
        subst hrun
        refine ⟨Or.inl ?_, Or.inr hev, ?_, ?_, ?_, ?_⟩
        · unfold findDemandByEC
          rw [hdem]
          have := find?_field_append_self_isSome
            (fun x : DemandDoc => x.externalCode) st.backend.demands
            ⟨o.oid, m.positions⟩
          simpa using this
        · intro ec hne
          unfold findOrderByEC
          rcases hord with h | ⟨u, h⟩
          · rw [h]
          · rw [h, find?_updateFirstState_ne _ _ hne]
        · intro ec h
          unfold findOrderByEC at h ⊢
          rcases hord with ho | ⟨u, ho⟩
          · rw [ho]; exact h
          · rw [ho]; exact find?_updateFirstState_isSome _ _ _ h
        · intro ec hne
          unfold findDemandByEC
          rw [hdem]
          have := find?_field_append_ne
            (fun x : DemandDoc => x.externalCode) st.backend.demands
            ⟨o.oid, m.positions⟩ (by simpa using (Ne.symm hne))
          simpa using this
        · intro ec h
          unfold findDemandByEC at h ⊢
          rw [hdem]
          exact find?_field_append_isSome _ _ _ h
      · by_cases hcode : s = 412 ∧ 3007 ∈ codes
        · rw [hcode.1] at happ
          obtain ⟨stX, hstep, hdem, hev, _, _, _, hord⟩ :=
            demandStep_gate_no_stock hm hsh' happ hcode.2
          rw [hstep] at hrun
          injection hrun with hrun
          subst hrun
          refine ⟨Or.inl ?_, Or.inr hev, ?_, ?_, ?_, ?_⟩
          · unfold findDemandByEC
            rw [hdem]
            have := find?_field_append_self_isSome
              (fun x : DemandDoc => x.externalCode) st.backend.demands
              ⟨o.oid, m.positions⟩
            simpa using this
          · intro ec hne
            unfold findOrderByEC
            rcases hord with h | ⟨u, h⟩
            · rw [h]
            · rw [h, find?_updateFirstState_ne _ _ hne]
          · intro ec h
            unfold findOrderByEC at h ⊢
            rcases hord with ho | ⟨u, ho⟩
            · rw [ho]; exact h
            · rw [ho]; exact find?_updateFirstState_isSome _ _ _ h
          · intro ec hne
            unfold findDemandByEC
            rw [hdem]
            have := find?_field_append_ne
              (fun x : DemandDoc => x.externalCode) st.backend.demands
              ⟨o.oid, m.positions⟩ (by simpa using (Ne.symm hne))
            simpa using this
          · intro ec h
            unfold findDemandByEC at h ⊢
            rw [hdem]
            exact find?_field_append_isSome _ _ _ h
        · rw [demandStep_gate_apply_fails hm hsh' happ hcode] at hrun
          cases hrun

/-- Master analysis of the per-order loop body: any successful outcome
settles the processed entity, grows the trace by one of the four possible
deltas, and leaves every other external code's lookups untouched. -/
theorem processOrder_master {cfg : Config} {products : List String}
    {applyRes : String → ApplyResult} {srv : String} {st : OrdState}
    {o : WBOrder} {st' : OrdState} (hm : cfg.test_mode = false)
    (hrun : processOrder cfg products applyRes srv st o = .ok st') :
    ordersSettled cfg products st'.backend o ∧
    (st'.events = st.events ∨
      st'.events = st.events ++ [Ev.createDemand o.oid] ∨
      st'.events = st.events ++ [Ev.createOrder o.oid, Ev.saveMsCreated] ∨
      st'.events = st.events ++
        [Ev.createOrder o.oid, Ev.saveMsCreated, Ev.createDemand o.oid]) ∧
    (∀ ec, ec ≠ o.oid →
      findOrderByEC st'.backend ec = findOrderByEC st.backend ec) ∧
    (∀ ec, (findOrderByEC st.backend ec).isSome = true →
      (findOrderByEC st'.backend ec).isSome = true) ∧
    (∀ ec, ec ≠ o.oid →
      findDemandByEC st'.backend ec = findDemandByEC st.backend ec) ∧
    (∀ ec, (findDemandByEC st.backend ec).isSome = true →
      (findDemandByEC st'.backend ec).isSome = true) := by
  by_cases hdem : (findDemandByEC st.backend o.oid).isSome = true
  · rw [processOrder_demand_exists hm hdem] at hrun
    injection hrun with hrun
    subst hrun
    obtain ⟨hb, hev, -, -, -, -⟩ := discardActive_fields
      { st with demandExistsCnt := st.demandExistsCnt + 1 } o.oid
    refine ⟨Or.inl ?_, Or.inl ?_, ?_, ?_, ?_, ?_⟩
    · rw [hb]; exact hdem
    · rw [hev]
    · intro ec _; rw [hb]
    · intro ec h; rw [hb]; exact h
    · intro ec _; rw [hb]
    · intro ec h; rw [hb]; exact h
  · have hdem' : (findDemandByEC st.backend o.oid).isSome = false := by
      simpa using hdem
    by_cases hcan : isCancelPair o.supplierStatus o.wbStatus
    · obtain ⟨stX, hstep, hev, -, -, hdemeq, hord, -⟩ :=
        processOrder_cancel hm hdem' hcan
      rw [hstep] at hrun
      injection hrun with hrun
      subst hrun
      refine ⟨Or.inr (Or.inl hcan), Or.inl hev, ?_, ?_, ?_, ?_⟩
      · intro ec hne
        unfold findOrderByEC
        rcases hord with h | h
        · rw [h]
        · rw [h, find?_updateFirstState_ne _ _ hne]
      · intro ec h
        unfold findOrderByEC at h ⊢
        rcases hord with ho | ho
        · rw [ho]; exact h
        · rw [ho]; exact find?_updateFirstState_isSome _ _ _ h
      · intro ec _
        unfold findDemandByEC
        rw [hdemeq]
      · intro ec h
        unfold findDemandByEC at h ⊢
        rw [hdemeq]
        exact h
    · rcases hfind : findOrderByEC st.backend o.oid with _ | d
      · by_cases hart : o.article = ""
        · rw [processOrder_skip_article hm hdem' hcan hfind hart] at hrun
          injection hrun with hrun
          subst hrun
          exact ⟨Or.inr (Or.inr (Or.inr ⟨hfind, Or.inl hart⟩)), Or.inl rfl,
            fun ec _ => rfl, fun ec h => h, fun ec _ => rfl, fun ec h => h⟩
        · by_cases hprod : o.article ∈ products
          · rw [processOrder_create hm hdem' hcan hfind hart hprod] at hrun
            have hfindC : findOrderByEC { st.backend with
                orders := st.backend.orders ++
                  [⟨o.oid, o.oid, (if cfg.ms_status_new_id = "" then srv
                    else cfg.ms_status_new_id), [⟨o.article, 1⟩]⟩] }
                o.oid = some ⟨o.oid, o.oid,
                  (if cfg.ms_status_new_id = "" then srv
                    else cfg.ms_status_new_id), [⟨o.article, 1⟩]⟩ :=
              findOrderByEC_append_self st.backend hfind
            obtain ⟨hsettle, hevD, hC, hD, hE, hF⟩ :=
              demandStep_master hm hfindC hrun
            refine ⟨?_, ?_, ?_, ?_, ?_, ?_⟩
            · rcases hsettle with h | ⟨dd, hfd, hdy, hopt⟩
              · exact Or.inl h
              · exact Or.inr (Or.inr (Or.inl ⟨dd, hfd, hdy,
                  resolve_optDeny_all_act hopt⟩))
            · rcases hevD with h | h
              · exact Or.inr (Or.inr (Or.inl h))
              · refine Or.inr (Or.inr (Or.inr ?_))
                rw [h]
                simp
            · intro ec hne
              rw [hC ec hne]
              exact findOrderByEC_append_ne st.backend
                (by simpa using (Ne.symm hne))
            · intro ec h
              exact hD ec (findOrderByEC_append_isSome st.backend _ h)
            · intro ec hne
              exact hE ec hne
            · intro ec h
              exact hF ec h
          · have hprod' : o.article ∉ products := hprod
            rw [processOrder_skip_product hm hdem' hcan hfind hart hprod']
              at hrun
            injection hrun with hrun
            subst hrun
            exact ⟨Or.inr (Or.inr (Or.inr ⟨hfind, Or.inr hprod⟩)),
              Or.inl rfl, fun ec _ => rfl, fun ec h => h, fun ec _ => rfl,
              fun ec h => h⟩
      · rw [processOrder_found hm hdem' hcan hfind] at hrun
        obtain ⟨hsettle, hevD, hC, hD, hE, hF⟩ :=
          demandStep_master hm hfind hrun
        refine ⟨?_, ?_, hC, hD, hE, hF⟩
        · rcases hsettle with h | ⟨dd, hfd, hdy, hopt⟩
          · exact Or.inl h
          · exact Or.inr (Or.inr (Or.inl ⟨dd, hfd, hdy,
              resolve_optDeny_all_act hopt⟩))
        · rcases hevD with h | h
          · exact Or.inl h
          · exact Or.inr (Or.inl h)

/-- Statuses are joined per order id (`status_by_id`), so two list entries
with the same id carry the same status pair. -/
def statusesConsistent (orders : List WBOrder) : Prop :=
  ∀ o ∈ orders, ∀ o' ∈ orders, o.oid = o'.oid →
    o.supplierStatus = o'.supplierStatus ∧ o.wbStatus = o'.wbStatus

/-- Processing one entity preserves the settledness of every
status-consistent entity. -/
theorem ordersSettled_preserved {cfg : Config} {products : List String}
    {applyRes : String → ApplyResult} {srv : String} {st : OrdState}
    {o o' : WBOrder} {st' : OrdState} (hm : cfg.test_mode = false)
    (hrun : processOrder cfg products applyRes srv st o = .ok st')
    (hcompat : o.oid = o'.oid →
      o.supplierStatus = o'.supplierStatus ∧ o.wbStatus = o'.wbStatus)
    (hs : ordersSettled cfg products st.backend o') :
    ordersSettled cfg products st'.backend o' := by
  obtain ⟨hsettle, -, hC, hD, hE, hF⟩ := processOrder_master hm hrun
  by_cases hoid : o'.oid = o.oid
  · obtain ⟨hss, hws⟩ := hcompat hoid.symm
    rcases hsettle with h | h | ⟨dd, hfd, hdy, hall⟩ | ⟨hfn, -⟩
    · exact Or.inl (by rw [hoid]; exact h)
    · refine Or.inr (Or.inl ?_)
      rw [← hss, ← hws]
      exact h
    · refine Or.inr (Or.inr (Or.inl ⟨dd, by rw [hoid]; exact hfd, hdy, ?_⟩))
      intro act
      rw [← hss, ← hws, hoid]
      exact hall act
    · rcases hs with h | h | ⟨d2, hfd2, -, -⟩ | ⟨-, hbad⟩
      · exact Or.inl (hF o'.oid h)
      · exact Or.inr (Or.inl h)
      · exfalso
        have hsome := hD o'.oid (by rw [hfd2]; rfl)
        rw [hoid, hfn] at hsome
        cases hsome
      · exact Or.inr (Or.inr (Or.inr ⟨by rw [hoid]; exact hfn, hbad⟩))
  · rcases hs with h | h | ⟨dd, hfd, hdy, hall⟩ | ⟨hfn, hbad⟩
    · exact Or.inl (hF o'.oid h)
    · exact Or.inr (Or.inl h)
    · exact Or.inr (Or.inr (Or.inl ⟨dd,
        by rw [hC o'.oid hoid]; exact hfd, hdy, hall⟩))
    · exact Or.inr (Or.inr (Or.inr ⟨by rw [hC o'.oid hoid]; exact hfn,
        hbad⟩))

/-- Re-processing a settled entity succeeds, creates nothing and emits no
event. -/
theorem processOrder_settled_no_create {cfg : Config}
    {products : List String} {applyRes : String → ApplyResult} {srv : String}
    {st : OrdState} {o : WBOrder} (hm : cfg.test_mode = false)
    (hs : ordersSettled cfg products st.backend o) :
    ∃ st', processOrder cfg products applyRes srv st o = .ok st' ∧
      st'.events = st.events ∧
      st'.createdOrders = st.createdOrders ∧
      st'.createdDemands = st.createdDemands := by
  by_cases hdem : (findDemandByEC st.backend o.oid).isSome = true
  · refine ⟨_, processOrder_demand_exists hm hdem, ?_, ?_, ?_⟩ <;>
      (simp only [discardActive]; split_ifs <;> rfl)
  · have hdem' : (findDemandByEC st.backend o.oid).isSome = false := by
      simpa using hdem
    by_cases hcan : isCancelPair o.supplierStatus o.wbStatus
    · obtain ⟨stX, hstep, hev, hco, hcd, -, -, -⟩ :=
        processOrder_cancel hm hdem' hcan
      exact ⟨stX, hstep, hev, hco, hcd⟩
    rcases hs with h | h | ⟨d, hfd, hdy, hall⟩ | ⟨hfn, hbad⟩
    · exact absurd h hdem
    · exact absurd h hcan
    · rw [processOrder_found hm hdem' hcan hfd]
      have htar := hall st.active
      rcases hres2 : resolve_ms_customerorder_state_id cfg o.supplierStatus
          o.wbStatus o.oid st.active false with _ | t
      · have hsh : should_create_demand cfg d.stateId = false :=
          (should_eq_false_iff cfg d.stateId).mpr hdy
        rw [demandStep_none_denied hm hres2 hsh]
        by_cases hmem : o.oid ∈ st.active <;>
          simp only [hmem, ite_true, ite_false, if_pos, if_neg] <;>
          exact ⟨_, rfl, rfl, rfl, rfl⟩
      · rw [hres2] at htar
        have ht : t ∈ demand_deny_state_ids cfg := htar
        rw [demandStep_some_deny hm hres2 ht]
        by_cases hmem : o.oid ∈ st.active <;>
          simp only [hmem, ite_true, ite_false, if_pos, if_neg] <;>
          exact ⟨_, rfl, rfl, rfl, rfl⟩
    · by_cases hart : o.article = ""
      · rw [processOrder_skip_article hm hdem' hcan hfn hart]
        exact ⟨_, rfl, rfl, rfl, rfl⟩
      · rcases hbad with h | h
        · exact absurd h hart
        · rw [processOrder_skip_product hm hdem' hcan hfn hart h]
          exact ⟨_, rfl, rfl, rfl, rfl⟩

/-- A completed tail of the pass preserves the settledness of any
status-consistent entity. -/
theorem foldOrders_preserves_settled {cfg : Config} {products : List String}
    {applyRes : String → ApplyResult} {srv : String}
    (hm : cfg.test_mode = false) :
    ∀ (os : List WBOrder) (st stF : OrdState) (o' : WBOrder),
      os.foldlM (processOrder cfg products applyRes srv) st = .ok stF →
      (∀ o ∈ os, o.oid = o'.oid →
        o.supplierStatus = o'.supplierStatus ∧
        o.wbStatus = o'.wbStatus) →
      ordersSettled cfg products st.backend o' →
      ordersSettled cfg products stF.backend o'
  | [], st, stF, o', hfold, _, hs => by
      cases hfold
      exact hs
  | o :: os, st, stF, o', hfold, hcomp, hs => by
      rw [List.foldlM_cons] at hfold
      rcases h0 : processOrder cfg products applyRes srv st o with e | st1
      · rw [h0] at hfold
        exact Except.noConfusion hfold
      · rw [h0] at hfold
        exact foldOrders_preserves_settled hm os st1 stF o' hfold
          (fun oo hoo => hcomp oo (List.mem_cons_of_mem _ hoo))
          (ordersSettled_preserved hm h0
            (hcomp o (List.mem_cons_self _ _)) hs)

/-- A completed pass leaves every status-consistent entity of its input list
settled. -/
theorem foldOrders_establishes_settled {cfg : Config}
    {products : List String} {applyRes : String → ApplyResult} {srv : String}
    (hm : cfg.test_mode = false) :
    ∀ (os : List WBOrder) (st stF : OrdState),
      os.foldlM (processOrder cfg products applyRes srv) st = .ok stF →
      statusesConsistent os →
      ∀ o ∈ os, ordersSettled cfg products stF.backend o
  | [], st, stF, _, _, o, ho => absurd ho (List.not_mem_nil o)
  | o :: os, st, stF, hfold, hcons, o', ho' => by
      rw [List.foldlM_cons] at hfold
      rcases h0 : processOrder cfg products applyRes srv st o with e | st1
      · rw [h0] at hfold
        exact Except.noConfusion hfold
      rw [h0] at hfold
      rcases List.mem_cons.mp ho' with h | h
      · subst h
        exact foldOrders_preserves_settled hm os st1 stF o' hfold
          (fun oo hoo =>
            (hcons oo (List.mem_cons_of_mem _ hoo) o'
              (List.mem_cons_self _ _)))
          (processOrder_master hm h0).1
      · exact foldOrders_establishes_settled hm os st1 stF hfold
          (fun a ha b hb => hcons a (List.mem_cons_of_mem _ ha) b
            (List.mem_cons_of_mem _ hb)) o' h

/-- A pass over a list of settled, status-consistent entities completes with
no creations, no events and unchanged counters. -/
theorem foldOrders_settled_no_creates {cfg : Config}
    {products : List String} {applyRes : String → ApplyResult} {srv : String}
    (hm : cfg.test_mode = false) :
    ∀ (os : List WBOrder) (st : OrdState),
      (∀ o ∈ os, ordersSettled cfg products st.backend o) →
      statusesConsistent os →
      ∃ stF, os.foldlM (processOrder cfg products applyRes srv) st =
          .ok stF ∧
        stF.events = st.events ∧
        stF.createdOrders = st.createdOrders ∧
        stF.createdDemands = st.createdDemands
  | [], st, _, _ => ⟨st, rfl, rfl, rfl, rfl⟩
  | o :: os, st, hsettled, hcons => by
      obtain ⟨st1, h0, hev1, hco1, hcd1⟩ :=
        @processOrder_settled_no_create cfg products applyRes srv st o
          hm (hsettled o (List.mem_cons_self _ _))
      obtain ⟨stF, hfold, hev2, hco2, hcd2⟩ :=
        foldOrders_settled_no_creates hm os st1
          (fun o' ho' => ordersSettled_preserved hm h0
            (fun he => hcons o (List.mem_cons_self _ _) o'
              (List.mem_cons_of_mem _ ho') he)
            (hsettled o' (List.mem_cons_of_mem _ ho')))
          (fun a ha b hb => hcons a (List.mem_cons_of_mem _ ha) b
            (List.mem_cons_of_mem _ hb))
      refine ⟨stF, ?_, hev2.trans hev1, hco2.trans hco1, hcd2.trans hcd1⟩
      rw [List.foldlM_cons, h0]
      exact hfold

/-- When the order lookup hits, no order-creation event is emitted: every
create call is preceded by a lookup miss. -/
theorem processOrder_lookup_hit_no_create {cfg : Config}
    {products : List String} {applyRes : String → ApplyResult} {srv : String}
    {st : OrdState} {o : WBOrder} {st' : OrdState}
    (hm : cfg.test_mode = false)
    (hhit : (findOrderByEC st.backend o.oid).isSome = true)
    (hrun : processOrder cfg products applyRes srv st o = .ok st') :
    st'.events = st.events ∨
      st'.events = st.events ++ [Ev.createDemand o.oid] := by
  by_cases hdem : (findDemandByEC st.backend o.oid).isSome = true
  · rw [processOrder_demand_exists hm hdem] at hrun
    injection hrun with hrun
    subst hrun
    obtain ⟨-, hev, -, -, -, -⟩ := discardActive_fields
      { st with demandExistsCnt := st.demandExistsCnt + 1 } o.oid
    exact Or.inl hev
  · have hdem' : (findDemandByEC st.backend o.oid).isSome = false := by
      simpa using hdem
    by_cases hcan : isCancelPair o.supplierStatus o.wbStatus
    · obtain ⟨stX, hstep, hev, -, -, -, -, -⟩ :=
        processOrder_cancel hm hdem' hcan
      rw [hstep] at hrun
      injection hrun with hrun
      subst hrun
      exact Or.inl hev
    · rcases hfind : findOrderByEC st.backend o.oid with _ | d
      · rw [hfind] at hhit
        cases hhit
      · rw [processOrder_found hm hdem' hcan hfind] at hrun
        exact (demandStep_master hm hfind hrun).2.1

/-- When the demand lookup hits, the entity is skipped entirely: no event of
any kind is emitted. -/
theorem processOrder_demand_hit_no_create {cfg : Config}
    {products : List String} {applyRes : String → ApplyResult} {srv : String}
    {st : OrdState} {o : WBOrder} {st' : OrdState}
    (hm : cfg.test_mode = false)
    (hhit : (findDemandByEC st.backend o.oid).isSome = true)
    (hrun : processOrder cfg products applyRes srv st o = .ok st') :
    st'.events = st.events := by
  rw [processOrder_demand_exists hm hhit] at hrun
  injection hrun with hrun
  subst hrun
  exact (discardActive_fields
    { st with demandExistsCnt := st.demandExistsCnt + 1 } o.oid).2.1

/-! ## FBW supporting lemmas -/

theorem fbw_name_inj {a b : String} (h : "fbw-" ++ a = "fbw-" ++ b) :
    a = b := by
  have hd := congrArg String.data h
  rw [String.data_append, String.data_append] at hd
  exact String.ext (List.append_cancel_left hd)

theorem hasInfo_iff_mem_keys (st : FBWState) (sid : String) :
    hasInfo st sid = true ↔ sid ∈ st.supplies.map Prod.fst := by
  unfold hasInfo
  induction st.supplies with
  | nil => simp [List.find?]
  | cons e l ih =>
    by_cases he : e.1 = sid
    · simp [List.find?_cons_of_pos, he]
    · rw [List.map_cons, List.mem_cons]
      rw [List.find?_cons_of_neg _ (by simp [he])]
      simp only [ih]
      constructor
      · exact Or.inr
      · rintro (h | h)
        · exact absurd h.symm he
        · exact h

theorem upsertInfo_keys_of_mem {l : List (String × SupplyInfo)} {k : String}
    (v : SupplyInfo) (h : k ∈ l.map Prod.fst) :
    (upsertInfo l k v).map Prod.fst = l.map Prod.fst := by
  induction l with
  | nil => cases h
  | cons e l ih =>
    by_cases he : e.1 = k
    · simp [upsertInfo, he]
    · rw [List.map_cons, List.mem_cons] at h
      rcases h with h | h
      · exact absurd h.symm he
      · simp [upsertInfo, he, ih h]

theorem upsertInfo_keys_sub (l : List (String × SupplyInfo)) (k : String)
    (v : SupplyInfo) :
    (upsertInfo l k v).map Prod.fst = l.map Prod.fst ∨
    (upsertInfo l k v).map Prod.fst = l.map Prod.fst ++ [k] := by
  induction l with
  | nil => exact Or.inr (by simp [upsertInfo])
  | cons e l ih =>
    by_cases he : e.1 = k
    · exact Or.inl (by simp [upsertInfo, he])
    · rcases ih with h | h
      · exact Or.inl (by simp [upsertInfo, he, h])
      · exact Or.inr (by simp [upsertInfo, he, h])

theorem hasInfo_upsert_mono {st : FBWState} {sid : String} (k : String)
    (v : SupplyInfo) (h : hasInfo st sid = true) :
    hasInfo { st with supplies := upsertInfo st.supplies k v } sid = true := by
  rw [hasInfo_iff_mem_keys] at h ⊢
  show sid ∈ (upsertInfo st.supplies k v).map Prod.fst
  rcases upsertInfo_keys_sub st.supplies k v with hk | hk <;>
    rw [hk] <;> first | exact h | exact List.mem_append_left _ h

theorem hasInfo_upsert_self (st : FBWState) (k : String) (v : SupplyInfo) :
    hasInfo { st with supplies := upsertInfo st.supplies k v } k = true := by
  rw [hasInfo_iff_mem_keys]
  show k ∈ (upsertInfo st.supplies k v).map Prod.fst
  induction st.supplies with
  | nil => simp [upsertInfo]
  | cons e l ih =>
    by_cases he : e.1 = k
    · simp [upsertInfo, he]
    · simp only [upsertInfo, if_neg he, List.map_cons, List.mem_cons]
      exact Or.inr ih

theorem hasInfo_upsert_ne {st : FBWState} {sid k : String}
    (hne : sid ≠ k) (v : SupplyInfo) :
    hasInfo { st with supplies := upsertInfo st.supplies k v } sid =
      hasInfo st sid := by
  cases h : hasInfo st sid
  · cases h2 : hasInfo { st with supplies := upsertInfo st.supplies k v } sid
    · rfl
    · exfalso
      rw [hasInfo_iff_mem_keys] at h2
      have h2' : sid ∈ (upsertInfo st.supplies k v).map Prod.fst := h2
      rcases upsertInfo_keys_sub st.supplies k v with hk | hk
      · rw [hk] at h2'
        have hc := (hasInfo_iff_mem_keys st sid).mpr h2'
        rw [h] at hc
        cases hc
      · rw [hk, List.mem_append] at h2'
        rcases h2' with hm | hm
        · have hc := (hasInfo_iff_mem_keys st sid).mpr hm
          rw [h] at hc
          cases hc
        · exact hne (List.mem_singleton.mp hm)
  · rw [hasInfo_upsert_mono k v h]

theorem mem_upsertInfo_of_ne {l : List (String × SupplyInfo)}
    {e : String × SupplyInfo} {k : String} (v : SupplyInfo)
    (he : e ∈ l) (hne : e.1 ≠ k) : e ∈ upsertInfo l k v := by
  induction l with
  | nil => cases he
  | cons e' l ih =>
    rcases List.mem_cons.mp he with h | h
    · subst h
      simp only [upsertInfo, if_neg hne]
      exact List.mem_cons_self _ _
    · by_cases he' : e'.1 = k
      · simp only [upsertInfo, if_pos he']
        exact List.mem_cons_of_mem _ h
      · simp only [upsertInfo, if_neg he']
        exact List.mem_cons_of_mem _ (ih h)

theorem mem_upsertInfo_elim {l : List (String × SupplyInfo)}
    {e : String × SupplyInfo} {k : String} {v : SupplyInfo}
    (hnd : (l.map Prod.fst).Nodup) (he : e ∈ upsertInfo l k v) :
    e = (k, v) ∨ (e ∈ l ∧ e.1 ≠ k) := by
  induction l with
  | nil =>
    simp only [upsertInfo] at he
    rcases List.mem_singleton.mp he with h
    exact Or.inl h
  | cons e' l ih =>
    rw [List.map_cons, List.nodup_cons] at hnd
    by_cases he' : e'.1 = k
    · simp only [upsertInfo, if_pos he'] at he
      rcases List.mem_cons.mp he with h | h
      · exact Or.inl h
      · refine Or.inr ⟨List.mem_cons_of_mem _ h, ?_⟩
        intro hk
        exact hnd.1 (he' ▸ hk ▸ List.mem_map_of_mem Prod.fst h)
    · simp only [upsertInfo, if_neg he'] at he
      rcases List.mem_cons.mp he with h | h
      · subst h
        exact Or.inr ⟨List.mem_cons_self _ _, he'⟩
      · rcases ih hnd.2 h with h2 | h2
        · exact Or.inl h2
        · exact Or.inr ⟨List.mem_cons_of_mem _ h2.1, h2.2⟩

theorem nodup_keys_upsertInfo {l : List (String × SupplyInfo)} {k : String}
    (v : SupplyInfo) (hnd : (l.map Prod.fst).Nodup) :
    ((upsertInfo l k v).map Prod.fst).Nodup := by
  rcases upsertInfo_keys_sub l k v with h | h
  · rw [h]; exact hnd
  · rw [h]
    by_cases hk : k ∈ l.map Prod.fst
    · rw [upsertInfo_keys_of_mem v hk] at h
      have := congrArg List.length h
      simp at this
    · simp [List.nodup_append, hnd, hk]

/-- An entry of `supplies_by_id` that loop 1 cannot import (again): already
tracked, created at or before the bootstrap marker, empty id, or its order
ensure would find nothing to build. -/
def fbwImportSettled (products : List String) (boot : Int) (st : FBWState)
    (b : Backend) (p : String × FBWSupply) : Prop :=
  hasInfo st p.1 = true ∨
  (∃ d, p.2.createDate = some d ∧ d ≤ boot) ∨
  p.2.sid = "" ∨
  (((findOrderByEC b ("fbw-" ++ p.2.sid)).orElse
      (fun _ => findOrderByName b ("fbw-" ++ p.2.sid))) = none ∧
    surviving_goods products p.2.goods = [])

/-- A tracked entry that loop 2 cannot create documents for: unmatched
supply (vacuous), empty number, order lookup miss, or move/demand flags
already covering its status. -/
def fbwEntrySettled (byId : List (String × FBWSupply)) (b : Backend)
    (e : String × SupplyInfo) : Prop :=
  ∀ s, lookupSupply byId e.1 = some s →
    (if e.2.number ≠ "" then e.2.number else s.sid) = "" ∨
    ((findOrderByName b
        ("fbw-" ++ (if e.2.number ≠ "" then e.2.number else s.sid))).orElse
      (fun _ => findOrderByEC b
        ("fbw-" ++ (if e.2.number ≠ "" then e.2.number else s.sid))))
      = none ∨
    ((s.statusID = some 3 → e.2.move = true) ∧
     (s.statusID = some 5 → e.2.demand = true))

theorem mem_upsertSupply_elim {l : List (String × FBWSupply)}
    {e : String × FBWSupply} {k : String} {v : FBWSupply}
    (he : e ∈ upsertSupply l k v) : e ∈ l ∨ e = (k, v) := by
  induction l with
  | nil =>
    simp only [upsertSupply] at he
    exact Or.inr (List.mem_singleton.mp he)
  | cons e' l ih =>
    by_cases he' : e'.1 = k
    · simp only [upsertSupply, if_pos he'] at he
      rcases List.mem_cons.mp he with h | h
      · exact Or.inr h
      · exact Or.inl (List.mem_cons_of_mem _ h)
    · simp only [upsertSupply, if_neg he'] at he
      rcases List.mem_cons.mp he with h | h
      · exact Or.inl (h ▸ List.mem_cons_self _ _)
      · rcases ih h with h2 | h2
        · exact Or.inl (List.mem_cons_of_mem _ h2)
        · exact Or.inr h2

theorem upsertSupply_keys_sub (l : List (String × FBWSupply)) (k : String)
    (v : FBWSupply) :
    (upsertSupply l k v).map Prod.fst = l.map Prod.fst ∨
    (upsertSupply l k v).map Prod.fst = l.map Prod.fst ++ [k] := by
  induction l with
  | nil => exact Or.inr (by simp [upsertSupply])
  | cons e l ih =>
    by_cases he : e.1 = k
    · exact Or.inl (by simp [upsertSupply, he])
    · rcases ih with h | h
      · exact Or.inl (by simp [upsertSupply, he, h])
      · exact Or.inr (by simp [upsertSupply, he, h])

theorem upsertSupply_keys_of_mem {l : List (String × FBWSupply)} {k : String}
    (v : FBWSupply) (h : k ∈ l.map Prod.fst) :
    (upsertSupply l k v).map Prod.fst = l.map Prod.fst := by
  induction l with
  | nil => cases h
  | cons e l ih =>
    by_cases he : e.1 = k
    · simp [upsertSupply, he]
    · rw [List.map_cons, List.mem_cons] at h
      rcases h with h | h
      · exact absurd h.symm he
      · simp [upsertSupply, he, ih h]

theorem nodup_keys_upsertSupply {l : List (String × FBWSupply)} {k : String}
    (v : FBWSupply) (hnd : (l.map Prod.fst).Nodup) :
    ((upsertSupply l k v).map Prod.fst).Nodup := by
  rcases upsertSupply_keys_sub l k v with h | h
  · rw [h]; exact hnd
  · rw [h]
    by_cases hk : k ∈ l.map Prod.fst
    · rw [upsertSupply_keys_of_mem v hk] at h
      have := congrArg List.length h
      simp at this
    · simp [List.nodup_append, hnd, hk]

theorem buildById_key_eq (ss : List FBWSupply) :
    ∀ p ∈ buildById ss, p.1 = p.2.sid := by
  unfold buildById
  suffices h : ∀ (ss : List FBWSupply) (acc : List (String × FBWSupply)),
      (∀ p ∈ acc, p.1 = p.2.sid) →
      ∀ p ∈ ss.foldl (fun a s => upsertSupply a s.sid s) acc,
        p.1 = p.2.sid by
    exact h ss [] (by intro p hp; cases hp)
  intro ss
  induction ss with
  | nil => intro acc hacc p hp; exact hacc p hp
  | cons s ss ih =>
    intro acc hacc p hp
    refine ih (upsertSupply acc s.sid s) ?_ p hp
    intro q hq
    rcases mem_upsertSupply_elim hq with h | h
    · exact hacc q h
    · subst h; rfl

theorem buildById_nodup (ss : List FBWSupply) :
    ((buildById ss).map Prod.fst).Nodup := by
  unfold buildById
  suffices h : ∀ (ss : List FBWSupply) (acc : List (String × FBWSupply)),
      (acc.map Prod.fst).Nodup →
      ((ss.foldl (fun a s => upsertSupply a s.sid s) acc).map
        Prod.fst).Nodup by
    exact h ss [] (by simp)
  intro ss
  induction ss with
  | nil => intro acc hacc; exact hacc
  | cons s ss ih =>
    intro acc hacc
    exact ih (upsertSupply acc s.sid s) (nodup_keys_upsertSupply s hacc)

theorem findOrderByName_append_ne (b : Backend) {d : OrderDoc} {n : String}
    (h : d.name ≠ n) :
    findOrderByName { b with orders := b.orders ++ [d] } n =
      findOrderByName b n := by
  unfold findOrderByName
  exact find?_field_append_ne (fun x : OrderDoc => x.name) b.orders d h

/-- `_ensure_customerorder`, lookup-hit case. -/
theorem fbw_ensure_customerorder_found {fbw : FBWConfig}
    {products : List String} {b : Backend} {number : String}
    {goods : List Good} {d : OrderDoc}
    (h : ((findOrderByEC b ("fbw-" ++ number)).orElse
      (fun _ => findOrderByName b ("fbw-" ++ number))) = some d) :
    fbw_ensure_customerorder fbw products b number goods = (b, some d, []) := by
  unfold fbw_ensure_customerorder
  simp [h]

/-- `_ensure_customerorder`, skip case: lookup miss and no surviving
positions. -/
theorem fbw_ensure_customerorder_skip {fbw : FBWConfig}
    {products : List String} {b : Backend} {number : String}
    {goods : List Good}
    (h : ((findOrderByEC b ("fbw-" ++ number)).orElse
      (fun _ => findOrderByName b ("fbw-" ++ number))) = none)
    (hpos : surviving_goods products goods = []) :
    fbw_ensure_customerorder fbw products b number goods = (b, none, []) := by
  unfold fbw_ensure_customerorder
  simp [h, hpos]

/-- `_ensure_customerorder`, creation case. -/
theorem fbw_ensure_customerorder_create {fbw : FBWConfig}
    {products : List String} {b : Backend} {number : String}
    {goods : List Good}
    (h : ((findOrderByEC b ("fbw-" ++ number)).orElse
      (fun _ => findOrderByName b ("fbw-" ++ number))) = none)
    (hpos : surviving_goods products goods ≠ []) :
    fbw_ensure_customerorder fbw products b number goods =
      ({ b with orders := b.orders ++
        [⟨"fbw-" ++ number, "fbw-" ++ number, fbw.ms_status_customerorder_id,
          surviving_goods products goods⟩] },
       some ⟨"fbw-" ++ number, "fbw-" ++ number,
         fbw.ms_status_customerorder_id, surviving_goods products goods⟩,
       [Ev.createOrder ("fbw-" ++ number)]) := by
  unfold fbw_ensure_customerorder
  simp [h, hpos]

theorem fbw_ensure_move_orders (products : List String) (b : Backend)
    (ec : String) (goods : List Good) :
    (fbw_ensure_move products b ec goods).1.orders = b.orders := by
  unfold fbw_ensure_move
  rcases h : findMoveByEC b ec with _ | d <;> simp [h]

theorem fbw_ensure_demand_orders (products : List String) (b : Backend)
    (ec : String) (goods : List Good) :
    (fbw_ensure_demand products b ec goods).1.orders = b.orders := by
  unfold fbw_ensure_demand
  rcases h : findDemandByEC b ec with _ | d <;> simp [h]

theorem fbw_ensure_move_events (products : List String) (b : Backend)
    (ec : String) (goods : List Good) :
    (fbw_ensure_move products b ec goods).2 = [] ∨
    (fbw_ensure_move products b ec goods).2 = [Ev.createMove ec] := by
  unfold fbw_ensure_move
  rcases h : findMoveByEC b ec with _ | d
  · exact Or.inr rfl
  · exact Or.inl rfl

theorem fbw_ensure_demand_events (products : List String) (b : Backend)
    (ec : String) (goods : List Good) :
    (fbw_ensure_demand products b ec goods).2 = [] ∨
    (fbw_ensure_demand products b ec goods).2 = [Ev.createDemand ec] := by
  unfold fbw_ensure_demand
  rcases h : findDemandByEC b ec with _ | d
  · exact Or.inr rfl
  · exact Or.inl rfl

/-- `fbwEntrySettled` reads the backend only through its orders. -/
theorem fbwEntrySettled_congr_orders {byId : List (String × FBWSupply)}
    {b b' : Backend} (horders : b'.orders = b.orders)
    {e : String × SupplyInfo}
    (h : fbwEntrySettled byId b e) : fbwEntrySettled byId b' e := by
  intro s hs
  rcases h s hs with h1 | h1 | h1
  · exact Or.inl h1
  · refine Or.inr (Or.inl ?_)
    show ((findOrderByName b' _).orElse fun _ => findOrderByEC b' _) = none
    unfold findOrderByName findOrderByEC
    rw [horders]
    exact h1
  · exact Or.inr (Or.inr h1)

theorem orElse_none_iff {α : Type} (o o' : Option α) :
    (o.orElse fun _ => o') = none ↔ o = none ∧ o' = none := by
  cases o <;> simp [Option.orElse]

/-- Case analysis of one loop-1 step: skip (with the reason recorded), track
an existing order, or create and track. -/
theorem fbw_import_step_cases (fbw : FBWConfig) (products : List String)
    (boot : Int) (st : FBWState) (b : Backend) (evs : List Ev)
    (p : String × FBWSupply) :
    (fbw_import_supply fbw products boot (st, b, evs) p = (st, b, evs) ∧
      fbwImportSettled products boot st b p) ∨
    ((match p.2.createDate with
        | some d => decide (d ≤ boot)
        | none => false) = false ∧
      ∃ info, fbw_import_supply fbw products boot (st, b, evs) p =
        ({ st with supplies := upsertInfo st.supplies p.1 info }, b, evs)) ∨
    ((match p.2.createDate with
        | some d => decide (d ≤ boot)
        | none => false) = false ∧
      ∃ info pos, pos ≠ [] ∧
      fbw_import_supply fbw products boot (st, b, evs) p =
        ({ st with supplies := upsertInfo st.supplies p.1 info },
         { b with orders := b.orders ++
           [⟨"fbw-" ++ p.2.sid, "fbw-" ++ p.2.sid,
             fbw.ms_status_customerorder_id, pos⟩] },
         evs ++ [Ev.createOrder ("fbw-" ++ p.2.sid)])) := by
  by_cases h1 : hasInfo st p.1 = true
  · refine Or.inl ⟨?_, Or.inl h1⟩
    unfold fbw_import_supply
    simp [h1]
  by_cases h2 : (match p.2.createDate with
    | some d => decide (d ≤ boot)
    | none => false) = true
  · refine Or.inl ⟨?_, Or.inr (Or.inl ?_)⟩
    · unfold fbw_import_supply
      simp [h1, h2]
    · rcases hd : p.2.createDate with _ | d
      · rw [hd] at h2; cases h2
      · rw [hd] at h2
        exact ⟨d, rfl, by simpa using h2⟩
  by_cases h3 : p.2.sid = ""
  · refine Or.inl ⟨?_, Or.inr (Or.inr (Or.inl h3))⟩
    unfold fbw_import_supply
    simp [h1, h2, h3]
  rcases hlook : ((findOrderByEC b ("fbw-" ++ p.2.sid)).orElse
      (fun _ => findOrderByName b ("fbw-" ++ p.2.sid))) with _ | d
  · by_cases hpos : surviving_goods products p.2.goods = []
    · refine Or.inl ⟨?_, Or.inr (Or.inr (Or.inr ⟨hlook, hpos⟩))⟩
      unfold fbw_import_supply
      simp [h1, h2, h3, fbw_ensure_customerorder_skip hlook hpos]
    · refine Or.inr (Or.inr ⟨by simpa using h2,
        ⟨p.2.sid, "fbw-" ++ p.2.sid, false, false⟩,
        surviving_goods products p.2.goods, hpos, ?_⟩)
      unfold fbw_import_supply
      simp [h1, h2, h3, fbw_ensure_customerorder_create hlook hpos]
  · refine Or.inr (Or.inl ⟨by simpa using h2,
      ⟨p.2.sid, d.name, false, false⟩, ?_⟩)
    unfold fbw_import_supply
    simp [h1, h2, h3, fbw_ensure_customerorder_found hlook]

/-- Master analysis of loop 1: every processed supply ends import-settled,
tracked supplies stay tracked, the only orders created carry `fbw-` external
codes/names of processed keys, and demands/moves, bootstrap marker and
key-uniqueness are preserved. -/
theorem fbw_loop1_master (fbw : FBWConfig) (products : List String)
    (boot : Int) :
    ∀ (l : List (String × FBWSupply)) (st : FBWState) (b : Backend)
      (evs : List Ev) (r : FBWState × Backend × List Ev),
      l.foldl (fbw_import_supply fbw products boot) (st, b, evs) = r →
      (∀ p ∈ l, p.1 = p.2.sid) →
      (l.map Prod.fst).Nodup →
      (∀ p ∈ l, fbwImportSettled products boot r.1 r.2.1 p) ∧
      (∀ sid, hasInfo st sid = true → hasInfo r.1 sid = true) ∧
      (∀ ec, (∀ k ∈ l.map Prod.fst, ec ≠ "fbw-" ++ k) →
        findOrderByEC r.2.1 ec = findOrderByEC b ec) ∧
      (∀ n, (∀ k ∈ l.map Prod.fst, n ≠ "fbw-" ++ k) →
        findOrderByName r.2.1 n = findOrderByName b n) ∧
      (r.2.1.demands = b.demands) ∧
      (r.2.1.moves = b.moves) ∧
      (r.1.bootstrappedAt = st.bootstrappedAt) ∧
      ((st.supplies.map Prod.fst).Nodup →
        ((r.1.supplies.map Prod.fst).Nodup)) ∧
      (∀ ev ∈ r.2.2, ev ∈ evs ∨
        ∃ k, k ∈ l.map Prod.fst ∧ ev = Ev.createOrder ("fbw-" ++ k) ∧
          hasInfo r.1 k = true) ∧
      (∀ sid, hasInfo r.1 sid = true →
        hasInfo st sid = true ∨ sid ∈ l.map Prod.fst) ∧
      (∀ q ∈ l, hasInfo st q.1 = false →
        (∃ d, q.2.createDate = some d ∧ d ≤ boot) →
        hasInfo r.1 q.1 = false)
  | [], st, b, evs, r, hr, _, _ => by
      cases hr
      exact ⟨fun p hp => absurd hp (List.not_mem_nil p),
        fun sid h => h, fun ec _ => rfl, fun n _ => rfl, rfl, rfl, rfl,
        fun h => h, fun ev hev => Or.inl hev, fun sid h => Or.inl h,
        fun q hq _ _ => absurd hq (List.not_mem_nil q)⟩
  | p :: l, st, b, evs, r, hr, hkey, hnd => by
      rw [List.foldl_cons] at hr
      have hkeyp : p.1 = p.2.sid := hkey p (List.mem_cons_self _ _)
      have hndl : (l.map Prod.fst).Nodup := by
        rw [List.map_cons, List.nodup_cons] at hnd
        exact hnd.2
      have hpnotl : p.1 ∉ l.map Prod.fst := by
        rw [List.map_cons, List.nodup_cons] at hnd
        exact hnd.1
      have hkeyl : ∀ q ∈ l, q.1 = q.2.sid :=
        fun q hq => hkey q (List.mem_cons_of_mem _ hq)
      have hecfree : ∀ k ∈ l.map Prod.fst,
          ("fbw-" ++ p.2.sid : String) ≠ "fbw-" ++ k := by
        intro k hk heq
        exact hpnotl ((hkeyp.trans (fbw_name_inj heq)) ▸ hk)
      rcases fbw_import_step_cases fbw products boot st b evs p with
        ⟨hstep, hsettle⟩ | ⟨hdate, info, hstep⟩ | ⟨hdate, info, pos, hposne, hstep⟩
      · rw [hstep] at hr
        obtain ⟨ih1, ih2, ih3, ih4, ih5, ih6, ih7, ih8, ihE1, ihE4, ihE2⟩ :=
          fbw_loop1_master fbw products boot l st b evs r hr hkeyl hndl
        refine ⟨?_, ih2, fun ec h => ih3 ec
            (fun k hk => h k (List.mem_cons_of_mem _ (by exact hk))),
          fun n h => ih4 n (fun k hk => h k (List.mem_cons_of_mem _ hk)),
          ih5, ih6, ih7, ih8, ?_, ?_, ?_⟩
        · intro q hq
          rcases List.mem_cons.mp hq with h | h
          · subst h
            rcases hsettle with h | h | h | ⟨hlk, hsv⟩
            · exact Or.inl (ih2 _ h)
            · exact Or.inr (Or.inl h)
            · exact Or.inr (Or.inr (Or.inl h))
            · refine Or.inr (Or.inr (Or.inr ⟨?_, hsv⟩))
              rw [orElse_none_iff] at hlk ⊢
              rw [ih3 _ hecfree, ih4 _ hecfree]
              exact hlk
          · exact ih1 q h
        · intro ev hev
          rcases ihE1 ev hev with h | ⟨k, hk, hev2, hinf⟩
          · exact Or.inl h
          · exact Or.inr ⟨k,
              (by rw [List.map_cons]; exact List.mem_cons_of_mem _ hk),
              hev2, hinf⟩
        · intro sid h
          rcases ihE4 sid h with h' | h'
          · exact Or.inl h'
          · exact Or.inr
              (by rw [List.map_cons]; exact List.mem_cons_of_mem _ h')
        · intro q hq hfalse hdq
          rcases List.mem_cons.mp hq with h | h
          · subst h
            cases hB : hasInfo r.1 q.1
            · rfl
            · rcases ihE4 _ hB with h' | h'
              · rw [hfalse] at h'
                cases h'
              · exact absurd h' hpnotl
          · exact ihE2 q h hfalse hdq
      · rw [hstep] at hr
        obtain ⟨ih1, ih2, ih3, ih4, ih5, ih6, ih7, ih8, ihE1, ihE4, ihE2⟩ :=
          fbw_loop1_master fbw products boot l
            { st with supplies := upsertInfo st.supplies p.1 info } b evs r
            hr hkeyl hndl
        refine ⟨?_, fun sid h => ih2 sid (hasInfo_upsert_mono p.1 info h),
          fun ec h => ih3 ec (fun k hk => h k (List.mem_cons_of_mem _ hk)),
          fun n h => ih4 n (fun k hk => h k (List.mem_cons_of_mem _ hk)),
          ih5, ih6, ih7,
          fun h => ih8 (nodup_keys_upsertInfo info h), ?_, ?_, ?_⟩
        · intro q hq
          rcases List.mem_cons.mp hq with h | h
          · subst h
            exact Or.inl (ih2 _ (hasInfo_upsert_self st q.1 info))
          · exact ih1 q h
        · intro ev hev
          rcases ihE1 ev hev with h | ⟨k, hk, hev2, hinf⟩
          · exact Or.inl h
          · exact Or.inr ⟨k,
              (by rw [List.map_cons]; exact List.mem_cons_of_mem _ hk),
              hev2, hinf⟩
        · intro sid h
          rcases ihE4 sid h with h' | h'
          · by_cases hsp : sid = p.1
            · exact Or.inr
                (by rw [List.map_cons, hsp]; exact List.mem_cons_self _ _)
            · rw [hasInfo_upsert_ne hsp info] at h'
              exact Or.inl h'
          · exact Or.inr
              (by rw [List.map_cons]; exact List.mem_cons_of_mem _ h')
        · intro q hq hfalse hdq
          rcases List.mem_cons.mp hq with h | h
          · subst h
            exfalso
            rcases hdq with ⟨d, hd, hle⟩
            rw [hd] at hdate
            simp at hdate
            exact absurd hle (not_le.mpr hdate)
          · have hne : q.1 ≠ p.1 := fun he =>
              hpnotl (he ▸ List.mem_map_of_mem Prod.fst h)
            refine ihE2 q h ?_ hdq
            rw [hasInfo_upsert_ne hne info]
            exact hfalse
      · rw [hstep] at hr
        obtain ⟨ih1, ih2, ih3, ih4, ih5, ih6, ih7, ih8, ihE1, ihE4, ihE2⟩ :=
          fbw_loop1_master fbw products boot l
            { st with supplies := upsertInfo st.supplies p.1 info }
            { b with orders := b.orders ++
              [⟨"fbw-" ++ p.2.sid, "fbw-" ++ p.2.sid,
                fbw.ms_status_customerorder_id, pos⟩] }
            (evs ++ [Ev.createOrder ("fbw-" ++ p.2.sid)]) r hr hkeyl hndl
        refine ⟨?_, fun sid h => ih2 sid (hasInfo_upsert_mono p.1 info h),
          ?_, ?_, ih5, ih6, ih7,
          fun h => ih8 (nodup_keys_upsertInfo info h), ?_, ?_, ?_⟩
        · intro q hq
          rcases List.mem_cons.mp hq with h | h
          · subst h
            exact Or.inl (ih2 _ (hasInfo_upsert_self st q.1 info))
          · exact ih1 q h
        · intro ec h
          rw [ih3 ec (fun k hk => h k (List.mem_cons_of_mem _ hk))]
          have hne : ec ≠ "fbw-" ++ p.2.sid := by
            have h2 := h p.1 (by simp)
            rw [hkeyp] at h2
            exact h2
          exact findOrderByEC_append_ne b (Ne.symm hne)
        · intro n h
          rw [ih4 n (fun k hk => h k (List.mem_cons_of_mem _ hk))]
          have hne : n ≠ "fbw-" ++ p.2.sid := by
            have h2 := h p.1 (by simp)
            rw [hkeyp] at h2
            exact h2
          exact findOrderByName_append_ne b (Ne.symm hne)
        · intro ev hev
          rcases ihE1 ev hev with h | ⟨k, hk, hev2, hinf⟩
          · rcases List.mem_append.mp h with h' | h'
            · exact Or.inl h'
            · refine Or.inr ⟨p.1, ?_, ?_, ?_⟩
              · rw [List.map_cons]
                exact List.mem_cons_self _ _
              · rw [List.mem_singleton.mp h', hkeyp]
              · exact ih2 _ (hasInfo_upsert_self st p.1 info)
          · exact Or.inr ⟨k,
              (by rw [List.map_cons]; exact List.mem_cons_of_mem _ hk),
              hev2, hinf⟩
        · intro sid h
          rcases ihE4 sid h with h' | h'
          · by_cases hsp : sid = p.1
            · exact Or.inr
                (by rw [List.map_cons, hsp]; exact List.mem_cons_self _ _)
            · rw [hasInfo_upsert_ne hsp info] at h'
              exact Or.inl h'
          · exact Or.inr
              (by rw [List.map_cons]; exact List.mem_cons_of_mem _ h')
        · intro q hq hfalse hdq
          rcases List.mem_cons.mp hq with h | h
          · subst h
            exfalso
            rcases hdq with ⟨d, hd, hle⟩
            rw [hd] at hdate
            simp at hdate
            exact absurd hle (not_le.mpr hdate)
          · have hne : q.1 ≠ p.1 := fun he =>
              hpnotl (he ▸ List.mem_map_of_mem Prod.fst h)
            refine ihE2 q h ?_ hdq
            rw [hasInfo_upsert_ne hne info]
            exact hfalse

theorem assoc_binding_unique {l : List (String × SupplyInfo)}
    (hnd : (l.map Prod.fst).Nodup) {e e' : String × SupplyInfo}
    (he : e ∈ l) (he' : e' ∈ l) (hk : e.1 = e'.1) : e = e' := by
  induction l with
  | nil => cases he
  | cons a l ih =>
    rw [List.map_cons, List.nodup_cons] at hnd
    rcases List.mem_cons.mp he with h | h <;>
      rcases List.mem_cons.mp he' with h' | h'
    · exact h.trans h'.symm
    · subst h
      exact absurd (hk ▸ List.mem_map_of_mem Prod.fst h') hnd.1
    · subst h'
      exact absurd (hk ▸ List.mem_map_of_mem Prod.fst h) hnd.1
    · exact ih hnd.2 h h'

/-- Case analysis of one loop-2 step: either it skips with the entry
settled, or it reprocesses the entry and leaves it settled, touching no
order documents. -/
theorem fbw_process_active_char (products : List String)
    (byId : List (String × FBWSupply)) (st : FBWState) (b : Backend)
    (evs : List Ev) (e : String × SupplyInfo) :
    ∃ st1 b1 evs1,
      fbw_process_active products byId (st, b, evs) e = (st1, b1, evs1) ∧
      b1.orders = b.orders ∧
      st1.bootstrappedAt = st.bootstrappedAt ∧
      ((st1 = st ∧ fbwEntrySettled byId b e) ∨
        (∃ info2, st1 = { st with
            supplies := upsertInfo st.supplies e.1 info2 } ∧
          fbwEntrySettled byId b1 (e.1, info2))) ∧
      (evs1 = evs ∨ (∃ ec, evs1 = evs ++ [Ev.createMove ec]) ∨
        (∃ ec, evs1 = evs ++ [Ev.createDemand ec])) := by
  rcases hlk : lookupSupply byId e.1 with _ | s
  · refine ⟨st, b, evs, ?_, rfl, rfl, Or.inl ⟨rfl, ?_⟩, Or.inl rfl⟩
    · unfold fbw_process_active
      simp [hlk]
    · intro s' hs'
      rw [hlk] at hs'
      cases hs'
  · by_cases hnum : (if e.2.number ≠ "" then e.2.number else s.sid) = ""
    · refine ⟨st, b, evs, ?_, rfl, rfl, Or.inl ⟨rfl, ?_⟩, Or.inl rfl⟩
      · unfold fbw_process_active
        simp only [hlk]
        rw [if_pos hnum]
      · intro s' hs'
        rw [hlk] at hs'
        injection hs' with hs'
        subst hs'
        exact Or.inl hnum
    · rcases hord : ((findOrderByName b
          ("fbw-" ++ (if e.2.number ≠ "" then e.2.number else s.sid))).orElse
          (fun _ => findOrderByEC b
            ("fbw-" ++ (if e.2.number ≠ "" then e.2.number else s.sid))))
          with _ | ord
      · refine ⟨st, b, evs, ?_, rfl, rfl, Or.inl ⟨rfl, ?_⟩, Or.inl rfl⟩
        · unfold fbw_process_active
          simp only [hlk]
          rw [if_neg hnum, hord]
        · intro s' hs'
          rw [hlk] at hs'
          injection hs' with hs'
          subst hs'
          exact Or.inr (Or.inl hord)
      · -- order found: run the move/demand steps
        by_cases hmv : s.statusID = some 3 ∧ e.2.move = false
        case pos =>
          have hn3 : s.statusID = some 3 := hmv.1
          refine ⟨⟨st.bootstrappedAt,
              upsertInfo st.supplies e.1 ⟨e.2.number, e.2.orderId, true,
                e.2.demand⟩⟩,
            (fbw_ensure_move products b
              ("FBW:" ++ ord.name ++ ":MOVE") s.goods).1,
            evs ++ (fbw_ensure_move products b
              ("FBW:" ++ ord.name ++ ":MOVE") s.goods).2, ?_, ?_, rfl,
            Or.inr ⟨⟨e.2.number, e.2.orderId, true, e.2.demand⟩, rfl, ?_⟩,
            ?_⟩
          · unfold fbw_process_active
            simp only [hlk]
            rw [if_neg hnum, hord]
            simp only [hn3, hmv.2]
            simp
          · exact fbw_ensure_move_orders products b _ s.goods
          · intro s' hs'
            rw [hlk] at hs'
            injection hs' with hs'
            subst hs'
            refine Or.inr (Or.inr ⟨fun _ => rfl, fun h5 => ?_⟩)
            rw [hn3] at h5
            injection h5 with h5
            cases h5
          · rcases fbw_ensure_move_events products b
                ("FBW:" ++ ord.name ++ ":MOVE") s.goods with h | h
            · rw [h, List.append_nil]
              exact Or.inl rfl
            · rw [h]
              exact Or.inr (Or.inl ⟨_, rfl⟩)
        case neg =>
          by_cases hdm : s.statusID = some 5 ∧ e.2.demand = false
          case pos =>
            refine ⟨⟨st.bootstrappedAt,
                upsertInfo st.supplies e.1 ⟨e.2.number, e.2.orderId,
                  e.2.move, true⟩⟩,
              (fbw_ensure_demand products b
                ("FBW:" ++ ord.name ++ ":DEMAND") s.goods).1,
              evs ++ (fbw_ensure_demand products b
                ("FBW:" ++ ord.name ++ ":DEMAND") s.goods).2, ?_, ?_, rfl,
              Or.inr ⟨⟨e.2.number, e.2.orderId, e.2.move, true⟩, rfl, ?_⟩,
              ?_⟩
            · unfold fbw_process_active
              simp only [hlk]
              rw [if_neg hnum, hord]
              simp only [hmv, hdm.1, hdm.2]
              simp [hmv, hdm.2]
            · exact fbw_ensure_demand_orders products b _ s.goods
            · intro s' hs'
              rw [hlk] at hs'
              injection hs' with hs'
              subst hs'
              refine Or.inr (Or.inr ⟨fun h3 => ?_, fun _ => rfl⟩)
              rw [hdm.1] at h3
              injection h3 with h3
              cases h3
            · rcases fbw_ensure_demand_events products b
                  ("FBW:" ++ ord.name ++ ":DEMAND") s.goods with h | h
              · rw [h, List.append_nil]
                exact Or.inl rfl
              · rw [h]
                exact Or.inr (Or.inr ⟨_, rfl⟩)
          case neg =>
            refine ⟨{ st with supplies := upsertInfo st.supplies e.1 e.2 },
              b, evs, ?_, rfl, rfl, Or.inr ⟨e.2, rfl, ?_⟩, Or.inl rfl⟩
            · unfold fbw_process_active
              simp only [hlk]
              rw [if_neg hnum, hord]
              simp [hmv, hdm]
            · intro s' hs'
              rw [hlk] at hs'
              injection hs' with hs'
              subst hs'
              refine Or.inr (Or.inr ⟨?_, ?_⟩)
              · intro h3
                by_contra hmvf
                exact hmv ⟨h3, by simpa using hmvf⟩
              · intro h5
                by_contra hdmf
                exact hdm ⟨h5, by simpa using hdmf⟩

/-- Master analysis of loop 2: a full pass over a snapshot of the tracked
supplies leaves every tracked entry settled, touches no order documents, and
preserves the key set and the bootstrap marker. -/
theorem fbw_loop2_master (products : List String)
    (byId : List (String × FBWSupply)) :
    ∀ (l : List (String × SupplyInfo)) (st : FBWState) (b : Backend)
      (evs : List Ev) (r : FBWState × Backend × List Ev),
      l.foldl (fbw_process_active products byId) (st, b, evs) = r →
      (st.supplies.map Prod.fst).Nodup →
      (l.map Prod.fst).Nodup →
      (∀ e ∈ l, e ∈ st.supplies) →
      (∀ e' ∈ st.supplies, e'.1 ∈ l.map Prod.fst ∨
        fbwEntrySettled byId b e') →
      (∀ e ∈ r.1.supplies, fbwEntrySettled byId r.2.1 e) ∧
      r.2.1.orders = b.orders ∧
      r.1.supplies.map Prod.fst = st.supplies.map Prod.fst ∧
      r.1.bootstrappedAt = st.bootstrappedAt ∧
      (∀ ev ∈ r.2.2, ev ∈ evs ∨
        (∃ ec, ev = Ev.createMove ec) ∨ (∃ ec, ev = Ev.createDemand ec))
  | [], st, b, evs, r, hr, _, _, _, hall => by
      cases hr
      refine ⟨?_, rfl, rfl, rfl, fun ev hev => Or.inl hev⟩
      intro e he
      rcases hall e he with h | h
      · cases h
      · exact h
  | e :: l, st, b, evs, r, hr, hndst, hndl, hmem, hall => by
      rw [List.foldl_cons] at hr
      obtain ⟨st1, b1, evs1, hstep, hord1, hboot1, hcases, hevs1⟩ :=
        fbw_process_active_char products byId st b evs e
      rw [hstep] at hr
      have hevmem : ∀ ev ∈ evs1, ev ∈ evs ∨
          (∃ ec, ev = Ev.createMove ec) ∨
          (∃ ec, ev = Ev.createDemand ec) := by
        intro ev hev
        rcases hevs1 with h | ⟨ec, h⟩ | ⟨ec, h⟩
        · rw [h] at hev
          exact Or.inl hev
        · rw [h, List.mem_append] at hev
          rcases hev with h' | h'
          · exact Or.inl h'
          · exact Or.inr (Or.inl ⟨ec, List.mem_singleton.mp h'⟩)
        · rw [h, List.mem_append] at hev
          rcases hev with h' | h'
          · exact Or.inl h'
          · exact Or.inr (Or.inr ⟨ec, List.mem_singleton.mp h'⟩)
      have hndl' : (l.map Prod.fst).Nodup := by
        rw [List.map_cons, List.nodup_cons] at hndl
        exact hndl.2
      have henotl : e.1 ∉ l.map Prod.fst := by
        rw [List.map_cons, List.nodup_cons] at hndl
        exact hndl.1
      have hest : e ∈ st.supplies := hmem e (List.mem_cons_self _ _)
      rcases hcases with ⟨hst1, hsettled⟩ | ⟨info2, hst1, hsettled⟩
      · subst hst1
        obtain ⟨ih1, ih2, ih3, ih4, ih5⟩ := fbw_loop2_master products byId l
          st1 b1 evs1 r hr hndst hndl'
          (fun q hq => hmem q (List.mem_cons_of_mem _ hq))
          (fun e' he' => by
            rcases hall e' he' with h | h
            · rw [List.map_cons, List.mem_cons] at h
              rcases h with h | h
              · right
                have : e' = e := assoc_binding_unique hndst he' hest h
                subst this
                exact fbwEntrySettled_congr_orders hord1 hsettled
              · exact Or.inl h
            · exact Or.inr (fbwEntrySettled_congr_orders hord1 h))
        refine ⟨ih1, ih2.trans hord1, ih3, ih4.trans hboot1, ?_⟩
        intro ev hev
        rcases ih5 ev hev with h | h
        · exact hevmem ev h
        · exact Or.inr h
      · subst hst1
        have hndst1 : ((upsertInfo st.supplies e.1 info2).map
            Prod.fst).Nodup := nodup_keys_upsertInfo info2 hndst
        have hkeys1 : (upsertInfo st.supplies e.1 info2).map Prod.fst =
            st.supplies.map Prod.fst :=
          upsertInfo_keys_of_mem info2
            (List.mem_map_of_mem Prod.fst hest)
        obtain ⟨ih1, ih2, ih3, ih4, ih5⟩ := fbw_loop2_master products byId l
          { st with supplies := upsertInfo st.supplies e.1 info2 } b1 evs1 r
          hr hndst1 hndl'
          (fun q hq => by
            have hq' : q ∈ st.supplies := hmem q (List.mem_cons_of_mem _ hq)
            have hne : q.1 ≠ e.1 := by
              intro hqe
              exact henotl (hqe ▸ List.mem_map_of_mem Prod.fst hq)
            exact mem_upsertInfo_of_ne info2 hq' hne)
          (fun e' he' => by
            rcases mem_upsertInfo_elim hndst he' with h | ⟨h, hne⟩
            · subst h
              exact Or.inr hsettled
            · rcases hall e' h with h2 | h2
              · rw [List.map_cons, List.mem_cons] at h2
                rcases h2 with h2 | h2
                · exact absurd h2 hne
                · exact Or.inl h2
              · exact Or.inr (fbwEntrySettled_congr_orders hord1 h2))
        refine ⟨ih1, ih2.trans hord1, ?_, ih4.trans hboot1, ?_⟩
        · rw [ih3]
          exact hkeys1
        · intro ev hev
          rcases ih5 ev hev with h | h
          · exact hevmem ev h
          · exact Or.inr h

/-- Loop 1 skips an import-settled supply entirely. -/
theorem fbw_import_settled_step (fbw : FBWConfig) (products : List String)
    (boot : Int) (st : FBWState) (b : Backend) (evs : List Ev)
    (p : String × FBWSupply)
    (h : fbwImportSettled products boot st b p) :
    fbw_import_supply fbw products boot (st, b, evs) p = (st, b, evs) := by
  by_cases h1 : hasInfo st p.1 = true
  · unfold fbw_import_supply
    simp [h1]
  by_cases h2 : (match p.2.createDate with
    | some d => decide (d ≤ boot)
    | none => false) = true
  · unfold fbw_import_supply
    simp [h1, h2]
  by_cases h3 : p.2.sid = ""
  · unfold fbw_import_supply
    simp [h1, h2, h3]
  rcases h with h | ⟨d, hd, hle⟩ | h | ⟨hlk, hsv⟩
  · exact absurd h h1
  · exact absurd (by rw [hd]; exact decide_eq_true hle) h2
  · exact absurd h h3
  · unfold fbw_import_supply
    simp [h1, h2, h3, fbw_ensure_customerorder_skip hlk hsv]

theorem fbw_import_settled_fold (fbw : FBWConfig) (products : List String)
    (boot : Int) :
    ∀ (l : List (String × FBWSupply)) (st : FBWState) (b : Backend)
      (evs : List Ev),
      (∀ p ∈ l, fbwImportSettled products boot st b p) →
      l.foldl (fbw_import_supply fbw products boot) (st, b, evs) =
        (st, b, evs)
  | [], st, b, evs, _ => rfl
  | p :: l, st, b, evs, h => by
      rw [List.foldl_cons,
        fbw_import_settled_step fbw products boot st b evs p
          (h p (List.mem_cons_self _ _))]
      exact fbw_import_settled_fold fbw products boot l st b evs
        (fun q hq => h q (List.mem_cons_of_mem _ hq))

/-- Loop 2 creates nothing for a settled entry: the backend and the trace
are untouched. -/
theorem fbw_process_settled_step (products : List String)
    (byId : List (String × FBWSupply)) (st : FBWState) (b : Backend)
    (evs : List Ev) (e : String × SupplyInfo)
    (h : fbwEntrySettled byId b e) :
    ∃ st', fbw_process_active products byId (st, b, evs) e =
      (st', b, evs) := by
  rcases hlk : lookupSupply byId e.1 with _ | s
  · refine ⟨st, ?_⟩
    unfold fbw_process_active
    simp [hlk]
  by_cases hnum : (if e.2.number ≠ "" then e.2.number else s.sid) = ""
  · refine ⟨st, ?_⟩
    unfold fbw_process_active
    simp only [hlk]
    rw [if_pos hnum]
  rcases hord : ((findOrderByName b
      ("fbw-" ++ (if e.2.number ≠ "" then e.2.number else s.sid))).orElse
      (fun _ => findOrderByEC b
        ("fbw-" ++ (if e.2.number ≠ "" then e.2.number else s.sid))))
      with _ | ord
  · refine ⟨st, ?_⟩
    unfold fbw_process_active
    simp only [hlk]
    rw [if_neg hnum, hord]
  rcases h s hlk with hd | hd | ⟨h3, h5⟩
  · exact absurd hd hnum
  · rw [hd] at hord
    cases hord
  · refine ⟨{ st with supplies := upsertInfo st.supplies e.1 e.2 }, ?_⟩
    unfold fbw_process_active
    simp only [hlk]
    rw [if_neg hnum, hord]
    have hmv : ¬ (s.statusID = some 3 ∧ e.2.move = false) := by
      rintro ⟨ha, hb⟩
      rw [h3 ha] at hb
      cases hb
    have hdm : ¬ (s.statusID = some 5 ∧ e.2.demand = false) := by
      rintro ⟨ha, hb⟩
      rw [h5 ha] at hb
      cases hb
    simp [hmv, hdm]

theorem fbw_process_settled_fold (products : List String)
    (byId : List (String × FBWSupply)) :
    ∀ (l : List (String × SupplyInfo)) (st : FBWState) (b : Backend)
      (evs : List Ev),
      (∀ e ∈ l, fbwEntrySettled byId b e) →
      ∃ stF, l.foldl (fbw_process_active products byId) (st, b, evs) =
        (stF, b, evs)
  | [], st, b, evs, _ => ⟨st, rfl⟩
  | e :: l, st, b, evs, h => by
      obtain ⟨st1, hstep⟩ := fbw_process_settled_step products byId st b evs
        e (h e (List.mem_cons_self _ _))
      rw [List.foldl_cons, hstep]
      exact fbw_process_settled_fold products byId l st1 b evs
        (fun q hq => h q (List.mem_cons_of_mem _ hq))

theorem fbwImportSettled_congr {products : List String} {boot : Int}
    {st st' : FBWState} {b b' : Backend}
    (hkeys : st'.supplies.map Prod.fst = st.supplies.map Prod.fst)
    (horders : b'.orders = b.orders) {p : String × FBWSupply}
    (h : fbwImportSettled products boot st b p) :
    fbwImportSettled products boot st' b' p := by
  rcases h with h | h | h | ⟨hlk, hsv⟩
  · refine Or.inl ?_
    rw [hasInfo_iff_mem_keys] at h ⊢
    rw [hkeys]
    exact h
  · exact Or.inr (Or.inl h)
  · exact Or.inr (Or.inr (Or.inl h))
  · refine Or.inr (Or.inr (Or.inr ⟨?_, hsv⟩))
    rw [orElse_none_iff] at hlk ⊢
    unfold findOrderByEC findOrderByName
    rw [horders]
    exact hlk

/-- Unfolding of a non-bootstrap FBW run. -/
theorem fbwRun_eq_nonboot (fbw : FBWConfig) (products : List String)
    (now : Int) (supplies : List FBWSupply) (st : FBWState) (b : Backend)
    (boot : Int) (h : st.bootstrappedAt = some boot) :
    fbwRun fbw products now supplies st b =
      (let byId := buildById supplies
       let acc1 := byId.foldl (fbw_import_supply fbw products boot)
         (st, b, [])
       let acc2 := acc1.1.supplies.foldl
         (fbw_process_active products byId) acc1
       (acc2.1, acc2.2.1, acc2.2.2 ++ [Ev.saveFbwState])) := by
  unfold fbwRun
  rw [h]

/-- After one completed (non-bootstrap) FBW pass, every listed supply is
import-settled and every tracked entry is settled; the bootstrap marker and
key-uniqueness survive. -/
theorem fbwRun_establishes (fbw : FBWConfig) (products : List String)
    (now : Int) (supplies : List FBWSupply) (st0 : FBWState) (b0 : Backend)
    (boot : Int) (hboot : st0.bootstrappedAt = some boot)
    (hnd : (st0.supplies.map Prod.fst).Nodup) :
    (∀ p ∈ buildById supplies, fbwImportSettled products boot
      (fbwRun fbw products now supplies st0 b0).1
      (fbwRun fbw products now supplies st0 b0).2.1 p) ∧
    (∀ e ∈ (fbwRun fbw products now supplies st0 b0).1.supplies,
      fbwEntrySettled (buildById supplies)
        (fbwRun fbw products now supplies st0 b0).2.1 e) ∧
    (fbwRun fbw products now supplies st0 b0).1.bootstrappedAt =
      some boot ∧
    (((fbwRun fbw products now supplies st0 b0).1.supplies.map
      Prod.fst).Nodup) := by
  have hrun := fbwRun_eq_nonboot fbw products now supplies st0 b0 boot hboot
  rcases hacc1 : (buildById supplies).foldl
      (fbw_import_supply fbw products boot) (st0, b0, ([] : List Ev))
      with ⟨st1, b1, ev1⟩
  obtain ⟨m1, m2, m3, m4, m5, m6, m7, m8, -, -, -⟩ :=
    fbw_loop1_master fbw products boot (buildById supplies) st0 b0 [] _
      hacc1 (buildById_key_eq supplies) (buildById_nodup supplies)
  rcases hacc2 : st1.supplies.foldl
      (fbw_process_active products (buildById supplies)) (st1, b1, ev1)
      with ⟨st2, b2, ev2⟩
  obtain ⟨n1, n2, n3, n4, -⟩ :=
    fbw_loop2_master products (buildById supplies) st1.supplies st1 b1 ev1
      _ hacc2 (m8 hnd) (m8 hnd) (fun e he => he)
      (fun e' he' => Or.inl (List.mem_map_of_mem Prod.fst he'))
  have hr : fbwRun fbw products now supplies st0 b0 =
      (st2, b2, ev2 ++ [Ev.saveFbwState]) := by
    rw [hrun]
    show ((((buildById supplies).foldl
      (fbw_import_supply fbw products boot) (st0, b0, [])).1.supplies.foldl
        (fbw_process_active products (buildById supplies))
        ((buildById supplies).foldl (fbw_import_supply fbw products boot)
          (st0, b0, []))).1, _, _) = _
    rw [hacc1]
    show ((st1.supplies.foldl
      (fbw_process_active products (buildById supplies))
      (st1, b1, ev1)).1, _, _) = _
    rw [hacc2]
  rw [hr]
  refine ⟨?_, ?_, ?_, ?_⟩
  · intro p hp
    exact fbwImportSettled_congr n3 n2 (m1 p hp)
  · intro e he
    exact n1 e he
  · show st2.bootstrappedAt = some boot
    rw [n4, m7, hboot]
  · show (st2.supplies.map Prod.fst).Nodup
    rw [n3]
    exact m8 hnd

/-- Running the FBW pass a second time with the same supplies performs no
document creation: the second run's trace is the single state save. -/
theorem fbwRun_second_pass_no_creates (fbw : FBWConfig)
    (products : List String) (now now' : Int) (supplies : List FBWSupply)
    (st0 : FBWState) (b0 : Backend) (boot : Int)
    (hboot : st0.bootstrappedAt = some boot)
    (hnd : (st0.supplies.map Prod.fst).Nodup) :
    (fbwRun fbw products now' supplies
      (fbwRun fbw products now supplies st0 b0).1
      (fbwRun fbw products now supplies st0 b0).2.1).2.2 =
      [Ev.saveFbwState] := by
  obtain ⟨e1, e2, e3, -⟩ :=
    fbwRun_establishes fbw products now supplies st0 b0 boot hboot hnd
  have hrun2 := fbwRun_eq_nonboot fbw products now' supplies
    (fbwRun fbw products now supplies st0 b0).1
    (fbwRun fbw products now supplies st0 b0).2.1 boot e3
  have hl1 : (buildById supplies).foldl
      (fbw_import_supply fbw products boot)
      ((fbwRun fbw products now supplies st0 b0).1,
       (fbwRun fbw products now supplies st0 b0).2.1, ([] : List Ev)) =
      ((fbwRun fbw products now supplies st0 b0).1,
       (fbwRun fbw products now supplies st0 b0).2.1, []) :=
    fbw_import_settled_fold fbw products boot _ _ _ _ e1
  obtain ⟨stF, hl2⟩ := fbw_process_settled_fold products
    (buildById supplies) (fbwRun fbw products now supplies st0 b0).1.supplies
    (fbwRun fbw products now supplies st0 b0).1
    (fbwRun fbw products now supplies st0 b0).2.1 [] e2
  rw [hrun2]
  show ((((buildById supplies).foldl (fbw_import_supply fbw products boot)
    ((fbwRun fbw products now supplies st0 b0).1,
     (fbwRun fbw products now supplies st0 b0).2.1,
     [])).1.supplies.foldl (fbw_process_active products (buildById supplies))
      ((buildById supplies).foldl (fbw_import_supply fbw products boot)
        ((fbwRun fbw products now supplies st0 b0).1,
         (fbwRun fbw products now supplies st0 b0).2.1, []))).2.2 ++
      [Ev.saveFbwState]) = [Ev.saveFbwState]
  rw [hl1]
  show (((fbwRun fbw products now supplies st0 b0).1.supplies.foldl
    (fbw_process_active products (buildById supplies))
    ((fbwRun fbw products now supplies st0 b0).1,
     (fbwRun fbw products now supplies st0 b0).2.1, [])).2.2 ++
      [Ev.saveFbwState]) = [Ev.saveFbwState]
  rw [hl2]
  rfl

theorem lookupSupply_mem {byId : List (String × FBWSupply)} {sid : String}
    {s : FBWSupply} (h : lookupSupply byId sid = some s) :
    (sid, s) ∈ byId := by
  unfold lookupSupply at h
  rcases hf : byId.find? (fun q => q.1 = sid) with _ | q
  · rw [hf] at h
    cases h
  · rw [hf] at h
    have hq : q ∈ byId := List.mem_of_find?_eq_some hf
    obtain ⟨a, b⟩ := q
    have hqs : a = sid := by simpa using List.find?_some hf
    have hq2 : b = s := by simpa using h
    subst hqs
    subst hq2
    exact hq

/-- A supply listed by WB whose `createDate` is at or before the bootstrap
marker and which is not yet in the run state is skipped by loop 1: the run
never creates its `fbw-`-prefixed CustomerOrder and never records it in the
run state. -/
theorem fbwRun_old_supply_not_imported (fbw : FBWConfig)
    (products : List String) (now : Int) (supplies : List FBWSupply)
    (st0 : FBWState) (b0 : Backend) (boot : Int) (sid : String)
    (s : FBWSupply) (d : Int)
    (hboot : st0.bootstrappedAt = some boot)
    (hnd : (st0.supplies.map Prod.fst).Nodup)
    (hlk : lookupSupply (buildById supplies) sid = some s)
    (hd : s.createDate = some d) (hle : d ≤ boot)
    (hinfo : hasInfo st0 sid = false) :
    Ev.createOrder ("fbw-" ++ sid) ∉
      (fbwRun fbw products now supplies st0 b0).2.2 ∧
    hasInfo (fbwRun fbw products now supplies st0 b0).1 sid = false := by
  have hrun := fbwRun_eq_nonboot fbw products now supplies st0 b0 boot hboot
  rcases hacc1 : (buildById supplies).foldl
      (fbw_import_supply fbw products boot) (st0, b0, ([] : List Ev))
      with ⟨st1, b1, ev1⟩
  obtain ⟨m1, m2, m3, m4, m5, m6, m7, m8, mE1, mE4, mE2⟩ :=
    fbw_loop1_master fbw products boot (buildById supplies) st0 b0 [] _
      hacc1 (buildById_key_eq supplies) (buildById_nodup supplies)
  rcases hacc2 : st1.supplies.foldl
      (fbw_process_active products (buildById supplies)) (st1, b1, ev1)
      with ⟨st2, b2, ev2⟩
  obtain ⟨n1, n2, n3, n4, n5⟩ :=
    fbw_loop2_master products (buildById supplies) st1.supplies st1 b1 ev1
      _ hacc2 (m8 hnd) (m8 hnd) (fun e he => he)
      (fun e' he' => Or.inl (List.mem_map_of_mem Prod.fst he'))
  have hr : fbwRun fbw products now supplies st0 b0 =
      (st2, b2, ev2 ++ [Ev.saveFbwState]) := by
    rw [hrun]
    show ((((buildById supplies).foldl
      (fbw_import_supply fbw products boot) (st0, b0, [])).1.supplies.foldl
        (fbw_process_active products (buildById supplies))
        ((buildById supplies).foldl (fbw_import_supply fbw products boot)
          (st0, b0, []))).1, _, _) = _
    rw [hacc1]
    show ((st1.supplies.foldl
      (fbw_process_active products (buildById supplies))
      (st1, b1, ev1)).1, _, _) = _
    rw [hacc2]
  rw [hr]
  have hmem : ((sid, s) : String × FBWSupply) ∈ buildById supplies :=
    lookupSupply_mem hlk
  have hinfo1 : hasInfo st1 sid = false :=
    mE2 (sid, s) hmem hinfo ⟨d, hd, hle⟩
  constructor
  · intro hmemev
    rcases List.mem_append.mp hmemev with h | h
    · rcases n5 _ h with h' | ⟨ec, h'⟩ | ⟨ec, h'⟩
      · rcases mE1 _ h' with h2 | ⟨k, hk, hev2, hinf⟩
        · exact absurd h2 (List.not_mem_nil _)
        · have hks : sid = k := by
            have hn := Ev.createOrder.inj hev2
            exact fbw_name_inj hn
          rw [← hks] at hinf
          rw [hinfo1] at hinf
          cases hinf
      · exact Ev.noConfusion h'
      · exact Ev.noConfusion h'
    · exact Ev.noConfusion (List.mem_singleton.mp h)
  · show hasInfo st2 sid = false
    have hkeys : hasInfo st2 sid = true ↔ hasInfo st1 sid = true := by
      rw [hasInfo_iff_mem_keys, hasInfo_iff_mem_keys]
      show sid ∈ st2.supplies.map Prod.fst ↔ _
      rw [n3]
    cases hB : hasInfo st2 sid
    · rfl
    · have hc := hkeys.mp hB
      rw [hinfo1] at hc
      cases hc

/-- Membership in the `dateFrom`-filtered listing: an order survives the
cutoff iff it was listed with a parsed `createdAt` at or after the cutoff. -/
theorem mem_filterByCreatedAt (minCreatedAt : Int) (listed : List WBOrder)
    (o : WBOrder) :
    o ∈ filterByCreatedAt minCreatedAt listed ↔
      (o ∈ listed ∧ ∃ d, o.createdAt = some d ∧ minCreatedAt ≤ d) := by
  unfold filterByCreatedAt
  rw [List.mem_filter]
  constructor
  · rintro ⟨hm, hp⟩
    refine ⟨hm, ?_⟩
    rcases hc : o.createdAt with _ | d
    · rw [hc] at hp
      cases hp
    · rw [hc] at hp
      exact ⟨d, rfl, by simpa using hp⟩
  · rintro ⟨hm, d, hc, hle⟩
    refine ⟨hm, ?_⟩
    rw [hc]
    simpa using hle

/-! ## Claim C1 -/

/-- C1: document creation is idempotent.  Every create is preceded by a
lookup (an order-lookup hit can at most add a demand, a demand-lookup hit
adds nothing, and the FBW order ensure returns the found document with no
creation), and therefore running a reconciliation pass twice with unchanged
external statuses performs zero document creations on the second run — in
the orders flow the second pass's whole trace is the single active-set save,
and in the FBW flow it is the single state save. -/
theorem claim_C1_idempotent_second_run (cfg : Config)
    (products : List String) (applyRes : String → ApplyResult)
    (srv : String) :
    (∀ (orders : List WBOrder) (b : Backend) (ms act : List String)
        (out1 : OrdState),
      cfg.test_mode = false →
      statusesConsistent orders →
      runOrdersPass cfg products applyRes srv orders
        (initOrdState b ms act) = .ok out1 →
      ∃ out2, runOrdersPass cfg products applyRes srv orders
          (initOrdState out1.backend out1.msCreated out1.active) =
            .ok out2 ∧
        out2.events = [Ev.saveActive] ∧
        out2.createdOrders = 0 ∧ out2.createdDemands = 0) ∧
    (∀ (st : OrdState) (o : WBOrder) (st' : OrdState),
      cfg.test_mode = false →
      (findOrderByEC st.backend o.oid).isSome = true →
      processOrder cfg products applyRes srv st o = .ok st' →
      st'.events = st.events ∨
        st'.events = st.events ++ [Ev.createDemand o.oid]) ∧
    (∀ (st : OrdState) (o : WBOrder) (st' : OrdState),
      cfg.test_mode = false →
      (findDemandByEC st.backend o.oid).isSome = true →
      processOrder cfg products applyRes srv st o = .ok st' →
      st'.events = st.events) ∧
    (∀ (fbw : FBWConfig) (now now' : Int) (supplies : List FBWSupply)
        (st0 : FBWState) (b0 : Backend) (boot : Int),
      st0.bootstrappedAt = some boot →
      (st0.supplies.map Prod.fst).Nodup →
      (fbwRun fbw products now' supplies
        (fbwRun fbw products now supplies st0 b0).1
        (fbwRun fbw products now supplies st0 b0).2.1).2.2 =
        [Ev.saveFbwState]) ∧
    (∀ (fbw : FBWConfig) (b : Backend) (number : String)
        (goods : List Good) (d : OrderDoc),
      ((findOrderByEC b ("fbw-" ++ number)).orElse
        (fun _ => findOrderByName b ("fbw-" ++ number))) = some d →
      fbw_ensure_customerorder fbw products b number goods =
        (b, some d, [])) := by
  refine ⟨?_, ?_, ?_, ?_, ?_⟩
  · intro orders b ms act out1 hm hcons hrun1
    unfold runOrdersPass at hrun1
    rcases hf : orders.foldlM (processOrder cfg products applyRes srv)
        (initOrdState b ms act) with e | stF
    · rw [hf] at hrun1
      cases hrun1
    · rw [hf] at hrun1
      injection hrun1 with hrun1
      subst hrun1
      have hsettled := foldOrders_establishes_settled hm orders _ stF hf
        hcons
      obtain ⟨stF2, hfold2, hev, hco, hcd⟩ :=
        foldOrders_settled_no_creates hm orders
          (initOrdState stF.backend stF.msCreated stF.active)
          (fun o ho => hsettled o ho) hcons
      refine ⟨{ stF2 with events := stF2.events ++ [Ev.saveActive] },
        ?_, ?_, ?_, ?_⟩
      · unfold runOrdersPass
        rw [hfold2]
      · show stF2.events ++ [Ev.saveActive] = [Ev.saveActive]
        rw [hev]
        rfl
      · show stF2.createdOrders = 0
        rw [hco]
        rfl
      · show stF2.createdDemands = 0
        rw [hcd]
        rfl
  · intro st o st' hm hhit hrun
    exact processOrder_lookup_hit_no_create hm hhit hrun
  · intro st o st' hm hhit hrun
    exact processOrder_demand_hit_no_create hm hhit hrun
  · intro fbw now now' supplies st0 b0 boot hboot hnd
    exact fbwRun_second_pass_no_creates fbw products now now' supplies
      st0 b0 boot hboot hnd
  · intro fbw b number goods d h
    exact fbw_ensure_customerorder_found h

/-- Fully configured example state machine. -/
def cfgFull : Config := ⟨"N", "C1", "C2", "SH", "DV", "DD", "CX", "CS", false⟩

/-- Empty Ledger backend. -/
def emptyBackend : Backend := ⟨[], [], []⟩

/-- Two orders: one new, one already handed over. -/
def ordersW : List WBOrder :=
  [⟨"1", "A", some "new", some "waiting", some 10⟩,
   ⟨"2", "B", some "complete", some "sorted", some 10⟩]

/-- Example supply, status 3 (transfer stage). -/
def supplyW : FBWSupply := ⟨"7", some 100, some 3, [⟨"A", 2⟩]⟩

/-- A backend already holding the FBW order `fbw-7`. -/
def backendFbw7 : Backend :=
  ⟨[⟨"fbw-7", "fbw-7", "CO", [⟨"A", 2⟩]⟩], [], []⟩

theorem claim_C1_witness :
    (∃ out1 out2,
      runOrdersPass cfgFull ["A", "B"] (fun _ => ApplyResult.ok) "SRV"
        ordersW (initOrdState emptyBackend [] []) = .ok out1 ∧
      runOrdersPass cfgFull ["A", "B"] (fun _ => ApplyResult.ok) "SRV"
        ordersW (initOrdState out1.backend out1.msCreated out1.active) =
          .ok out2 ∧
      out2.events = [Ev.saveActive] ∧
      out2.createdOrders = 0 ∧ out2.createdDemands = 0) ∧
    (fbwRun ⟨"CO", "MV", "DM"⟩ ["A"] 60 [supplyW]
      (fbwRun ⟨"CO", "MV", "DM"⟩ ["A"] 50 [supplyW] ⟨some 40, []⟩
        emptyBackend).1
      (fbwRun ⟨"CO", "MV", "DM"⟩ ["A"] 50 [supplyW] ⟨some 40, []⟩
        emptyBackend).2.1).2.2 = [Ev.saveFbwState] ∧
    fbw_ensure_customerorder ⟨"CO", "MV", "DM"⟩ ["A"] backendFbw7 "7"
      [⟨"A", 2⟩] =
      (backendFbw7, some ⟨"fbw-7", "fbw-7", "CO", [⟨"A", 2⟩]⟩, []) := by
  have h := claim_C1_idempotent_second_run cfgFull ["A", "B"]
    (fun _ => ApplyResult.ok) "SRV"
  have hA := claim_C1_idempotent_second_run cfgFull ["A"]
    (fun _ => ApplyResult.ok) "SRV"
  refine ⟨?_, ?_, ?_⟩
  · obtain ⟨out2, h1, h2, h3, h4⟩ := h.1 ordersW emptyBackend [] [] _ rfl
      (by unfold statusesConsistent; decide) rfl
    exact ⟨_, out2, rfl, h1, h2, h3, h4⟩
  · exact hA.2.2.2.1 ⟨"CO", "MV", "DM"⟩ 50 60 [supplyW] ⟨some 40, []⟩
      emptyBackend 40 rfl (by simp)
  · exact hA.2.2.2.2 ⟨"CO", "MV", "DM"⟩ backendFbw7 "7" [⟨"A", 2⟩]
      ⟨"fbw-7", "fbw-7", "CO", [⟨"A", 2⟩]⟩ (by decide)

/-! ## Claim C6 -/

theorem demandStep_error_char {cfg : Config}
    {applyRes : String → ApplyResult} {st : OrdState} {o : WBOrder}
    {msOrder : OrderDoc} {e : ApplyResult} (hm : cfg.test_mode = false)
    (h : demandStep cfg applyRes st o msOrder = .error e) :
    ∃ status codes, e = ApplyResult.httpError status codes ∧
      applyRes o.oid = ApplyResult.httpError status codes ∧
      ¬(status = 412 ∧ 3007 ∈ codes) := by
  cases hsh : should_create_demand cfg
      (stateAfterUpdate cfg o st.active msOrder.stateId)
  · obtain ⟨st', hstep, -, -, -, -⟩ :=
      @demandStep_gate_denied cfg applyRes st o msOrder hm hsh
    rw [hstep] at h
    cases h
  · rcases hap : applyRes o.oid with _ | ⟨status, codes⟩
    · obtain ⟨st', hstep, -, -, -, -, -⟩ :=
        demandStep_gate_creates hm hsh hap
      rw [hstep] at h
      cases h
    · by_cases hc : status = 412 ∧ 3007 ∈ codes
      · obtain ⟨st', hstep, -, -, -, -, -, -⟩ :=
          demandStep_gate_no_stock hm hsh
            (by rw [← hc.1]; exact hap) hc.2
        rw [hstep] at h
        cases h
      · rw [demandStep_gate_apply_fails hm hsh hap hc] at h
        injection h with h
        refine ⟨status, codes, ?_, rfl, hc⟩
        first
        | exact h
        | exact h.symm

/-- The only error `processOrder` can raise is the demand-apply HTTP error,
and only when it is not the recognized 412/3007 insufficient-stock case (the
latter is handled in place). -/
theorem processOrder_error_char {cfg : Config} {products : List String}
    {applyRes : String → ApplyResult} {srv : String} {st : OrdState}
    {o : WBOrder} {e : ApplyResult} (hm : cfg.test_mode = false)
    (h : processOrder cfg products applyRes srv st o = .error e) :
    ∃ status codes, e = ApplyResult.httpError status codes ∧
      applyRes o.oid = ApplyResult.httpError status codes ∧
      ¬(status = 412 ∧ 3007 ∈ codes) := by
  by_cases hdem : (findDemandByEC st.backend o.oid).isSome = true
  · rw [processOrder_demand_exists hm hdem] at h
    cases h
  · have hdem' : (findDemandByEC st.backend o.oid).isSome = false := by
      simpa using hdem
    by_cases hcan : isCancelPair o.supplierStatus o.wbStatus
    · obtain ⟨stX, hstep, -, -, -, -, -, -⟩ :=
        @processOrder_cancel cfg products applyRes srv st o hm hdem' hcan
      rw [hstep] at h
      cases h
    · rcases hfind : findOrderByEC st.backend o.oid with _ | d
      · by_cases hart : o.article = ""
        · rw [processOrder_skip_article hm hdem' hcan hfind hart] at h
          cases h
        · by_cases hprod : o.article ∈ products
          · rw [processOrder_create hm hdem' hcan hfind hart hprod] at h
            exact demandStep_error_char hm h
          · rw [processOrder_skip_product hm hdem' hcan hfind hart hprod]
              at h
            cases h
      · rw [processOrder_found hm hdem' hcan hfind] at h
        exact demandStep_error_char hm h

/-- An error raised while processing one order propagates out of the
per-order loop: nothing after the failing order runs and the active-set
save is skipped. -/
theorem runOrdersPass_error_aborts (cfg : Config) (products : List String)
    (applyRes : String → ApplyResult) (srv : String) (pre : List WBOrder)
    (o : WBOrder) (rest : List WBOrder) (st0 st1 : OrdState)
    (e : ApplyResult)
    (h1 : pre.foldlM (processOrder cfg products applyRes srv) st0 = .ok st1)
    (h2 : processOrder cfg products applyRes srv st1 o = .error e) :
    runOrdersPass cfg products applyRes srv (pre ++ o :: rest) st0 =
      .error e := by
  have hfold : (pre ++ o :: rest).foldlM
      (processOrder cfg products applyRes srv) st0 = .error e := by
    rw [List.foldlM_append, h1]
    show (o :: rest).foldlM (processOrder cfg products applyRes srv) st1 =
      .error e
    rw [List.foldlM_cons, h2]
    rfl
  unfold runOrdersPass
  rw [hfold]

/-- C6 amended: `orders_sync.main` has no per-entity try/except.  The only
error handled at the entity level is the recognized HTTP 412 / code 3007
demand-apply rejection; any other error while processing one entity
propagates and aborts the whole pass — the orders after the failing one are
never processed (the result does not mention them) and the final active-set
save never happens. -/
theorem claim_C6_amended_no_per_entity_boundary (cfg : Config)
    (products : List String) (applyRes : String → ApplyResult)
    (srv : String) :
    (∀ (pre : List WBOrder) (o : WBOrder) (rest : List WBOrder)
        (st0 st1 : OrdState) (e : ApplyResult),
      pre.foldlM (processOrder cfg products applyRes srv) st0 = .ok st1 →
      processOrder cfg products applyRes srv st1 o = .error e →
      runOrdersPass cfg products applyRes srv (pre ++ o :: rest) st0 =
        .error e) ∧
    (∀ (st : OrdState) (o : WBOrder) (e : ApplyResult),
      cfg.test_mode = false →
      processOrder cfg products applyRes srv st o = .error e →
      ∃ status codes, e = ApplyResult.httpError status codes ∧
        applyRes o.oid = ApplyResult.httpError status codes ∧
        ¬(status = 412 ∧ 3007 ∈ codes)) := by
  refine ⟨?_, ?_⟩
  · intro pre o rest st0 st1 e h1 h2
    exact runOrdersPass_error_aborts cfg products applyRes srv pre o rest
      st0 st1 e h1 h2
  · intro st o e hm h
    exact processOrder_error_char hm h

/-- Demand apply fails with HTTP 500 for order 8, succeeds otherwise. -/
def apC6 : String → ApplyResult := fun oid =>
  if oid = "8" then ApplyResult.httpError 500 [] else ApplyResult.ok

/-- Order 8: unmapped status pair, its MS order is past the deny states. -/
def oBadC6 : WBOrder := ⟨"8", "A", some "complete", some "waiting", some 10⟩

/-- Order 9: a fresh order that processes without error. -/
def oGoodC6 : WBOrder := ⟨"9", "A", some "new", some "waiting", some 10⟩

/-- Backend where order 8 already sits in a non-deny state `X`. -/
def backendC6 : Backend := ⟨[⟨"8", "8", "X", [⟨"A", 1⟩]⟩], [], []⟩

/-- C6 counterexample: order 8's demand apply fails with an unrecognized
HTTP 500 and the whole pass aborts with that error — order 9, which alone
runs to completion, is never processed and no active-set save happens,
refuting "caught at the per-entity boundary, pass continues". -/
theorem claim_C6_counterexample :
    runOrdersPass cfgConfirmBoth ["A"] apC6 "SRV" [oBadC6, oGoodC6]
      (initOrdState backendC6 [] []) =
      .error (ApplyResult.httpError 500 []) ∧
    (∃ out, runOrdersPass cfgConfirmBoth ["A"] apC6 "SRV" [oGoodC6]
      (initOrdState backendC6 [] []) = .ok out) := by
  exact ⟨rfl, _, rfl⟩

theorem claim_C6_witness :
    runOrdersPass cfgConfirmBoth ["A"] apC6 "SRV"
      ([] ++ oBadC6 :: [oGoodC6]) (initOrdState backendC6 [] []) =
      .error (ApplyResult.httpError 500 []) ∧
    (∃ status codes,
      (ApplyResult.httpError 500 [] : ApplyResult) =
        ApplyResult.httpError status codes ∧
      apC6 oBadC6.oid = ApplyResult.httpError status codes ∧
      ¬(status = 412 ∧ 3007 ∈ codes)) := by
  have h := claim_C6_amended_no_per_entity_boundary cfgConfirmBoth ["A"]
    apC6 "SRV"
  refine ⟨h.1 [] oBadC6 [oGoodC6] (initOrdState backendC6 [] [])
      (initOrdState backendC6 [] []) (ApplyResult.httpError 500 [])
      rfl rfl,
    h.2 (initOrdState backendC6 [] []) oBadC6
      (ApplyResult.httpError 500 []) rfl rfl⟩

/-! ## Claim C7 -/

/-- C7 counterexample: with zero surviving line items the FBW Transfer and
Shipment builders do NOT skip the document: `_ensure_move` and
`_ensure_demand` have no empty-positions guard and create the document with
an empty positions list, refuting "whenever zero line items survive,
creation of that whole document is skipped". -/
theorem claim_C7_counterexample :
    surviving_goods [] [⟨"X", 3⟩] = [] ∧
    fbw_ensure_move [] emptyBackend "FBW:fbw-7:MOVE" [⟨"X", 3⟩] =
      (⟨[], [], [⟨"FBW:fbw-7:MOVE", []⟩]⟩,
       [Ev.createMove "FBW:fbw-7:MOVE"]) ∧
    fbw_ensure_demand [] emptyBackend "FBW:fbw-7:DEMAND" [⟨"X", 3⟩] =
      (⟨[], [⟨"FBW:fbw-7:DEMAND", []⟩], []⟩,
       [Ev.createDemand "FBW:fbw-7:DEMAND"]) :=
  ⟨rfl, rfl, rfl⟩

/-- C7 amended: the line-item filter drops exactly the goods with an empty
article, a non-positive quantity, or no catalog product, keeping the rest;
with zero survivors the FBW CustomerOrder creation is skipped
(`skip_create_empty_positions`) and in the FBS flow an order whose single
article has no catalog product is skipped and counted — but the FBW
Transfer/Shipment builders create their document regardless of the
survivor count (see the counterexample). -/
theorem claim_C7_amended_line_item_drop (products : List String) :
    (∀ (goods : List Good) (g : Good),
      g ∈ surviving_goods products goods ↔
        (g ∈ goods ∧ g.article ≠ "" ∧ 0 < g.qty ∧ g.article ∈ products)) ∧
    (∀ (fbw : FBWConfig) (b : Backend) (number : String)
        (goods : List Good),
      ((findOrderByEC b ("fbw-" ++ number)).orElse
        (fun _ => findOrderByName b ("fbw-" ++ number))) = none →
      surviving_goods products goods = [] →
      fbw_ensure_customerorder fbw products b number goods =
        (b, none, [])) ∧
    (∀ (b : Backend) (ec : String) (goods : List Good),
      findMoveByEC b ec = none →
      fbw_ensure_move products b ec goods =
        ({ b with moves :=
            b.moves ++ [⟨ec, surviving_goods products goods⟩] },
         [Ev.createMove ec])) ∧
    (∀ (b : Backend) (ec : String) (goods : List Good),
      findDemandByEC b ec = none →
      fbw_ensure_demand products b ec goods =
        ({ b with demands :=
            b.demands ++ [⟨ec, surviving_goods products goods⟩] },
         [Ev.createDemand ec])) ∧
    (∀ (cfg : Config) (applyRes : String → ApplyResult) (srv : String)
        (st : OrdState) (o : WBOrder),
      cfg.test_mode = false →
      (findDemandByEC st.backend o.oid).isSome = false →
      ¬ isCancelPair o.supplierStatus o.wbStatus →
      findOrderByEC st.backend o.oid = none →
      o.article ≠ "" → o.article ∉ products →
      processOrder cfg products applyRes srv st o =
        .ok { st with skippedNoProduct := st.skippedNoProduct + 1 }) := by
  refine ⟨?_, ?_, ?_, ?_, ?_⟩
  · intro goods g
    unfold surviving_goods
    rw [List.mem_filter]
    simp
  · intro fbw b number goods hnone hpos
    exact fbw_ensure_customerorder_skip hnone hpos
  · intro b ec goods hnone
    unfold fbw_ensure_move
    rw [hnone]
  · intro b ec goods hnone
    unfold fbw_ensure_demand
    rw [hnone]
  · intro cfg applyRes srv st o hm hnd hnc hnone hart hprod
    exact processOrder_skip_product hm hnd hnc hnone hart hprod

/-- An FBS order whose article has no catalog hit. -/
def oNoProdC7 : WBOrder := ⟨"5", "Z", some "new", some "waiting", some 10⟩

theorem claim_C7_witness :
    ((⟨"A", 2⟩ : Good) ∈ surviving_goods ["A"] [⟨"A", 2⟩, ⟨"X", 3⟩] ↔
      ((⟨"A", 2⟩ : Good) ∈ ([⟨"A", 2⟩, ⟨"X", 3⟩] : List Good) ∧
        ("A" : String) ≠ "" ∧ 0 < (2 : Int) ∧
        ("A" : String) ∈ (["A"] : List String))) ∧
    fbw_ensure_customerorder ⟨"CO", "MV", "DM"⟩ ["A"] emptyBackend "7"
      [⟨"X", 3⟩] = (emptyBackend, none, []) ∧
    fbw_ensure_move ["A"] emptyBackend "M1" [⟨"X", 3⟩] =
      ({ emptyBackend with moves :=
          emptyBackend.moves ++ [⟨"M1", surviving_goods ["A"] [⟨"X", 3⟩]⟩] },
       [Ev.createMove "M1"]) ∧
    fbw_ensure_demand ["A"] emptyBackend "D1" [⟨"X", 3⟩] =
      ({ emptyBackend with demands :=
          emptyBackend.demands ++
            [⟨"D1", surviving_goods ["A"] [⟨"X", 3⟩]⟩] },
       [Ev.createDemand "D1"]) ∧
    processOrder cfgFull ["A"] (fun _ => ApplyResult.ok) "SRV"
      (initOrdState emptyBackend [] []) oNoProdC7 =
      .ok { initOrdState emptyBackend [] [] with skippedNoProduct :=
        (initOrdState emptyBackend [] []).skippedNoProduct + 1 } := by
  have h := claim_C7_amended_line_item_drop ["A"]
  refine ⟨?_, ?_, ?_, ?_, ?_⟩
  · exact h.1 [⟨"A", 2⟩, ⟨"X", 3⟩] ⟨"A", 2⟩
  · exact h.2.1 ⟨"CO", "MV", "DM"⟩ emptyBackend "7" [⟨"X", 3⟩] rfl rfl
  · exact h.2.2.1 emptyBackend "M1" [⟨"X", 3⟩] rfl
  · exact h.2.2.2.1 emptyBackend "D1" [⟨"X", 3⟩] rfl
  · exact h.2.2.2.2 cfgFull (fun _ => ApplyResult.ok) "SRV"
      (initOrdState emptyBackend [] []) oNoProdC7 rfl rfl (by decide)
      rfl (by decide) (by decide)

/-! ## Claim C8 -/

/-- C8: bootstrap cutoff.  The very first FBW run (no bootstrap marker)
only records the bootstrap timestamp — the backend is untouched and the
trace is the single state save; on every later run a listed supply whose
`createDate` is at or before the marker and which is not yet tracked in
run state is never imported: its `fbw-` order is never created and it is
not added to the run state.  In the FBS flow the listing itself is
filtered by the configured minimum creation date: an order survives iff
its `createdAt` parsed and is at or after the minimum. -/
theorem claim_C8_bootstrap_cutoff (products : List String) :
    (∀ (fbw : FBWConfig) (now : Int) (supplies : List FBWSupply)
        (st0 : FBWState) (b0 : Backend),
      st0.bootstrappedAt = none →
      fbwRun fbw products now supplies st0 b0 =
        ({ st0 with bootstrappedAt := some now }, b0,
         [Ev.saveFbwState])) ∧
    (∀ (fbw : FBWConfig) (now : Int) (supplies : List FBWSupply)
        (st0 : FBWState) (b0 : Backend) (boot : Int) (sid : String)
        (s : FBWSupply) (d : Int),
      st0.bootstrappedAt = some boot →
      (st0.supplies.map Prod.fst).Nodup →
      lookupSupply (buildById supplies) sid = some s →
      s.createDate = some d → d ≤ boot →
      hasInfo st0 sid = false →
      Ev.createOrder ("fbw-" ++ sid) ∉
        (fbwRun fbw products now supplies st0 b0).2.2 ∧
      hasInfo (fbwRun fbw products now supplies st0 b0).1 sid = false) ∧
    (∀ (minCreatedAt : Int) (listed : List WBOrder) (o : WBOrder),
      o ∈ filterByCreatedAt minCreatedAt listed ↔
        (o ∈ listed ∧ ∃ d, o.createdAt = some d ∧ minCreatedAt ≤ d)) := by
  refine ⟨?_, ?_, ?_⟩
  · intro fbw now supplies st0 b0 h
    unfold fbwRun
    rw [h]
  · intro fbw now supplies st0 b0 boot sid s d hboot hnd hlk hd hle hinfo
    exact fbwRun_old_supply_not_imported fbw products now supplies st0 b0
      boot sid s d hboot hnd hlk hd hle hinfo
  · intro minC listed o
    exact mem_filterByCreatedAt minC listed o

/-- A supply created (date 10) before the bootstrap marker (40). -/
def supplyOldC8 : FBWSupply := ⟨"7", some 10, some 3, [⟨"A", 2⟩]⟩

theorem claim_C8_witness :
    fbwRun ⟨"CO", "MV", "DM"⟩ ["A"] 50 [supplyW] ⟨none, []⟩ emptyBackend =
      ({ (⟨none, []⟩ : FBWState) with bootstrappedAt := some 50 },
       emptyBackend, [Ev.saveFbwState]) ∧
    (Ev.createOrder ("fbw-" ++ "7") ∉
      (fbwRun ⟨"CO", "MV", "DM"⟩ ["A"] 50 [supplyOldC8] ⟨some 40, []⟩
        emptyBackend).2.2 ∧
     hasInfo (fbwRun ⟨"CO", "MV", "DM"⟩ ["A"] 50 [supplyOldC8]
        ⟨some 40, []⟩ emptyBackend).1 "7" = false) ∧
    (oGoodC6 ∈ filterByCreatedAt 5 [oGoodC6] ↔
      (oGoodC6 ∈ [oGoodC6] ∧
        ∃ d, oGoodC6.createdAt = some d ∧ 5 ≤ d)) := by
  have h := claim_C8_bootstrap_cutoff ["A"]
  refine ⟨h.1 ⟨"CO", "MV", "DM"⟩ 50 [supplyW] ⟨none, []⟩ emptyBackend rfl,
    h.2.1 ⟨"CO", "MV", "DM"⟩ 50 [supplyOldC8] ⟨some 40, []⟩ emptyBackend
      40 "7" supplyOldC8 10 rfl (by decide) rfl rfl (by decide) rfl,
    h.2.2 5 [oGoodC6] oGoodC6⟩

/-! ## Claim C9 -/

/-- Number of created-orders run-state saves in a trace. -/
def countSaveMs (l : List Ev) : Nat :=
  (l.filter (fun e => e = Ev.saveMsCreated)).length

/-- Number of CustomerOrder creations in a trace. -/
def countCreateOrders (l : List Ev) : Nat :=
  (l.filter (fun e => match e with
    | Ev.createOrder _ => true
    | _ => false)).length

theorem countSaveMs_append (l1 l2 : List Ev) :
    countSaveMs (l1 ++ l2) = countSaveMs l1 + countSaveMs l2 := by
  unfold countSaveMs
  rw [List.filter_append, List.length_append]

theorem countCreateOrders_append (l1 l2 : List Ev) :
    countCreateOrders (l1 ++ l2) =
      countCreateOrders l1 + countCreateOrders l2 := by
  unfold countCreateOrders
  rw [List.filter_append, List.length_append]

/-- Over a completed per-order loop the trace delta never contains the
active-set save, and carries exactly one `ms_created` save per created
order (the save sits inside the loop, right after each creation). -/
theorem foldOrders_events_delta {cfg : Config} {products : List String}
    {applyRes : String → ApplyResult} {srv : String}
    (hm : cfg.test_mode = false) :
    ∀ (os : List WBOrder) (st stF : OrdState),
      os.foldlM (processOrder cfg products applyRes srv) st = .ok stF →
      ∃ delta, stF.events = st.events ++ delta ∧
        Ev.saveActive ∉ delta ∧
        countSaveMs delta = countCreateOrders delta
  | [], st, stF, h => by
      injection h with h
      subst h
      exact ⟨[], by simp, List.not_mem_nil _, rfl⟩
  | o :: os, st, stF, h => by
      rw [List.foldlM_cons] at h
      rcases hstep : processOrder cfg products applyRes srv st o
          with e | st1
      · rw [hstep] at h
        exact Except.noConfusion h
      · rw [hstep] at h
        have h' : os.foldlM (processOrder cfg products applyRes srv) st1 =
            .ok stF := h
        obtain ⟨delta, hev, hna, hcnt⟩ :=
          foldOrders_events_delta hm os st1 stF h'
        obtain ⟨-, hev1, -, -, -, -⟩ := processOrder_master hm hstep
        rcases hev1 with h1 | h1 | h1 | h1
        · exact ⟨delta, by rw [hev, h1], hna, hcnt⟩
        · refine ⟨[Ev.createDemand o.oid] ++ delta, ?_, ?_, ?_⟩
          · rw [hev, h1, List.append_assoc]
          · intro hc
            rcases List.mem_append.mp hc with hc | hc
            · simp at hc
            · exact hna hc
          · rw [countSaveMs_append, countCreateOrders_append, hcnt]
            rfl
        · refine ⟨[Ev.createOrder o.oid, Ev.saveMsCreated] ++ delta,
            ?_, ?_, ?_⟩
          · rw [hev, h1, List.append_assoc]
          · intro hc
            rcases List.mem_append.mp hc with hc | hc
            · simp at hc
            · exact hna hc
          · rw [countSaveMs_append, countCreateOrders_append, hcnt]
            rfl
        · refine ⟨[Ev.createOrder o.oid, Ev.saveMsCreated,
              Ev.createDemand o.oid] ++ delta, ?_, ?_, ?_⟩
          · rw [hev, h1, List.append_assoc]
          · intro hc
            rcases List.mem_append.mp hc with hc | hc
            · simp at hc
            · exact hna hc
          · rw [countSaveMs_append, countCreateOrders_append, hcnt]
            rfl

/-- C9 amended: the pass-boundary saves are the active set (orders flow)
and the FBW state file — each saved exactly once, as the last action of a
completed pass — but the created-orders set `ms_created` is persisted
per-entity, inside the loop: a completed pass saves it exactly as many
times as it created orders, each save before the remaining entities are
processed (see the counterexample trace). -/
theorem claim_C9_amended_save_points (cfg : Config)
    (products : List String) (applyRes : String → ApplyResult)
    (srv : String) :
    (∀ (orders : List WBOrder) (b : Backend) (ms act : List String)
        (out : OrdState),
      cfg.test_mode = false →
      runOrdersPass cfg products applyRes srv orders
        (initOrdState b ms act) = .ok out →
      ∃ evs, out.events = evs ++ [Ev.saveActive] ∧
        Ev.saveActive ∉ evs ∧
        countSaveMs evs = countCreateOrders evs) ∧
    (∀ (fbw : FBWConfig) (now : Int) (supplies : List FBWSupply)
        (st0 : FBWState) (b0 : Backend),
      (st0.supplies.map Prod.fst).Nodup →
      ∃ evs, (fbwRun fbw products now supplies st0 b0).2.2 =
          evs ++ [Ev.saveFbwState] ∧
        Ev.saveFbwState ∉ evs) := by
  refine ⟨?_, ?_⟩
  · intro orders b ms act out hm hrun
    unfold runOrdersPass at hrun
    rcases hf : orders.foldlM (processOrder cfg products applyRes srv)
        (initOrdState b ms act) with e | stF
    · rw [hf] at hrun
      cases hrun
    · rw [hf] at hrun
      injection hrun with hrun
      subst hrun
      obtain ⟨delta, hev, hna, hcnt⟩ := foldOrders_events_delta hm orders
        (initOrdState b ms act) stF hf
      refine ⟨stF.events, rfl, ?_, ?_⟩
      · show Ev.saveActive ∉ stF.events
        rw [hev]
        intro hc
        rcases List.mem_append.mp hc with hc | hc
        · exact absurd hc (List.not_mem_nil _)
        · exact hna hc
      · show countSaveMs stF.events = countCreateOrders stF.events
        rw [hev]
        show countSaveMs ([] ++ delta) = countCreateOrders ([] ++ delta)
        rw [List.nil_append]
        exact hcnt
  · intro fbw now supplies st0 b0 hnd
    rcases hb : st0.bootstrappedAt with _ | boot
    · refine ⟨[], ?_, List.not_mem_nil _⟩
      show (fbwRun fbw products now supplies st0 b0).2.2 =
        [] ++ [Ev.saveFbwState]
      unfold fbwRun
      rw [hb]
      rfl
    · have hrun := fbwRun_eq_nonboot fbw products now supplies st0 b0
        boot hb
      rcases hacc1 : (buildById supplies).foldl
          (fbw_import_supply fbw products boot) (st0, b0, ([] : List Ev))
          with ⟨st1, b1, ev1⟩
      obtain ⟨m1, m2, m3, m4, m5, m6, m7, m8, mE1, mE4, mE2⟩ :=
        fbw_loop1_master fbw products boot (buildById supplies) st0 b0 [] _
          hacc1 (buildById_key_eq supplies) (buildById_nodup supplies)
      rcases hacc2 : st1.supplies.foldl
          (fbw_process_active products (buildById supplies)) (st1, b1, ev1)
          with ⟨st2, b2, ev2⟩
      obtain ⟨n1, n2, n3, n4, n5⟩ :=
        fbw_loop2_master products (buildById supplies) st1.supplies st1 b1
          ev1 _ hacc2 (m8 hnd) (m8 hnd) (fun e he => he)
          (fun e' he' => Or.inl (List.mem_map_of_mem Prod.fst he'))
      have hr : fbwRun fbw products now supplies st0 b0 =
          (st2, b2, ev2 ++ [Ev.saveFbwState]) := by
        rw [hrun]
        show ((((buildById supplies).foldl
          (fbw_import_supply fbw products boot)
            (st0, b0, [])).1.supplies.foldl
            (fbw_process_active products (buildById supplies))
            ((buildById supplies).foldl (fbw_import_supply fbw products boot)
              (st0, b0, []))).1, _, _) = _
        rw [hacc1]
        show ((st1.supplies.foldl
          (fbw_process_active products (buildById supplies))
          (st1, b1, ev1)).1, _, _) = _
        rw [hacc2]
      refine ⟨ev2, by rw [hr], ?_⟩
      intro hc
      rcases n5 _ hc with h' | ⟨ec, h'⟩ | ⟨ec, h'⟩
      · rcases mE1 _ h' with h2 | ⟨k, hk, hev2, -⟩
        · exact absurd h2 (List.not_mem_nil _)
        · exact Ev.noConfusion hev2
      · exact Ev.noConfusion h'
      · exact Ev.noConfusion h'

/-- Two fresh orders, both creating. -/
def ordersC9 : List WBOrder :=
  [⟨"1", "A", some "new", some "waiting", some 10⟩,
   ⟨"2", "A", some "new", some "waiting", some 10⟩]

/-- C9 counterexample: a pass that creates two orders saves the
`ms_created` run-state file twice, each time right after the creation and
before the next entity is processed — the trace is
create 1, save, create 2, save, save-active — refuting "no run-state file
is persisted per-entity; each is saved exactly once, after all entities
have been processed". -/
theorem claim_C9_counterexample :
    ∃ out, runOrdersPass cfgConfirmBoth ["A"] (fun _ => ApplyResult.ok)
        "SRV" ordersC9 (initOrdState emptyBackend [] []) = .ok out ∧
      out.events = [Ev.createOrder "1", Ev.saveMsCreated,
        Ev.createOrder "2", Ev.saveMsCreated, Ev.saveActive] := by
  exact ⟨_, rfl, rfl⟩

theorem claim_C9_witness :
    (∃ out, runOrdersPass cfgConfirmBoth ["A"] (fun _ => ApplyResult.ok)
        "SRV" [oGoodC6] (initOrdState emptyBackend [] []) = .ok out ∧
      ∃ evs, out.events = evs ++ [Ev.saveActive] ∧
        Ev.saveActive ∉ evs ∧
        countSaveMs evs = countCreateOrders evs) ∧
    (∃ evs, (fbwRun ⟨"CO", "MV", "DM"⟩ ["A"] 50 [supplyW] ⟨some 40, []⟩
        emptyBackend).2.2 = evs ++ [Ev.saveFbwState] ∧
      Ev.saveFbwState ∉ evs) := by
  have h := claim_C9_amended_save_points cfgConfirmBoth ["A"]
    (fun _ => ApplyResult.ok) "SRV"
  exact ⟨⟨_, rfl, h.1 [oGoodC6] emptyBackend [] [] _ rfl rfl⟩,
    h.2 ⟨"CO", "MV", "DM"⟩ 50 [supplyW] ⟨some 40, []⟩ emptyBackend
      (by decide)⟩

end WbMs
